import Mathlib

/-! Embedded-boundary kernel (`embed.h`, `centered.h`): a shallow embedding.

Conventions of the embedding.

* `double` values are exact rationals (`ℚ`); the claims proved here are the
  exact-arithmetic readings of the source (no rounding, no NaN).
* A cell is an element of an index group `G`; the grid supplies the two unit
  displacements `ex`, `ey` (2D build, `dimension == 2`), the uniform cell size
  `Delta`, and the list `cells` traversed by `foreach()`.  With `G = ℤ × ℤ`
  cells outside `cells` are ghost cells; with `G = ZMod n × ZMod m` the grid is
  periodic.
* The stencil access `a[i,j]` at the current `point` is `a (gr.nb point i j)`.
* `foreach_dimension()` rotates `x ↔ y`: the `_y` instance of a function is
  its `_x` instance on the rotated grid (`Grid.rot`) and rotated vector fields
  (`FaceVector.rot`).
* C truthiness of a `double` `v` is `v ≠ 0`.
-/

namespace Embed

/-- A `scalar` field: one value per cell. -/
abbrev Scalar (G : Type) := G → ℚ

/-- A `face vector` / `vector` field: one scalar field per axis.  For a face
vector, `x p` lives on the face between `p - ex` and `p`. -/
structure FaceVector (G : Type) where
  x : Scalar G
  y : Scalar G

/-- The grid substrate: unit displacements, cell size and the `foreach()` traversal. -/
structure Grid (G : Type) where
  ex : G
  ey : G
  Delta : ℚ
  cells : List G

set_option linter.unusedSectionVars false

variable {G : Type} [AddCommGroup G] [DecidableEq G]

/-- The `foreach_dimension()` rotation of a vector field. -/
def FaceVector.rot (v : FaceVector G) : FaceVector G := ⟨v.y, v.x⟩

/-- The `foreach_dimension()` rotation of the grid axes. -/
def Grid.rot (gr : Grid G) : Grid G := ⟨gr.ey, gr.ex, gr.Delta, gr.cells⟩

/-- Stencil neighbour: the cell addressed by `[i,j]` from `p`. -/
def Grid.nb (gr : Grid G) (p : G) (i j : Int) : G := p + i • gr.ex + j • gr.ey

/-- The x-faces visited by `foreach_face()`: the left face of every cell, and the
right face of a cell whose right neighbour is not traversed. -/
def Grid.facesX (gr : Grid G) : List G :=
  gr.cells ++ (gr.cells.map (fun p => gr.nb p 1 0)).filter (fun q => q ∉ gr.cells)

/-- The y-faces visited by `foreach_face()`. -/
def Grid.facesY (gr : Grid G) : List G := gr.rot.facesX

/-! ## `fractions_cleanup` (embed.h:199-234) -/

/-- Body of `foreach_face()` for an x-face (embed.h:208-209):
`if (s.x[] && ((!c[] || !c[-1]) || s.x[] < smin)) s.x[] = 0.;` -/
def cleanup_face_x (gr : Grid G) (c : Scalar G) (smin : ℚ) (sx : Scalar G) (p : G) : Scalar G :=
  if sx p ≠ 0 ∧ ((c p = 0 ∨ c (gr.nb p (-1) 0) = 0) ∨ sx p < smin) then
    Function.update sx p 0
  else sx

/-- The whole `foreach_face()` loop of one pass (embed.h:207-209). -/
def cleanup_faces (gr : Grid G) (c : Scalar G) (smin : ℚ) (s : FaceVector G) : FaceVector G :=
  ⟨gr.facesX.foldl (cleanup_face_x gr c smin) s.x,
   gr.facesY.foldl (cleanup_face_x gr.rot c smin) s.y⟩

/-- Body of `foreach_dimension()` inside the cell loop (embed.h:215-222), on the
two faces `s0 = s.x[]`, `s1 = s.x[1]` of the current axis.  The state is
`(c[], changed, n)`. -/
def cleanup_axis (opposite : Bool) (s0 s1 : ℚ) (st : ℚ × Nat × Nat) : ℚ × Nat × Nat :=
  let n := st.2.2 + (if s0 > 0 then 1 else 0) + (if s1 > 0 then 1 else 0)
  if opposite = true ∧ s0 = 0 ∧ s1 = 0 then (0, st.2.1 + 1, n) else (st.1, st.2.1, n)

/-- Body of the cell loop for a cell holding the value `v = c[]`
(embed.h:213-226): the new value of `c[]` and the number of `changed++`. -/
def cleanup_cell_body (gr : Grid G) (s : FaceVector G) (opposite : Bool) (p : G) (v : ℚ) :
    ℚ × Nat :=
  if 0 < v ∧ v < 1 then
    let a := cleanup_axis opposite (s.y p) (s.y (gr.nb p 0 1))
      (cleanup_axis opposite (s.x p) (s.x (gr.nb p 1 0)) (v, 0, 0))
    if a.2.2 < 2 then (0, a.2.1 + 1) else (a.1, a.2.1)
  else (v, 0)

/-- One iteration of `foreach(reduction(+:changed))` (embed.h:212-226). -/
def cleanup_cell (gr : Grid G) (s : FaceVector G) (opposite : Bool)
    (st : Scalar G × Nat) (p : G) : Scalar G × Nat :=
  (Function.update st.1 p (cleanup_cell_body gr s opposite p (st.1 p)).1,
   st.2 + (cleanup_cell_body gr s opposite p (st.1 p)).2)

/-- The whole cell loop of one pass, starting from `changed = 0`. -/
def cleanup_cells (gr : Grid G) (s : FaceVector G) (opposite : Bool) (c : Scalar G) :
    Scalar G × Nat :=
  gr.cells.foldl (cleanup_cell gr s opposite) (c, 0)

/-- The local variables and fields of `fractions_cleanup`. -/
structure CleanupState (G : Type) where
  c : Scalar G
  s : FaceVector G
  changed : Nat
  schanged : Nat
  i : Nat

/-- One pass of the `for` loop body (embed.h:205-229). -/
def cleanup_pass (gr : Grid G) (smin : ℚ) (opposite : Bool) (st : CleanupState G) :
    CleanupState G :=
  let s1 := cleanup_faces gr st.c smin st.s
  let r := cleanup_cells gr s1 opposite st.c
  ⟨r.1, s1, r.2, st.schanged + r.2, st.i + 1⟩

/-- The loop `for (i = 0; i < 100 && changed; i++)`, with `k` the number of
iterations still allowed by the bound `i < 100`. -/
def cleanup_loop (gr : Grid G) (smin : ℚ) (opposite : Bool) :
    Nat → CleanupState G → CleanupState G
  | 0, st => st
  | k + 1, st =>
    if st.changed ≠ 0 then cleanup_loop gr smin opposite k (cleanup_pass gr smin opposite st)
    else st

/-- The function `fractions_cleanup (c, s, smin, opposite)`: the final state.  The
returned integer is `.schanged`; the non-convergence warning is printed iff
`.changed ≠ 0`; the fields `c`, `s` are updated in place to `.c`, `.s`. -/
def fractions_cleanup (gr : Grid G) (c : Scalar G) (s : FaceVector G)
    (smin : ℚ) (opposite : Bool) : CleanupState G :=
  cleanup_loop gr smin opposite 100 ⟨c, s, 1, 0, 0⟩

/-- Number of bounding faces of cell `p` with `s > 0` (the counter `n` of the cell loop). -/
def open_faces (gr : Grid G) (s : FaceVector G) (p : G) : Nat :=
  (if s.x p > 0 then 1 else 0) + (if s.x (gr.nb p 1 0) > 0 then 1 else 0) +
  (if s.y p > 0 then 1 else 0) + (if s.y (gr.nb p 0 1) > 0 then 1 else 0)

/-- Number of coordinate axes of cell `p` with at least one non-zero bounding face. -/
def open_axes (gr : Grid G) (s : FaceVector G) (p : G) : Nat :=
  (if s.x p ≠ 0 ∨ s.x (gr.nb p 1 0) ≠ 0 then 1 else 0) +
  (if s.y p ≠ 0 ∨ s.y (gr.nb p 0 1) ≠ 0 then 1 else 0)

/-- Number of `changed++` executed by the cell body on a cut cell. -/
def cleanup_count (gr : Grid G) (s : FaceVector G) (opp : Bool) (p : G) : Nat :=
  (if opp = true ∧ s.x p = 0 ∧ s.x (gr.nb p 1 0) = 0 then 1 else 0) +
  (if opp = true ∧ s.y p = 0 ∧ s.y (gr.nb p 0 1) = 0 then 1 else 0) +
  (if open_faces gr s p < 2 then 1 else 0)

/-- Value left in `s.x[]` by the face body when it holds `v`. -/
def cleanup_face_val (gr : Grid G) (c : Scalar G) (smin : ℚ) (p : G) (v : ℚ) : ℚ :=
  if v ≠ 0 ∧ ((c p = 0 ∨ c (gr.nb p (-1) 0) = 0) ∨ v < smin) then 0 else v

/-- Number of traversed cells whose fraction differs between `c` and `c1`. -/
def cells_changed (gr : Grid G) (c c1 : Scalar G) : Nat :=
  (gr.cells.dedup.filter (fun p => decide (c1 p ≠ c p))).length

/-! ## Cut-face operators, 2D build (embed.h:17-44, 117-139) -/

/-- Modelled from the spec: the `sign` macro, declared outside `src/`: `+1` for a
positive argument and `-1` otherwise. -/
def sign (v : ℚ) : Int := if v > 0 then 1 else -1

/-- The macro `cs_avg(a,i,j,0)` (embed.h:17-19). -/
def cs_avg (gr : Grid G) (cs a : Scalar G) (pt : G) (i j : Int) : ℚ :=
  (a (gr.nb pt i j) * (3 / 2 + cs (gr.nb pt i j)) +
    a (gr.nb pt (i - 1) j) * (3 / 2 + cs (gr.nb pt (i - 1) j))) /
  (cs (gr.nb pt i j) + cs (gr.nb pt (i - 1) j) + 3)

/-- The macro `face_condition(fs, cs)` of the 2D build (embed.h:22-24), for the
`i`, `j` in scope at its use. -/
def face_condition (gr : Grid G) (fs : FaceVector G) (cs : Scalar G) (pt : G) (i j : Int) : Prop :=
  fs.x (gr.nb pt i j) > 1 / 2 ∧
  fs.y (gr.nb pt i (j + (if j < 0 then 1 else 0))) ≠ 0 ∧
  fs.y (gr.nb pt (i - 1) (j + (if j < 0 then 1 else 0))) ≠ 0 ∧
  cs (gr.nb pt i j) ≠ 0 ∧ cs (gr.nb pt (i - 1) j) ≠ 0

instance face_condition_decidable (gr : Grid G) (fs : FaceVector G) (cs : Scalar G) (pt : G)
    (i j : Int) : Decidable (face_condition gr fs cs pt i j) := by
  unfold face_condition; infer_instance

/-- The offset row `j = sign(fs.x[i,1] - fs.x[i,-1])` (embed.h:29, 40). -/
def face_row (gr : Grid G) (fs : FaceVector G) (pt : G) (i : Int) : Int :=
  sign (fs.x (gr.nb pt i 1) - fs.x (gr.nb pt i (-1)))

/-- The function `embed_face_gradient_x` (embed.h:26-35); `none` is the failure of
`assert (cs[i] && cs[i-1])`. -/
def embed_face_gradient_x (gr : Grid G) (fs : FaceVector G) (cs : Scalar G) (pt : G)
    (a : Scalar G) (i : Int) : Option ℚ :=
  let j := face_row gr fs pt i
  if cs (gr.nb pt i 0) ≠ 0 ∧ cs (gr.nb pt (i - 1) 0) ≠ 0 then
    if face_condition gr fs cs pt i j then
      some (((1 + fs.x (gr.nb pt i 0)) * (a (gr.nb pt i 0) - a (gr.nb pt (i - 1) 0)) +
        (1 - fs.x (gr.nb pt i 0)) * (a (gr.nb pt i j) - a (gr.nb pt (i - 1) j))) /
        (2 * gr.Delta))
    else some ((a (gr.nb pt i 0) - a (gr.nb pt (i - 1) 0)) / gr.Delta)
  else none

/-- The function `embed_face_value_x` (embed.h:37-44). -/
def embed_face_value_x (gr : Grid G) (fs : FaceVector G) (cs : Scalar G) (pt : G)
    (a : Scalar G) (i : Int) : ℚ :=
  let j := face_row gr fs pt i
  if face_condition gr fs cs pt i j then
    ((1 + fs.x (gr.nb pt i 0)) * cs_avg gr cs a pt i 0 +
      (1 - fs.x (gr.nb pt i 0)) * cs_avg gr cs a pt i j) / 2
  else cs_avg gr cs a pt i 0

/-- The macro `face_gradient_x(a,i)` (embed.h:117-121); `third` is the attribute
`a.third` of the field. -/
def face_gradient_x (gr : Grid G) (fs : FaceVector G) (cs : Scalar G) (pt : G)
    (a : Scalar G) (third : Bool) (i : Int) : Option ℚ :=
  if third = true ∧ fs.x (gr.nb pt i 0) < 1 ∧ fs.x (gr.nb pt i 0) > 0 then
    embed_face_gradient_x gr fs cs pt a i
  else some ((a (gr.nb pt i 0) - a (gr.nb pt (i - 1) 0)) / gr.Delta)

/-- The macro `face_value(a,i)` (embed.h:135-139). -/
def face_value (gr : Grid G) (fs : FaceVector G) (cs : Scalar G) (pt : G)
    (a : Scalar G) (third : Bool) (i : Int) : ℚ :=
  if third = true ∧ fs.x (gr.nb pt i 0) < 1 ∧ fs.x (gr.nb pt i 0) > 0 then
    embed_face_value_x gr fs cs pt a i
  else cs_avg gr cs a pt i 0

/-! ## `correction` (centered.h:187-192) -/

/-- The two cell-centred vector fields touched by `correction`: the velocity `u`
and the acceleration `g`. -/
structure FlowState (G : Type) where
  u : FaceVector G
  g : FaceVector G

/-- Body of `foreach() foreach_dimension() u.x[] += dt*g.x[];` for one cell. -/
def correction_cell (dt : ℚ) (g : FaceVector G) (u : FaceVector G) (p : G) : FaceVector G :=
  ⟨Function.update u.x p (u.x p + dt * g.x p), Function.update u.y p (u.y p + dt * g.y p)⟩

/-- The function `correction (dt)` (centered.h:187-192). -/
def correction (gr : Grid G) (dt : ℚ) (st : FlowState G) : FlowState G :=
  ⟨gr.cells.foldl (correction_cell dt st.g) st.u, st.g⟩

/-! ## `dirichlet_gradient_x`, 2D build (embed.h:236-297) -/

/-- The type `coord` in 2D. -/
structure Coord where
  x : ℚ
  y : ℚ

/-- The macro `quadratic(x,a1,a2,a3)` (embed.h:236-237). -/
def quadratic (x a1 a2 a3 : ℚ) : ℚ :=
  (a1 * (x - 1) + a3 * (x + 1)) * x / 2 - a2 * (x - 1) * (x + 1)

/-- One iteration `l` of the standoff loop (embed.h:252-261), for the already
negated normal `n`: the distance `d[l]`, whether the stencil test passes, and the
value `quadratic (y1, s[i,j-1], s[i,j], s[i,j+1])`. -/
def dirichlet_standoff (gr : Grid G) (fs : FaceVector G) (pt : G) (s cs : Scalar G)
    (n p : Coord) (l : Int) : ℚ × Bool × ℚ :=
  let i : Int := (l + 1) * sign n.x
  let d : ℚ := ((i : ℚ) - p.x) / n.x
  let y1 : ℚ := p.y + d * n.y
  let j : Int := if y1 > 1 / 2 then 1 else if y1 < -(1 / 2) then -1 else 0
  let y1 : ℚ := y1 - (j : ℚ)
  (d,
   decide (fs.x (gr.nb pt (i + (if i < 0 then 1 else 0)) j) ≠ 0 ∧
     fs.y (gr.nb pt i j) ≠ 0 ∧ fs.y (gr.nb pt i (j + 1)) ≠ 0 ∧
     cs (gr.nb pt i (j - 1)) ≠ 0 ∧ cs (gr.nb pt i j) ≠ 0 ∧ cs (gr.nb pt i (j + 1)) ≠ 0),
   quadratic y1 (s (gr.nb pt i (j - 1))) (s (gr.nb pt i j)) (s (gr.nb pt i (j + 1))))

/-- The flag `defined` after embed.h:247-250, for the already negated normal `n`. -/
def dirichlet_defined (gr : Grid G) (fs : FaceVector G) (pt : G) (n : Coord) : Prop :=
  fs.x (gr.nb pt (if n.x > 0 then 1 else 0) 0) ≠ 0 ∧
  fs.y (gr.nb pt 0 (if n.y > 0 then 1 else 0)) ≠ 0

instance dirichlet_defined_decidable (gr : Grid G) (fs : FaceVector G) (pt : G) (n : Coord) :
    Decidable (dirichlet_defined gr fs pt n) := by
  unfold dirichlet_defined; infer_instance

/-- The arrays `d[2]`, `v[2]` on leaving the standoff loop (embed.h:244-285), as
`(d[0], d[1], v[0], v[1])`, for the normal `n` as passed in.  `nodata` is the
sentinel constant (declared outside `src/`); an entry of `d` that the source leaves
unassigned is never read and is given as `0`. -/
def dirichlet_samples (gr : Grid G) (nodata : ℚ) (fs : FaceVector G) (pt : G)
    (s cs : Scalar G) (n p : Coord) : ℚ × ℚ × ℚ × ℚ :=
  let n : Coord := ⟨-n.x, -n.y⟩
  if dirichlet_defined gr fs pt n then
    let r0 := dirichlet_standoff gr fs pt s cs n p 0
    if r0.2.1 = true then
      let r1 := dirichlet_standoff gr fs pt s cs n p 1
      if r1.2.1 = true then (r0.1, r1.1, r0.2.2, r1.2.2)
      else (r0.1, r1.1, r0.2.2, nodata)
    else (r0.1, 0, nodata, nodata)
  else (0, 0, nodata, nodata)

/-- The function `dirichlet_gradient_x` (embed.h:239-297): the returned value and
the value stored in `*coef`. -/
def dirichlet_gradient_x (gr : Grid G) (nodata : ℚ) (fs : FaceVector G) (pt : G)
    (s cs : Scalar G) (n p : Coord) (bc : ℚ) : ℚ × ℚ :=
  let r := dirichlet_samples gr nodata fs pt s cs n p
  let d0 := r.1
  let d1 := r.2.1
  let v0 := r.2.2.1
  let v1 := r.2.2.2
  if v0 = nodata then
    let d0 := max (1 / 1000) |p.x / (-n.x)|
    (bc / (d0 * gr.Delta), -1 / (d0 * gr.Delta))
  else if v1 ≠ nodata then
    ((d1 * (bc - v0) / d0 - d0 * (bc - v1) / d1) / ((d1 - d0) * gr.Delta), 0)
  else ((bc - v0) / (d0 * gr.Delta), 0)

/-! ## `update_tracer` (embed.h:465-515) -/

/-- The constant `SEPS` (embed.h:14-15). -/
def SEPS : ℚ := 1 / 10 ^ 30

/-- The accumulation `foreach_neighbor(1) acc += h[]` over the 3×3 block around `p`. -/
def neighbor_sum (gr : Grid G) (h : Scalar G) (p : G) : ℚ :=
  (([-1, 0, 1] : List Int).map fun i =>
    (([-1, 0, 1] : List Int).map fun j => h (gr.nb p i j)).sum).sum

/-- The maximum `umax` of embed.h:482-486. -/
def tracer_umax (gr : Grid G) (uf : FaceVector G) (p : G) : ℚ :=
  let step := fun (umax v : ℚ) => if |v| > umax then |v| else umax
  step (step (step (step 0 (uf.x p)) (uf.y p)) (uf.x (gr.nb p 1 0))) (uf.y (gr.nb p 0 1))

/-- The local bound `dtmax` of embed.h:487. -/
def tracer_dtmax (gr : Grid G) (cm : Scalar G) (uf : FaceVector G) (p : G) : ℚ :=
  gr.Delta * cm p / (tracer_umax gr uf p + SEPS)

/-- The sum of `flux.x[] - flux.x[1]` over the axes (embed.h:489-491). -/
def tracer_flux_sum (gr : Grid G) (flux : FaceVector G) (p : G) : ℚ :=
  0 + (flux.x p - flux.x (gr.nb p 1 0)) + (flux.y p - flux.y (gr.nb p 0 1))

/-- Body of the first `foreach()` of `update_tracer` (embed.h:470-507), on the pair
`(f, e)`. -/
def tracer_cell (gr : Grid G) (cs cm : Scalar G) (uf flux : FaceVector G) (dt : ℚ)
    (st : Scalar G × Scalar G) (p : G) : Scalar G × Scalar G :=
  if cs p ≤ 0 then (st.1, Function.update st.2 p 0)
  else if cs p ≥ 1 then
    (Function.update st.1 p
      (st.1 p + dt * (flux.x p - flux.x (gr.nb p 1 0)) / gr.Delta +
        dt * (flux.y p - flux.y (gr.nb p 0 1)) / gr.Delta),
     Function.update st.2 p 0)
  else
    let dtmax := tracer_dtmax gr cm uf p
    let F := tracer_flux_sum gr flux p / (gr.Delta * cm p)
    if dt ≤ dtmax then (Function.update st.1 p (st.1 p + dt * F), Function.update st.2 p 0)
    else
      (Function.update st.1 p (st.1 p + dtmax * F),
       Function.update st.2 p
        ((dt - dtmax) * F * cm p / neighbor_sum gr (fun q => cm q * cm q) p))

/-- Body of the second `foreach()` of `update_tracer` (embed.h:509-514). -/
def tracer_spread_cell (gr : Grid G) (cs e : Scalar G) (f : Scalar G) (p : G) : Scalar G :=
  Function.update f p (f p + cs p * neighbor_sum gr e p)

/-- The function `update_tracer (f, uf, flux, dt)` (embed.h:465-515): the new `f` and
the excess field `e`.  `e0` is the unspecified initial content of the fresh `scalar e[]`. -/
def update_tracer (gr : Grid G) (cs cm : Scalar G) (f : Scalar G) (uf flux : FaceVector G)
    (dt : ℚ) (e0 : Scalar G) : Scalar G × Scalar G :=
  let r := gr.cells.foldl (tracer_cell gr cs cm uf flux dt) (f, e0)
  (gr.cells.foldl (tracer_spread_cell gr cs r.2) r.1, r.2)

/-- The total `Σ cs·f` over the traversed cells. -/
def tracer_total (gr : Grid G) (cs f : Scalar G) : ℚ :=
  (gr.cells.map fun p => cs p * f p).sum

/-- The value written to `f[]` by the first loop of `update_tracer` in a cell holding `v`. -/
def tracer_f_new (gr : Grid G) (cs cm : Scalar G) (uf flux : FaceVector G) (dt : ℚ)
    (p : G) (v : ℚ) : ℚ :=
  if cs p ≤ 0 then v
  else if cs p ≥ 1 then
    v + dt * (flux.x p - flux.x (gr.nb p 1 0)) / gr.Delta +
      dt * (flux.y p - flux.y (gr.nb p 0 1)) / gr.Delta
  else if dt ≤ tracer_dtmax gr cm uf p then
    v + dt * (tracer_flux_sum gr flux p / (gr.Delta * cm p))
  else v + tracer_dtmax gr cm uf p * (tracer_flux_sum gr flux p / (gr.Delta * cm p))

/-- The value written to `e[]` by the first loop of `update_tracer`. -/
def tracer_e_new (gr : Grid G) (cs cm : Scalar G) (uf flux : FaceVector G) (dt : ℚ)
    (p : G) : ℚ :=
  if cs p ≤ 0 then 0
  else if cs p ≥ 1 then 0
  else if dt ≤ tracer_dtmax gr cm uf p then 0
  else (dt - tracer_dtmax gr cm uf p) * (tracer_flux_sum gr flux p / (gr.Delta * cm p)) *
    cm p / neighbor_sum gr (fun q => cm q * cm q) p

/-! ## `prediction`, `acceleration`, `adapt` (centered.h:126-176, 210-215, 240-250) -/

/-- The value stored in `du.x[]` (centered.h:134-153); `gradient` is the attribute
`u.x.gradient` (`none` when unset). -/
def prediction_du_x (gr : Grid G) (fsx ux : Scalar G) (gradient : Option (ℚ → ℚ → ℚ → ℚ))
    (p : G) : ℚ :=
  if fsx p = 0 ∨ fsx (gr.nb p 1 0) = 0 then 0
  else
    match gradient with
    | some lim => lim (ux (gr.nb p (-1) 0)) (ux p) (ux (gr.nb p 1 0)) / gr.Delta
    | none => (ux (gr.nb p 1 0) - ux (gr.nb p (-1) 0)) / (2 * gr.Delta)

/-- The cell loop filling `du` (centered.h:134-153); `du0` is the unspecified content
of the fresh fields. -/
def prediction_du (gr : Grid G) (fs u : FaceVector G) (gradient : Option (ℚ → ℚ → ℚ → ℚ))
    (du0 : FaceVector G) : FaceVector G :=
  gr.cells.foldl (fun du p =>
    ⟨Function.update du.x p (prediction_du_x gr fs.x u.x gradient p),
     Function.update du.y p (prediction_du_x gr.rot fs.y u.y gradient p)⟩) du0

/-- The value stored in `uf.x[]` by the face loop of `prediction` (centered.h:156-173). -/
def prediction_face_x (gr : Grid G) (dt : ℚ) (fm u g du : FaceVector G) (p : G) : ℚ :=
  let un : ℚ := dt * (u.x p + u.x (gr.nb p (-1) 0)) / (2 * gr.Delta)
  let s : Int := sign un
  let i : Int := -(s + 1) / 2
  let v : ℚ := u.x (gr.nb p i 0) + (g.x p + g.x (gr.nb p (-1) 0)) * dt / 4 +
    (s : ℚ) * (1 - (s : ℚ) * un) * du.x (gr.nb p i 0) * gr.Delta / 2
  let v : ℚ :=
    if fm.y (gr.nb p i 0) ≠ 0 ∧ fm.y (gr.nb p i 1) ≠ 0 then
      let fyy : ℚ :=
        if u.y (gr.nb p i 0) < 0 then u.x (gr.nb p i 1) - u.x (gr.nb p i 0)
        else u.x (gr.nb p i 0) - u.x (gr.nb p i (-1))
      v - dt * u.y (gr.nb p i 0) * fyy / (2 * gr.Delta)
    else v
  v * fm.x p

/-- The function `prediction()` (centered.h:126-176): the face velocity `uf`.  `uf0` is
the content of `uf` left by `trash`. -/
def prediction (gr : Grid G) (dt : ℚ) (fs fm u g : FaceVector G)
    (gradient : Option (ℚ → ℚ → ℚ → ℚ)) (du0 uf0 : FaceVector G) : FaceVector G :=
  let du := prediction_du gr fs u gradient du0
  ⟨gr.facesX.foldl (fun ufx p => Function.update ufx p (prediction_face_x gr dt fm u g du p))
      uf0.x,
   gr.facesY.foldl (fun ufy p =>
      Function.update ufy p (prediction_face_x gr.rot dt fm.rot u.rot g.rot du.rot p)) uf0.y⟩

/-- The value stored in `uf.x[]` by the `acceleration` event (centered.h:214). -/
def acceleration_face_x (gr : Grid G) (dt : ℚ) (fs : FaceVector G) (cs : Scalar G)
    (fm u a : FaceVector G) (third : Bool) (p : G) : ℚ :=
  fm.x p * (face_value gr fs cs p u.x third 0 + dt * a.x p)

/-- The event `acceleration` (centered.h:210-215): the face velocity `uf`. -/
def acceleration (gr : Grid G) (dt : ℚ) (fs : FaceVector G) (cs : Scalar G)
    (fm u a : FaceVector G) (third : Bool) (uf0 : FaceVector G) : FaceVector G :=
  ⟨gr.facesX.foldl (fun ufx p =>
      Function.update ufx p (acceleration_face_x gr dt fs cs fm u a third p)) uf0.x,
   gr.facesY.foldl (fun ufy p =>
      Function.update ufy p (acceleration_face_x gr.rot dt fs.rot cs fm.rot u.rot a.rot third p))
      uf0.y⟩

/-- Body of the face loop of the `adapt` event (centered.h:245-246). -/
def adapt_face_x (fsx : Scalar G) (ufx : Scalar G) (p : G) : Scalar G :=
  if ufx p ≠ 0 ∧ fsx p = 0 then Function.update ufx p 0 else ufx

/-- The event `adapt` (centered.h:241-249) up to its call of the `properties` event:
the state left by `fractions_cleanup (cs, fs)` and the face velocity `uf`. -/
def adapt (gr : Grid G) (cs : Scalar G) (fs uf : FaceVector G) :
    CleanupState G × FaceVector G :=
  let r := fractions_cleanup gr cs fs 0 false
  (r, ⟨gr.facesX.foldl (adapt_face_x r.s.x) uf.x, gr.facesY.foldl (adapt_face_x r.s.y) uf.y⟩)

/-! ## Concrete inputs used by the witnesses and counterexamples -/

/-- A 2×1 grid on `ℤ × ℤ` with unit cell size: cells `(5,5)` and `(6,5)`. -/
def gridAB : Grid (Int × Int) := ⟨(1, 0), (0, 1), 1, [(5, 5), (6, 5)]⟩

/-- Both cells of `gridAB` are cut (`c = 1/2`), the ghost cells are fluid. -/
def cAB : Scalar (Int × Int) := fun p => if p = (5, 5) ∨ p = (6, 5) then 1 / 2 else 1

/-- Face fractions on `gridAB`: cell `(5,5)` has three open faces, cell `(6,5)` only
the face it shares with `(5,5)`. -/
def sAB : FaceVector (Int × Int) :=
  ⟨fun p => if p = (5, 5) ∨ p = (6, 5) then 1 else 0, fun p => if p = (5, 5) then 1 else 0⟩

/-- A one-cell grid on `ℤ × ℤ` with unit cell size: the cell `(5,5)`. -/
def gridOne : Grid (Int × Int) := ⟨(1, 0), (0, 1), 1, [(5, 5)]⟩

/-- The fraction `1/2` in every cell. -/
def cHalf : Scalar (Int × Int) := fun _ => 1 / 2

/-- Every face closed. -/
def sClosed : FaceVector (Int × Int) := ⟨fun _ => 0, fun _ => 0⟩

/-- A thin tube along x: the x-faces open, the y-faces closed. -/
def sTube : FaceVector (Int × Int) := ⟨fun _ => 1, fun _ => 0⟩

/-- Every face fully open. -/
def sOpen : FaceVector (Int × Int) := ⟨fun _ => 1, fun _ => 1⟩

/-- Every cell fully fluid. -/
def cFluid : Scalar (Int × Int) := fun _ => 1

/-- A scalar field on `ℤ × ℤ` that is not linear. -/
def aField : Scalar (Int × Int) := fun p => (p.1 : ℚ) ^ 2 + 3 * (p.2 : ℚ)

/-- Face fractions around the x-face of `(5,5)`: that face is open by `3/10` only, the
x-face of the row above is fully open, the x-face of the row below is closed; every
y-face is fully open. -/
def sCut : FaceVector (Int × Int) :=
  ⟨fun p => if p = (5, 5) then 3 / 10 else if p = (5, 6) then 1 else 0, fun _ => 1⟩

/-- The indicator of the cell `(5,5)`. -/
def aSpike : Scalar (Int × Int) := fun p => if p = (5, 5) then 1 else 0

/-- A linear field around `(5,5)`: value 7 there, slope 2 along x and 3 along y. -/
def sLin : Scalar (Int × Int) := fun p => 7 + (2 * ((p.1 : ℚ) - 5) + 3 * ((p.2 : ℚ) - 5))

/-- A 3×3 periodic grid with unit cell size. -/
def gridTorus : Grid (ZMod 3 × ZMod 3) :=
  ⟨(1, 0), (0, 1), 1,
    [(0, 0), (0, 1), (0, 2), (1, 0), (1, 1), (1, 2), (2, 0), (2, 1), (2, 2)]⟩

/-- Fractions on `gridTorus`: `(0,0)` is cut (`1/2`), `(1,1)` is solid, the rest is fluid. -/
def csTorus : Scalar (ZMod 3 × ZMod 3) :=
  fun p => if p = (0, 0) then 1 / 2 else if p = (1, 1) then 0 else 1

/-- A flux on `gridTorus` entering only through the x-face of `(0,0)`. -/
def fluxTorus : FaceVector (ZMod 3 × ZMod 3) :=
  ⟨fun p => if p = (0, 0) then 1 else 0, fun _ => 0⟩

/-- Unit face velocity on `gridTorus`. -/
def ufTorus : FaceVector (ZMod 3 × ZMod 3) := ⟨fun _ => 1, fun _ => 1⟩

/-- Face fractions around the x-face of `(5,5)`: that face is open by `3/4`, the x-face
of the row above is fully open, the x-face of the row below is closed; every y-face is
half open. -/
def sHalfY : FaceVector (Int × Int) :=
  ⟨fun p => if p = (5, 5) then 3 / 4 else if p = (5, 6) then 1 else 0, fun _ => 1 / 2⟩

/-- Every face half open. -/
def sHalf : FaceVector (Int × Int) := ⟨fun _ => 1 / 2, fun _ => 1 / 2⟩

/-- Number of traversed cut cells (`0 < c < 1`). -/
def cut_cells (gr : Grid G) (c : Scalar G) : Nat :=
  (gr.cells.toFinset.filter (fun p => 0 < c p ∧ c p < 1)).card

/-! ## `dirichlet_gradient` (embed.h:299-316) -/

/-- The coordinate axes. -/
inductive Axis where
  | x : Axis
  | y : Axis
  | z : Axis
  deriving DecidableEq

/-- The `foreach_dimension()` instance `dirichlet_gradient_y` of `dirichlet_gradient_x`
(2D build). -/
def dirichlet_gradient_y (gr : Grid G) (nodata : ℚ) (fs : FaceVector G) (pt : G)
    (s cs : Scalar G) (n p : Coord) (bc : ℚ) : ℚ × ℚ :=
  dirichlet_gradient_x gr.rot nodata fs.rot pt s cs ⟨n.y, n.x⟩ ⟨p.y, p.x⟩ bc

/-- The axis variant that `dirichlet_gradient` calls in the 2D build (embed.h:302-305);
`none` is the fall-through to the trailing `return nodata` (embed.h:315). -/
def dirichlet_gradient_axis (n : Coord) : Option Axis :=
  if |n.x| ≥ |n.y| then some Axis.x
  else if |n.y| ≥ |n.x| then some Axis.y
  else none

/-- The function `dirichlet_gradient` of the 2D build (embed.h:299-316): the returned
value and the content of `*coef`, which holds `coef0` on entry. -/
def dirichlet_gradient (gr : Grid G) (nodata : ℚ) (fs : FaceVector G) (pt : G)
    (s cs : Scalar G) (n p : Coord) (bc coef0 : ℚ) : ℚ × ℚ :=
  match dirichlet_gradient_axis n with
  | some Axis.x => dirichlet_gradient_x gr nodata fs pt s cs n p bc
  | some Axis.y => dirichlet_gradient_y gr nodata fs pt s cs n p bc
  | _ => (nodata, coef0)

/-- The type `coord` in 3D. -/
structure Coord3 where
  x : ℚ
  y : ℚ
  z : ℚ

/-- The axis variant that `dirichlet_gradient` calls in the 3D build (embed.h:307-313). -/
def dirichlet_gradient_axis3 (n : Coord3) : Axis :=
  if |n.x| ≥ |n.y| then
    if |n.x| ≥ |n.z| then Axis.x else Axis.z
  else if |n.y| ≥ |n.z| then Axis.y
  else Axis.z

/-! ## `embed_flux` (embed.h:381-412) -/

/-- The geometric primitives used by `embed_flux`, all declared outside `src/`:
`facet_normal (point, cs, fs)`, `plane_alpha`, `plane_area_center` (area and centre),
`normalize`, and the optional hook `metric_embed_factor` (`none` when `NULL`). -/
structure EmbedGeometry (G : Type) where
  facet_normal : G → Coord
  plane_alpha : ℚ → Coord → ℚ
  plane_area_center : Coord → ℚ → ℚ × Coord
  normalize : Coord → Coord
  metric_embed_factor : Option (G → Coord → ℚ)

/-- The function `embed_flux` (embed.h:381-412): the returned implicit coefficient and
the content of `*val`.  `bc pt s` is the callback `s.boundary[embed]`: its value and the
flag `dirichlet` it leaves. -/
def embed_flux (geo : EmbedGeometry G) (gr : Grid G) (nodata : ℚ) (fs : FaceVector G)
    (cs : Scalar G) (fm : FaceVector G) (bc : G → Scalar G → ℚ × Bool) (pt : G)
    (s : Scalar G) (mu : FaceVector G) : ℚ × ℚ :=
  if cs pt ≥ 1 ∨ cs pt ≤ 0 then (0, 0)
  else
    let b := bc pt s
    if b.1 = 0 ∧ b.2 = false then (0, 0)
    else
      let n := geo.facet_normal pt
      let alpha := geo.plane_alpha (cs pt) n
      let ac := geo.plane_area_center n alpha
      let area : ℚ :=
        match geo.metric_embed_factor with
        | some m => ac.1 * m pt ac.2
        | none => ac.1
      let gc : ℚ × ℚ :=
        if b.2 = true then
          dirichlet_gradient gr nodata fs pt s cs (geo.normalize n) ac.2 b.1 0
        else (b.1, 0)
      let mua : ℚ := 0 + (mu.x pt + mu.x (gr.nb pt 1 0)) + (mu.y pt + mu.y (gr.nb pt 0 1))
      let fa : ℚ := 0 + (fm.x pt + fm.x (gr.nb pt 1 0)) + (fm.y pt + fm.y (gr.nb pt 0 1))
      (-mua / (fa + SEPS) * gc.2 * area / gr.Delta, -mua / (fa + SEPS) * gc.1 * area / gr.Delta)

/-! ## `centered_gradient`, `projection` (centered.h:217-236) -/

/-- The value stored in `gf.x[]` (centered.h:222). -/
def centered_gradient_face_x (gr : Grid G) (fm a alpha : FaceVector G) (p : Scalar G)
    (q : G) : ℚ :=
  fm.x q * a.x q - alpha.x q * (p q - p (gr.nb q (-1) 0)) / gr.Delta

/-- The value stored in `g.x[]` (centered.h:227). -/
def centered_gradient_cell_x (gr : Grid G) (fm gf : FaceVector G) (q : G) : ℚ :=
  (gf.x q + gf.x (gr.nb q 1 0)) / (fm.x q + fm.x (gr.nb q 1 0) + SEPS)

/-- The function `centered_gradient (p, g)` (centered.h:217-228): the new `g`.  `gf0` is
the content of the fresh `gf`, `g0` the content of `g` left by `trash`. -/
def centered_gradient (gr : Grid G) (fm a alpha : FaceVector G) (p : Scalar G)
    (gf0 g0 : FaceVector G) : FaceVector G :=
  let gf : FaceVector G :=
    ⟨gr.facesX.foldl (fun f q =>
        Function.update f q (centered_gradient_face_x gr fm a alpha p q)) gf0.x,
     gr.facesY.foldl (fun f q =>
        Function.update f q (centered_gradient_face_x gr.rot fm.rot a.rot alpha.rot p q)) gf0.y⟩
  gr.cells.foldl (fun g q =>
    ⟨Function.update g.x q (centered_gradient_cell_x gr fm gf q),
     Function.update g.y q (centered_gradient_cell_x gr.rot fm.rot gf.rot q)⟩) g0

/-- The event `projection` (centered.h:230-236): the fields `u`, `g` it leaves.
`project` is the multigrid solve (declared outside `src/`), giving the face velocity
and the pressure. -/
def projection (gr : Grid G) (dt : ℚ) (fm a alpha : FaceVector G)
    (project : FaceVector G → Scalar G → FaceVector G × Scalar G)
    (uf : FaceVector G) (p : Scalar G) (st : FlowState G) (gf0 : FaceVector G) : FlowState G :=
  let r := project uf p
  correction gr dt ⟨st.u, centered_gradient gr fm a alpha r.2 gf0 st.g⟩

/-- Fractions with the cell `(5,5)` solid and every other cell fluid. -/
def cSolid55 : Scalar (Int × Int) := fun p => if p = (5, 5) then 0 else 1

/-- Face fractions with the x-face of `(5,5)` half open and every other face open. -/
def sHalf55 : FaceVector (Int × Int) :=
  ⟨fun p => if p = (5, 5) then 1 / 2 else 1, fun _ => 1⟩

/-- A geometry for the witnesses: unit normal along x, unit facet area centred in the
cell, no metric factor. -/
def geoFlat : EmbedGeometry (Int × Int) :=
  ⟨fun _ => ⟨1, 0⟩, fun _ _ => 0, fun _ _ => (1, ⟨0, 0⟩), fun n => n, none⟩

/-- An embedded boundary condition of Neumann type with value 3. -/
def bcNeumann : Int × Int → Scalar (Int × Int) → ℚ × Bool := fun _ _ => (3, false)

/-! ## `embed_interpolate` (embed.h:170-190) -/

/-- Body of `foreach_dimension()` in the fallback branch of `embed_interpolate`
(embed.h:181-187), for the x axis: the new `val`, for the component `px = p.x`. -/
def embed_interpolate_axis (gr : Grid G) (cs s : Scalar G) (pt : G) (px : ℚ) (val : ℚ) : ℚ :=
  let i : Int := sign px
  if cs (gr.nb pt i 0) ≠ 0 then val + |px| * (s (gr.nb pt i 0) - s pt)
  else if cs (gr.nb pt (-i) 0) ≠ 0 then val + |px| * (s pt - s (gr.nb pt (-i) 0))
  else val

/-- The function `embed_interpolate` (embed.h:170-190); `assert (dimension == 2)` holds
in the 2D build. -/
def embed_interpolate (gr : Grid G) (cs : Scalar G) (pt : G) (s : Scalar G) (p : Coord) : ℚ :=
  let i : Int := sign p.x
  let j : Int := sign p.y
  if cs (gr.nb pt i 0) ≠ 0 ∧ cs (gr.nb pt 0 j) ≠ 0 ∧ cs (gr.nb pt i j) ≠ 0 then
    (s pt * (1 - |p.x|) + s (gr.nb pt i 0) * |p.x|) * (1 - |p.y|) +
      (s (gr.nb pt 0 j) * (1 - |p.x|) + s (gr.nb pt i j) * |p.x|) * |p.y|
  else
    embed_interpolate_axis gr.rot cs s pt p.y (embed_interpolate_axis gr cs s pt p.x (s pt))

/-- Fractions with the column to the right of `(5,5)` solid and every other cell fluid. -/
def cWallRight : Scalar (Int × Int) := fun p => if p.1 = 6 then 0 else 1

/-! ## Lemmas on the two sweeps of `fractions_cleanup` -/

theorem cleanup_face_x_apply (gr : Grid G) (c : Scalar G) (smin : ℚ) (sx : Scalar G) (p q : G) :
    cleanup_face_x gr c smin sx p q =
      if q = p then cleanup_face_val gr c smin p (sx p) else sx q := by
  unfold cleanup_face_x cleanup_face_val
  by_cases h : sx p ≠ 0 ∧ ((c p = 0 ∨ c (gr.nb p (-1) 0) = 0) ∨ sx p < smin)
  · rw [if_pos h, if_pos h]
    by_cases hq : q = p
    · subst hq; simp
    · simp [Function.update_noteq hq, hq]
  · rw [if_neg h, if_neg h]
    by_cases hq : q = p
    · subst hq; simp
    · simp [hq]

theorem cleanup_face_val_idem (gr : Grid G) (c : Scalar G) (smin : ℚ) (p : G) (v : ℚ) :
    cleanup_face_val gr c smin p (cleanup_face_val gr c smin p v) = cleanup_face_val gr c smin p v := by
  unfold cleanup_face_val
  by_cases h : v ≠ 0 ∧ ((c p = 0 ∨ c (gr.nb p (-1) 0) = 0) ∨ v < smin)
  · simp [h]
  · simp [h]

theorem foldl_cleanup_face_apply (gr : Grid G) (c : Scalar G) (smin : ℚ) (l : List G) :
    ∀ (sx : Scalar G) (q : G), l.foldl (cleanup_face_x gr c smin) sx q =
      if q ∈ l then cleanup_face_val gr c smin q (sx q) else sx q := by
  induction l with
  | nil => intro sx q; simp
  | cons p l ih =>
    intro sx q
    rw [List.foldl_cons, ih, cleanup_face_x_apply]
    by_cases hq : q = p
    · subst hq
      by_cases hl : q ∈ l
      · simp [hl, cleanup_face_val_idem]
      · simp [hl]
    · by_cases hl : q ∈ l
      · simp [hl, hq]
      · simp [hl, hq]

theorem foldl_cleanup_face_idem (gr : Grid G) (c : Scalar G) (smin : ℚ) (l : List G)
    (sx : Scalar G) :
    l.foldl (cleanup_face_x gr c smin) (l.foldl (cleanup_face_x gr c smin) sx) =
      l.foldl (cleanup_face_x gr c smin) sx := by
  funext q
  rw [foldl_cleanup_face_apply gr c smin l (l.foldl (cleanup_face_x gr c smin) sx) q,
    foldl_cleanup_face_apply gr c smin l sx q]
  by_cases hl : q ∈ l
  · simp [hl, cleanup_face_val_idem]
  · simp [hl]

theorem cleanup_faces_idem (gr : Grid G) (c : Scalar G) (smin : ℚ) (s : FaceVector G) :
    cleanup_faces gr c smin (cleanup_faces gr c smin s) = cleanup_faces gr c smin s := by
  simp [cleanup_faces, foldl_cleanup_face_idem]


theorem cleanup_axis_fst (opp : Bool) (s0 s1 : ℚ) (st : ℚ × Nat × Nat) :
    (cleanup_axis opp s0 s1 st).1 = if opp = true ∧ s0 = 0 ∧ s1 = 0 then 0 else st.1 := by
  unfold cleanup_axis; dsimp only; split_ifs <;> rfl

theorem cleanup_axis_changed (opp : Bool) (s0 s1 : ℚ) (st : ℚ × Nat × Nat) :
    (cleanup_axis opp s0 s1 st).2.1 =
      st.2.1 + if opp = true ∧ s0 = 0 ∧ s1 = 0 then 1 else 0 := by
  unfold cleanup_axis; dsimp only; split_ifs <;> rfl

theorem cleanup_axis_n (opp : Bool) (s0 s1 : ℚ) (st : ℚ × Nat × Nat) :
    (cleanup_axis opp s0 s1 st).2.2 =
      st.2.2 + (if s0 > 0 then 1 else 0) + (if s1 > 0 then 1 else 0) := by
  unfold cleanup_axis; dsimp only; split_ifs <;> rfl

theorem cleanup_cell_body_cut (gr : Grid G) (s : FaceVector G) (opp : Bool) (p : G) (v : ℚ)
    (hv : 0 < v ∧ v < 1) :
    cleanup_cell_body gr s opp p v =
      (if cleanup_count gr s opp p = 0 then v else 0, cleanup_count gr s opp p) := by
  have hn : (cleanup_axis opp (s.y p) (s.y (gr.nb p 0 1))
      (cleanup_axis opp (s.x p) (s.x (gr.nb p 1 0)) (v, 0, 0))).2.2 = open_faces gr s p := by
    rw [cleanup_axis_n, cleanup_axis_n]; simp only [open_faces, zero_add]
  unfold cleanup_cell_body
  rw [if_pos hv]
  simp only [hn, cleanup_axis_changed, cleanup_axis_fst, cleanup_count, zero_add]
  by_cases hx : opp = true ∧ s.x p = 0 ∧ s.x (gr.nb p 1 0) = 0 <;>
  by_cases hy : opp = true ∧ s.y p = 0 ∧ s.y (gr.nb p 0 1) = 0 <;>
  by_cases hk : open_faces gr s p < 2 <;>
  simp [hx, hy, hk]

theorem cleanup_cell_body_not_cut (gr : Grid G) (s : FaceVector G) (opp : Bool) (p : G) (v : ℚ)
    (hv : ¬ (0 < v ∧ v < 1)) : cleanup_cell_body gr s opp p v = (v, 0) := by
  unfold cleanup_cell_body; rw [if_neg hv]

theorem cleanup_cell_body_count_zero (gr : Grid G) (s : FaceVector G) (opp : Bool) (p : G) (v : ℚ)
    (h : (cleanup_cell_body gr s opp p v).2 = 0) :
    (cleanup_cell_body gr s opp p v).1 = v := by
  by_cases hv : 0 < v ∧ v < 1
  · rw [cleanup_cell_body_cut gr s opp p v hv] at h ⊢
    simp only at h
    simp [h]
  · rw [cleanup_cell_body_not_cut gr s opp p v hv]

theorem cleanup_cell_body_idem (gr : Grid G) (s : FaceVector G) (opp : Bool) (p : G) (v : ℚ) :
    cleanup_cell_body gr s opp p (cleanup_cell_body gr s opp p v).1 =
      ((cleanup_cell_body gr s opp p v).1, 0) := by
  by_cases hv : 0 < v ∧ v < 1
  · rw [cleanup_cell_body_cut gr s opp p v hv]
    by_cases hc : cleanup_count gr s opp p = 0
    · simp only [hc, if_true]
      rw [cleanup_cell_body_cut gr s opp p v hv]; simp [hc]
    · simp only [hc, if_false]
      exact cleanup_cell_body_not_cut gr s opp p 0 (by simp)
  · rw [cleanup_cell_body_not_cut gr s opp p v hv]
    exact cleanup_cell_body_not_cut gr s opp p v hv

/-- pointwise value of the cell loop -/
theorem foldl_cleanup_cell_fst (gr : Grid G) (s : FaceVector G) (opp : Bool) (l : List G) :
    ∀ (st : Scalar G × Nat) (q : G), (l.foldl (cleanup_cell gr s opp) st).1 q =
      if q ∈ l then (cleanup_cell_body gr s opp q (st.1 q)).1 else st.1 q := by
  induction l with
  | nil => intro st q; simp
  | cons p l ih =>
    intro st q
    rw [List.foldl_cons, ih]
    by_cases hq : q = p
    · subst hq
      by_cases hl : q ∈ l
      · simp [hl, cleanup_cell, cleanup_cell_body_idem]
      · simp [hl, cleanup_cell]
    · by_cases hl : q ∈ l
      · simp [hl, hq, cleanup_cell, Function.update_noteq hq]
      · simp [hl, hq, cleanup_cell, Function.update_noteq hq]

theorem foldl_cleanup_cell_snd_ge (gr : Grid G) (s : FaceVector G) (opp : Bool) (l : List G) :
    ∀ (st : Scalar G × Nat), st.2 ≤ (l.foldl (cleanup_cell gr s opp) st).2 := by
  induction l with
  | nil => intro st; simp
  | cons p l ih =>
    intro st
    rw [List.foldl_cons]
    exact le_trans (Nat.le_add_right _ _) (ih (cleanup_cell gr s opp st p))

/-- a cell loop that counts no change has changed nothing, and no traversed cell counts -/
theorem foldl_cleanup_cell_zero (gr : Grid G) (s : FaceVector G) (opp : Bool) (l : List G) :
    ∀ (c : Scalar G), (l.foldl (cleanup_cell gr s opp) (c, 0)).2 = 0 →
      l.foldl (cleanup_cell gr s opp) (c, 0) = (c, 0) ∧
      ∀ p ∈ l, (cleanup_cell_body gr s opp p (c p)).2 = 0 := by
  induction l with
  | nil => intro c _; simp
  | cons p l ih =>
    intro c h
    rw [List.foldl_cons] at h ⊢
    have hge := foldl_cleanup_cell_snd_ge gr s opp l (cleanup_cell gr s opp (c, 0) p)
    have h0 : (cleanup_cell_body gr s opp p (c p)).2 = 0 := by
      have e : (cleanup_cell gr s opp (c, 0) p).2 = (cleanup_cell_body gr s opp p (c p)).2 := by
        simp only [cleanup_cell, zero_add]
      omega
    have hstep : cleanup_cell gr s opp (c, 0) p = (c, 0) := by
      simp only [cleanup_cell, h0, cleanup_cell_body_count_zero gr s opp p (c p) h0,
        Function.update_eq_self]
    rw [hstep] at h ⊢
    obtain ⟨e, hall⟩ := ih c h
    refine ⟨e, ?_⟩
    intro q hq
    rcases List.mem_cons.mp hq with rfl | hq
    · exact h0
    · exact hall q hq


theorem cleanup_loop_stop (gr : Grid G) (smin : ℚ) (opp : Bool) (k : Nat) (st : CleanupState G)
    (h : st.changed = 0) : cleanup_loop gr smin opp k st = st := by
  cases k <;> simp [cleanup_loop, h]

theorem cleanup_loop_step (gr : Grid G) (smin : ℚ) (opp : Bool) (k : Nat) (st : CleanupState G)
    (h : st.changed ≠ 0) :
    cleanup_loop gr smin opp (k + 1) st =
      cleanup_loop gr smin opp k (cleanup_pass gr smin opp st) := by
  simp [cleanup_loop, h]

/-- the loop, entered with `changed ≠ 0` and at least one iteration allowed, ends on
the output of a pass -/
theorem cleanup_loop_ends_on_pass (gr : Grid G) (smin : ℚ) (opp : Bool) (k : Nat) :
    ∀ st : CleanupState G, st.changed ≠ 0 →
      ∃ st0 : CleanupState G,
        cleanup_loop gr smin opp (k + 1) st = cleanup_pass gr smin opp st0 := by
  induction k with
  | zero =>
    intro st h
    exact ⟨st, by rw [cleanup_loop_step gr smin opp 0 st h]; rfl⟩
  | succ k ih =>
    intro st h
    rw [cleanup_loop_step gr smin opp (k + 1) st h]
    by_cases h1 : (cleanup_pass gr smin opp st).changed = 0
    · exact ⟨st, cleanup_loop_stop gr smin opp (k + 1) _ h1⟩
    · exact ih _ h1

theorem fractions_cleanup_ends_on_pass (gr : Grid G) (c : Scalar G) (s : FaceVector G)
    (smin : ℚ) (opp : Bool) :
    ∃ st0 : CleanupState G, fractions_cleanup gr c s smin opp = cleanup_pass gr smin opp st0 :=
  cleanup_loop_ends_on_pass gr smin opp 99 ⟨c, s, 1, 0, 0⟩ (by simp)

/-- what a pass that counts no change looks like -/
theorem cleanup_pass_converged (gr : Grid G) (smin : ℚ) (opp : Bool) (st : CleanupState G)
    (h : (cleanup_pass gr smin opp st).changed = 0) :
    (cleanup_pass gr smin opp st).c = st.c ∧
    (cleanup_pass gr smin opp st).s = cleanup_faces gr st.c smin st.s ∧
    (cleanup_pass gr smin opp st).schanged = st.schanged ∧
    ∀ p ∈ gr.cells,
      (cleanup_cell_body gr (cleanup_faces gr st.c smin st.s) opp p (st.c p)).2 = 0 := by
  have h0 : (cleanup_cells gr (cleanup_faces gr st.c smin st.s) opp st.c).2 = 0 := h
  obtain ⟨e, hall⟩ := foldl_cleanup_cell_zero gr (cleanup_faces gr st.c smin st.s) opp gr.cells st.c h0
  have e1 : cleanup_cells gr (cleanup_faces gr st.c smin st.s) opp st.c = (st.c, 0) := e
  refine ⟨?_, rfl, ?_, hall⟩
  · show (cleanup_cells gr (cleanup_faces gr st.c smin st.s) opp st.c).1 = st.c
    rw [e1]
  · show st.schanged + (cleanup_cells gr (cleanup_faces gr st.c smin st.s) opp st.c).2 = st.schanged
    rw [e1]; rfl

/-- C1: when `fractions_cleanup` converges (the last pass counts no change, so no
warning is printed), every traversed cut cell (`0 < c < 1`) of the result has at least
`dimension = 2` bounding faces with `s > 0`, for every `c`, `s`, `smin`, `opposite`. -/
theorem fractions_cleanup_cut_cell_faces (gr : Grid G) (c : Scalar G) (s : FaceVector G)
    (smin : ℚ) (opposite : Bool)
    (hconv : (fractions_cleanup gr c s smin opposite).changed = 0) :
    ∀ p ∈ gr.cells,
      0 < (fractions_cleanup gr c s smin opposite).c p →
      (fractions_cleanup gr c s smin opposite).c p < 1 →
      2 ≤ open_faces gr (fractions_cleanup gr c s smin opposite).s p := by
  obtain ⟨st0, e⟩ := fractions_cleanup_ends_on_pass gr c s smin opposite
  rw [e] at hconv ⊢
  obtain ⟨hc, hs, _, hall⟩ := cleanup_pass_converged gr smin opposite st0 hconv
  intro p hp h0 h1
  rw [hc] at h0 h1
  rw [hs]
  have hz := hall p hp
  rw [cleanup_cell_body_cut gr _ opposite p (st0.c p) ⟨h0, h1⟩] at hz
  simp only [cleanup_count] at hz
  by_contra hlt
  have : open_faces gr (cleanup_faces gr st0.c smin st0.s) p < 2 := by omega
  simp [this] at hz

/-- a pass on fields fixed by both sweeps only resets `changed` and advances `i` -/
theorem cleanup_pass_fixed (gr : Grid G) (smin : ℚ) (opp : Bool) (c : Scalar G)
    (s : FaceVector G) (hf : cleanup_faces gr c smin s = s)
    (hcell : cleanup_cells gr s opp c = (c, 0)) (ch sch i : Nat) :
    cleanup_pass gr smin opp ⟨c, s, ch, sch, i⟩ = ⟨c, s, 0, sch, i + 1⟩ := by
  simp only [cleanup_pass, hf, hcell, add_zero]

/-- C2: idempotence of `fractions_cleanup`.  When a first call converges, a second
call with the same `smin` and `opposite` on the resulting fields returns 0, converges,
and leaves every cell fraction and every face fraction unchanged. -/
theorem fractions_cleanup_idempotent (gr : Grid G) (c : Scalar G) (s : FaceVector G)
    (smin : ℚ) (opposite : Bool)
    (hconv : (fractions_cleanup gr c s smin opposite).changed = 0) :
    (fractions_cleanup gr (fractions_cleanup gr c s smin opposite).c
        (fractions_cleanup gr c s smin opposite).s smin opposite).schanged = 0 ∧
    (fractions_cleanup gr (fractions_cleanup gr c s smin opposite).c
        (fractions_cleanup gr c s smin opposite).s smin opposite).changed = 0 ∧
    (fractions_cleanup gr (fractions_cleanup gr c s smin opposite).c
        (fractions_cleanup gr c s smin opposite).s smin opposite).c =
      (fractions_cleanup gr c s smin opposite).c ∧
    (fractions_cleanup gr (fractions_cleanup gr c s smin opposite).c
        (fractions_cleanup gr c s smin opposite).s smin opposite).s =
      (fractions_cleanup gr c s smin opposite).s := by
  obtain ⟨st0, e⟩ := fractions_cleanup_ends_on_pass gr c s smin opposite
  rw [e] at hconv ⊢
  obtain ⟨hc, hs, _, _⟩ := cleanup_pass_converged gr smin opposite st0 hconv
  -- the first pass of the second call
  have hfaces : cleanup_faces gr (cleanup_pass gr smin opposite st0).c smin
      (cleanup_pass gr smin opposite st0).s = (cleanup_pass gr smin opposite st0).s := by
    rw [hc, hs, cleanup_faces_idem]
  have hcells : cleanup_cells gr (cleanup_pass gr smin opposite st0).s opposite
      (cleanup_pass gr smin opposite st0).c = ((cleanup_pass gr smin opposite st0).c, 0) := by
    have h0 : (cleanup_cells gr (cleanup_faces gr st0.c smin st0.s) opposite st0.c).2 = 0 := hconv
    have := (foldl_cleanup_cell_zero gr (cleanup_faces gr st0.c smin st0.s) opposite
      gr.cells st0.c h0).1
    rw [hc, hs]; exact this
  have hpass : cleanup_pass gr smin opposite
      ⟨(cleanup_pass gr smin opposite st0).c, (cleanup_pass gr smin opposite st0).s, 1, 0, 0⟩ =
      ⟨(cleanup_pass gr smin opposite st0).c, (cleanup_pass gr smin opposite st0).s, 0, 0, 1⟩ := by
    exact cleanup_pass_fixed gr smin opposite _ _ hfaces hcells 1 0 0
  have hrun : fractions_cleanup gr (cleanup_pass gr smin opposite st0).c
      (cleanup_pass gr smin opposite st0).s smin opposite =
      ⟨(cleanup_pass gr smin opposite st0).c, (cleanup_pass gr smin opposite st0).s, 0, 0, 1⟩ := by
    unfold fractions_cleanup
    rw [cleanup_loop_step gr smin opposite 99 _ (by simp), hpass]
    exact cleanup_loop_stop gr smin opposite 99 _ rfl
  rw [hrun]
  exact ⟨rfl, rfl, rfl, rfl⟩

/-! ## Closed forms of one pass, and evaluation on the concrete grids -/

theorem cleanup_faces_x_apply (gr : Grid G) (c : Scalar G) (smin : ℚ) (s : FaceVector G) (q : G) :
    (cleanup_faces gr c smin s).x q =
      if q ∈ gr.facesX then cleanup_face_val gr c smin q (s.x q) else s.x q :=
  foldl_cleanup_face_apply gr c smin gr.facesX s.x q

theorem cleanup_faces_y_apply (gr : Grid G) (c : Scalar G) (smin : ℚ) (s : FaceVector G) (q : G) :
    (cleanup_faces gr c smin s).y q =
      if q ∈ gr.facesY then cleanup_face_val gr.rot c smin q (s.y q) else s.y q :=
  foldl_cleanup_face_apply gr.rot c smin gr.facesY s.y q

theorem cleanup_cells_fst_apply (gr : Grid G) (s : FaceVector G) (opp : Bool) (c : Scalar G)
    (q : G) :
    (cleanup_cells gr s opp c).1 q =
      if q ∈ gr.cells then (cleanup_cell_body gr s opp q (c q)).1 else c q :=
  foldl_cleanup_cell_fst gr s opp gr.cells (c, 0) q

/-- on a traversal without repetition the counter adds up the per-cell counts -/
theorem foldl_cleanup_cell_snd (gr : Grid G) (s : FaceVector G) (opp : Bool) (l : List G)
    (hl : l.Nodup) :
    ∀ st : Scalar G × Nat, (l.foldl (cleanup_cell gr s opp) st).2 =
      st.2 + (l.map fun p => (cleanup_cell_body gr s opp p (st.1 p)).2).sum := by
  induction l with
  | nil => intro st; simp
  | cons p l ih =>
    intro st
    have hp : p ∉ l := (List.nodup_cons.mp hl).1
    rw [List.foldl_cons, ih (List.nodup_cons.mp hl).2, List.map_cons, List.sum_cons]
    have hmap : (l.map fun q => (cleanup_cell_body gr s opp q
        ((cleanup_cell gr s opp st p).1 q)).2) =
        (l.map fun q => (cleanup_cell_body gr s opp q (st.1 q)).2) := by
      apply List.map_congr_left
      intro q hq
      have hne : q ≠ p := fun h => hp (h ▸ hq)
      simp only [cleanup_cell, Function.update_noteq hne]
    rw [hmap]
    simp only [cleanup_cell]
    omega

theorem cleanup_cells_snd (gr : Grid G) (s : FaceVector G) (opp : Bool) (c : Scalar G)
    (hl : gr.cells.Nodup) :
    (cleanup_cells gr s opp c).2 =
      (gr.cells.map fun p => (cleanup_cell_body gr s opp p (c p)).2).sum := by
  unfold cleanup_cells
  rw [foldl_cleanup_cell_snd gr s opp gr.cells hl (c, 0)]
  simp

theorem gridAB_nodup : gridAB.cells.Nodup := by decide

theorem gridAB_cells : gridAB.cells = [(5, 5), (6, 5)] := rfl

theorem gridAB_facesX : gridAB.facesX = [(5, 5), (6, 5), (7, 5)] := by decide

theorem gridAB_facesY : gridAB.facesY = [(5, 5), (6, 5), (5, 6), (6, 6)] := by decide

theorem gridAB_nb (p : Int × Int) (i j : Int) : gridAB.nb p i j = (p.1 + i, p.2 + j) := by
  simp [gridAB, Grid.nb, Prod.ext_iff]

theorem gridAB_rot_nb (p : Int × Int) (i j : Int) :
    gridAB.rot.nb p i j = (p.1 + j, p.2 + i) := by
  simp [gridAB, Grid.nb, Grid.rot, Prod.ext_iff]

theorem gridOne_nodup : gridOne.cells.Nodup := by decide

theorem gridOne_cells : gridOne.cells = [(5, 5)] := rfl

theorem gridOne_facesX : gridOne.facesX = [(5, 5), (6, 5)] := by decide

theorem gridOne_facesY : gridOne.facesY = [(5, 5), (5, 6)] := by decide

theorem gridOne_nb (p : Int × Int) (i j : Int) : gridOne.nb p i j = (p.1 + i, p.2 + j) := by
  simp [gridOne, Grid.nb, Prod.ext_iff]

theorem gridOne_rot_nb (p : Int × Int) (i j : Int) :
    gridOne.rot.nb p i j = (p.1 + j, p.2 + i) := by
  simp [gridOne, Grid.nb, Grid.rot, Prod.ext_iff]

/-- first pass on `gridAB`: cell `(6,5)` is removed -/
theorem passAB_first : (cleanup_pass gridAB 0 false ⟨cAB, sAB, 1, 0, 0⟩).changed = 1 := by
  simp only [cleanup_pass]
  rw [cleanup_cells_snd _ _ _ _ gridAB_nodup]
  norm_num [cleanup_cell_body, cleanup_axis, cleanup_faces_x_apply, cleanup_faces_y_apply,
    gridAB_facesX, gridAB_facesY, cleanup_face_val, gridAB_cells, gridAB_nb, gridAB_rot_nb,
    cAB, sAB]

/-- second pass on `gridAB`: nothing left to remove -/
theorem passAB_second : (cleanup_pass gridAB 0 false
    (cleanup_pass gridAB 0 false ⟨cAB, sAB, 1, 0, 0⟩)).changed = 0 := by
  simp only [cleanup_pass]
  rw [cleanup_cells_snd _ _ _ _ gridAB_nodup]
  norm_num [cleanup_cell_body, cleanup_cells_fst_apply, cleanup_axis, cleanup_faces_x_apply,
    cleanup_faces_y_apply, gridAB_facesX, gridAB_facesY, cleanup_face_val, gridAB_cells,
    gridAB_nb, gridAB_rot_nb, cAB, sAB]

/-- the call on `gridAB` runs two passes -/
theorem fractions_cleanup_AB : fractions_cleanup gridAB cAB sAB 0 false =
    cleanup_pass gridAB 0 false (cleanup_pass gridAB 0 false ⟨cAB, sAB, 1, 0, 0⟩) := by
  unfold fractions_cleanup
  rw [cleanup_loop_step _ _ _ 99 _ (by simp),
    cleanup_loop_step _ _ _ 98 _ (by rw [passAB_first]; simp),
    cleanup_loop_stop _ _ _ 98 _ passAB_second]

theorem fractions_cleanup_AB_converged :
    (fractions_cleanup gridAB cAB sAB 0 false).changed = 0 := by
  rw [fractions_cleanup_AB]; exact passAB_second

/-- the cell `(5,5)` of `gridAB` is still cut after the call -/
theorem fractions_cleanup_AB_cut :
    (fractions_cleanup gridAB cAB sAB 0 false).c (5, 5) = 1 / 2 := by
  rw [fractions_cleanup_AB]
  simp only [cleanup_pass]
  norm_num [cleanup_cell_body, cleanup_cells_fst_apply, cleanup_axis, cleanup_faces_x_apply,
    cleanup_faces_y_apply, gridAB_facesX, gridAB_facesY, cleanup_face_val, gridAB_cells,
    gridAB_nb, gridAB_rot_nb, cAB, sAB]

/-- Witness of C1 on `gridAB`: the call converges after removing `(6,5)`, the cell
`(5,5)` stays cut and keeps two open faces. -/
theorem fractions_cleanup_cut_cell_faces_witness :
    (fractions_cleanup gridAB cAB sAB 0 false).changed = 0 ∧
    (5, 5) ∈ gridAB.cells ∧
    0 < (fractions_cleanup gridAB cAB sAB 0 false).c (5, 5) ∧
    (fractions_cleanup gridAB cAB sAB 0 false).c (5, 5) < 1 ∧
    2 ≤ open_faces gridAB (fractions_cleanup gridAB cAB sAB 0 false).s (5, 5) :=
  ⟨fractions_cleanup_AB_converged, by simp [gridAB_cells],
    by rw [fractions_cleanup_AB_cut]; norm_num, by rw [fractions_cleanup_AB_cut]; norm_num,
    fractions_cleanup_cut_cell_faces gridAB cAB sAB 0 false fractions_cleanup_AB_converged
      (5, 5) (by simp [gridAB_cells]) (by rw [fractions_cleanup_AB_cut]; norm_num)
      (by rw [fractions_cleanup_AB_cut]; norm_num)⟩

/-- Witness of C2 on `gridAB`. -/
theorem fractions_cleanup_idempotent_witness :
    (fractions_cleanup gridAB cAB sAB 0 false).changed = 0 ∧
    (fractions_cleanup gridAB (fractions_cleanup gridAB cAB sAB 0 false).c
        (fractions_cleanup gridAB cAB sAB 0 false).s 0 false).schanged = 0 :=
  ⟨fractions_cleanup_AB_converged,
    (fractions_cleanup_idempotent gridAB cAB sAB 0 false fractions_cleanup_AB_converged).1⟩

/-- the value a pass leaves in a traversed cell -/
theorem cleanup_pass_c_apply (gr : Grid G) (smin : ℚ) (opp : Bool) (st : CleanupState G)
    (q : G) :
    (cleanup_pass gr smin opp st).c q =
      if q ∈ gr.cells then
        (cleanup_cell_body gr (cleanup_pass gr smin opp st).s opp q (st.c q)).1
      else st.c q :=
  cleanup_cells_fst_apply gr (cleanup_faces gr st.c smin st.s) opp st.c q

/-- the pass on the thin tube of `gridOne` changes nothing -/
theorem passTube : (cleanup_pass gridOne 0 false ⟨cHalf, sTube, 1, 0, 0⟩).changed = 0 := by
  simp only [cleanup_pass]
  rw [cleanup_cells_snd _ _ _ _ gridOne_nodup]
  norm_num [cleanup_cell_body, cleanup_axis, cleanup_faces_x_apply, cleanup_faces_y_apply,
    gridOne_facesX, gridOne_facesY, cleanup_face_val, gridOne_cells, gridOne_nb, gridOne_rot_nb,
    cHalf, sTube]

theorem fractions_cleanup_tube : fractions_cleanup gridOne cHalf sTube 0 false =
    cleanup_pass gridOne 0 false ⟨cHalf, sTube, 1, 0, 0⟩ := by
  unfold fractions_cleanup
  rw [cleanup_loop_step _ _ _ 99 _ (by simp), cleanup_loop_stop _ _ _ 99 _ passTube]

/-- Counterexample to C9 as stated: in default mode (`opposite = false`) the cut cell
`(5,5)` of `gridOne`, whose x-faces are open and whose y-faces are both zero (one axis
only has a non-zero face), keeps its fraction `1/2` through the pass and the call. -/
theorem cleanup_pass_thin_tube_kept :
    (5, 5) ∈ gridOne.cells ∧ 0 < cHalf (5, 5) ∧ cHalf (5, 5) < 1 ∧
    open_axes gridOne sTube (5, 5) < 2 ∧
    open_axes gridOne (cleanup_pass gridOne 0 false ⟨cHalf, sTube, 1, 0, 0⟩).s (5, 5) < 2 ∧
    (cleanup_pass gridOne 0 false ⟨cHalf, sTube, 1, 0, 0⟩).c (5, 5) = 1 / 2 ∧
    (fractions_cleanup gridOne cHalf sTube 0 false).c (5, 5) = 1 / 2 := by
  have h : (cleanup_pass gridOne 0 false ⟨cHalf, sTube, 1, 0, 0⟩).c (5, 5) = 1 / 2 := by
    simp only [cleanup_pass]
    norm_num [cleanup_cell_body, cleanup_cells_fst_apply, cleanup_axis, cleanup_faces_x_apply,
      cleanup_faces_y_apply, gridOne_facesX, gridOne_facesY, cleanup_face_val, gridOne_cells,
      gridOne_nb, gridOne_rot_nb, cHalf, sTube]
  refine ⟨by simp [gridOne_cells], by norm_num [cHalf], by norm_num [cHalf], ?_, ?_, h, ?_⟩
  · norm_num [open_axes, sTube]
  · simp only [cleanup_pass]
    norm_num [open_axes, cleanup_faces_x_apply, cleanup_faces_y_apply,
      gridOne_facesX, gridOne_facesY, cleanup_face_val, gridOne_nb, gridOne_rot_nb, sTube, cHalf]
  · rw [fractions_cleanup_tube]; exact h

/-- C9 (amended): in every pass, a traversed cut cell is forced to zero when fewer
than `dimension = 2` of its bounding faces have `s > 0` (either mode), or, in opposite
mode, when fewer than `dimension` axes have a non-zero bounding face; the faces are
read as the pass has left them. -/
theorem cleanup_pass_removes_underdetermined (gr : Grid G) (smin : ℚ) (opposite : Bool)
    (st : CleanupState G) (p : G) (hp : p ∈ gr.cells) (h0 : 0 < st.c p) (h1 : st.c p < 1)
    (h : open_faces gr (cleanup_pass gr smin opposite st).s p < 2 ∨
      (opposite = true ∧ open_axes gr (cleanup_pass gr smin opposite st).s p < 2)) :
    (cleanup_pass gr smin opposite st).c p = 0 := by
  rw [cleanup_pass_c_apply, if_pos hp, cleanup_cell_body_cut gr _ opposite p (st.c p) ⟨h0, h1⟩]
  have hc : cleanup_count gr (cleanup_pass gr smin opposite st).s opposite p ≠ 0 := by
    rcases h with h | ⟨ho, h⟩
    · simp [cleanup_count, h]
    · subst ho
      unfold open_axes at h
      unfold cleanup_count
      by_cases hx : (cleanup_pass gr smin true st).s.x p ≠ 0 ∨
          (cleanup_pass gr smin true st).s.x (gr.nb p 1 0) ≠ 0
      · by_cases hy : (cleanup_pass gr smin true st).s.y p ≠ 0 ∨
            (cleanup_pass gr smin true st).s.y (gr.nb p 0 1) ≠ 0
        · rw [if_pos hx, if_pos hy] at h; omega
        · have hy2 : (cleanup_pass gr smin true st).s.y p = 0 ∧
              (cleanup_pass gr smin true st).s.y (gr.nb p 0 1) = 0 := by
            simpa [not_or] using hy
          rw [if_pos (⟨rfl, hy2.1, hy2.2⟩ : true = true ∧ _ ∧ _)]; omega
      · have hx2 : (cleanup_pass gr smin true st).s.x p = 0 ∧
            (cleanup_pass gr smin true st).s.x (gr.nb p 1 0) = 0 := by
          simpa [not_or] using hx
        rw [if_pos (⟨rfl, hx2.1, hx2.2⟩ : true = true ∧ _ ∧ _)]; omega
  simp [hc]

/-- Witness of the amended C9: cell `(6,5)` of `gridAB` in the first pass. -/
theorem cleanup_pass_removes_underdetermined_witness :
    (6, 5) ∈ gridAB.cells ∧ 0 < cAB (6, 5) ∧ cAB (6, 5) < 1 ∧
    open_faces gridAB (cleanup_pass gridAB 0 false ⟨cAB, sAB, 1, 0, 0⟩).s (6, 5) < 2 ∧
    (cleanup_pass gridAB 0 false ⟨cAB, sAB, 1, 0, 0⟩).c (6, 5) = 0 := by
  have hf : open_faces gridAB (cleanup_pass gridAB 0 false ⟨cAB, sAB, 1, 0, 0⟩).s (6, 5) < 2 := by
    simp only [cleanup_pass]
    norm_num [open_faces, cleanup_faces_x_apply, cleanup_faces_y_apply,
      gridAB_facesX, gridAB_facesY, cleanup_face_val, gridAB_nb, gridAB_rot_nb, sAB, cAB]
  exact ⟨by simp [gridAB_cells], by norm_num [cAB], by norm_num [cAB], hf,
    cleanup_pass_removes_underdetermined gridAB 0 false ⟨cAB, sAB, 1, 0, 0⟩ (6, 5)
      (by simp [gridAB_cells]) (by norm_num [cAB]) (by norm_num [cAB]) (Or.inl hf)⟩

/-- first pass on the closed cell of `gridOne` in opposite mode: three increments -/
theorem passClosed_first : (cleanup_pass gridOne 0 true ⟨cHalf, sClosed, 1, 0, 0⟩).changed = 3 := by
  simp only [cleanup_pass]
  rw [cleanup_cells_snd _ _ _ _ gridOne_nodup]
  norm_num [cleanup_cell_body, cleanup_axis, cleanup_faces_x_apply, cleanup_faces_y_apply,
    gridOne_facesX, gridOne_facesY, cleanup_face_val, gridOne_cells, gridOne_nb, gridOne_rot_nb,
    cHalf, sClosed]

theorem passClosed_second : (cleanup_pass gridOne 0 true
    (cleanup_pass gridOne 0 true ⟨cHalf, sClosed, 1, 0, 0⟩)).changed = 0 := by
  simp only [cleanup_pass]
  rw [cleanup_cells_snd _ _ _ _ gridOne_nodup]
  norm_num [cleanup_cell_body, cleanup_cells_fst_apply, cleanup_axis, cleanup_faces_x_apply,
    cleanup_faces_y_apply, gridOne_facesX, gridOne_facesY, cleanup_face_val, gridOne_cells,
    gridOne_nb, gridOne_rot_nb, cHalf, sClosed]

theorem fractions_cleanup_closed : fractions_cleanup gridOne cHalf sClosed 0 true =
    cleanup_pass gridOne 0 true (cleanup_pass gridOne 0 true ⟨cHalf, sClosed, 1, 0, 0⟩) := by
  unfold fractions_cleanup
  rw [cleanup_loop_step _ _ _ 99 _ (by simp),
    cleanup_loop_step _ _ _ 98 _ (by rw [passClosed_first]; simp),
    cleanup_loop_stop _ _ _ 98 _ passClosed_second]

/-- C10 at its failing input: on `gridOne` with every face closed and `opposite = true`
the call converges and returns 3, while exactly one cell fraction was changed. -/
theorem fractions_cleanup_counts_one_cell_thrice :
    (fractions_cleanup gridOne cHalf sClosed 0 true).schanged = 3 ∧
    (fractions_cleanup gridOne cHalf sClosed 0 true).changed = 0 ∧
    cells_changed gridOne cHalf (fractions_cleanup gridOne cHalf sClosed 0 true).c = 1 := by
  rw [fractions_cleanup_closed]
  refine ⟨?_, passClosed_second, ?_⟩
  · have h2 := passClosed_second
    have h1 := passClosed_first
    simp only [cleanup_pass] at h1 h2 ⊢
    omega
  · simp only [cleanup_pass, cells_changed]
    norm_num [cleanup_cell_body, cleanup_cells_fst_apply, cleanup_axis, cleanup_faces_x_apply,
      cleanup_faces_y_apply, gridOne_facesX, gridOne_facesY, cleanup_face_val, gridOne_cells,
      gridOne_nb, gridOne_rot_nb, cHalf, sClosed]

/-- C3: regression to the uncut baseline (2D, exact arithmetic).  When `fs = 1` on
every face and `cs = 1` in every cell, `face_value` and `embed_face_value_x` equal
`(a[i] + a[i-1])/2`, and `face_gradient_x` and `embed_face_gradient_x` return
`(a[i] - a[i-1])/Delta`, for every field `a`, face and value of the attribute `third`. -/
theorem uncut_operators_are_two_point (gr : Grid G) (fs : FaceVector G) (cs a : Scalar G)
    (pt : G) (i : Int) (third : Bool)
    (hx : ∀ q, fs.x q = 1) (hy : ∀ q, fs.y q = 1) (hc : ∀ q, cs q = 1) :
    face_value gr fs cs pt a third i = (a (gr.nb pt i 0) + a (gr.nb pt (i - 1) 0)) / 2 ∧
    embed_face_value_x gr fs cs pt a i = (a (gr.nb pt i 0) + a (gr.nb pt (i - 1) 0)) / 2 ∧
    face_gradient_x gr fs cs pt a third i =
      some ((a (gr.nb pt i 0) - a (gr.nb pt (i - 1) 0)) / gr.Delta) ∧
    embed_face_gradient_x gr fs cs pt a i =
      some ((a (gr.nb pt i 0) - a (gr.nb pt (i - 1) 0)) / gr.Delta) := by
  have havg : ∀ j : Int, cs_avg gr cs a pt i j =
      (a (gr.nb pt i j) + a (gr.nb pt (i - 1) j)) / 2 := by
    intro j
    simp only [cs_avg, hc]
    ring
  have hcond : ∀ j : Int, face_condition gr fs cs pt i j := by
    intro j
    simp only [face_condition, hx, hy, hc]
    norm_num
  have hval : embed_face_value_x gr fs cs pt a i =
      (a (gr.nb pt i 0) + a (gr.nb pt (i - 1) 0)) / 2 := by
    simp only [embed_face_value_x, if_pos (hcond _), hx, havg]
    ring
  have hgrad : embed_face_gradient_x gr fs cs pt a i =
      some ((a (gr.nb pt i 0) - a (gr.nb pt (i - 1) 0)) / gr.Delta) := by
    simp only [embed_face_gradient_x, if_pos (hcond _), hx, hc]
    norm_num
    rw [mul_div_mul_left _ _ (two_ne_zero)]
  refine ⟨?_, hval, ?_, hgrad⟩
  · simp only [face_value, hx]
    norm_num [havg]
  · simp only [face_gradient_x, hx]
    norm_num

/-- Witness of C3 on `gridOne` with the fully open fractions `sOpen`, `cFluid`. -/
theorem uncut_operators_are_two_point_witness :
    (∀ q, sOpen.x q = 1) ∧ (∀ q, sOpen.y q = 1) ∧ (∀ q, cFluid q = 1) ∧
    face_value gridOne sOpen cFluid (5, 5) aField true 0 =
      (aField (gridOne.nb (5, 5) 0 0) + aField (gridOne.nb (5, 5) (0 - 1) 0)) / 2 ∧
    embed_face_gradient_x gridOne sOpen cFluid (5, 5) aField 0 =
      some ((aField (gridOne.nb (5, 5) 0 0) - aField (gridOne.nb (5, 5) (0 - 1) 0)) /
        gridOne.Delta) :=
  ⟨fun _ => rfl, fun _ => rfl, fun _ => rfl,
    (uncut_operators_are_two_point gridOne sOpen cFluid aField (5, 5) 0 true
      (fun _ => rfl) (fun _ => rfl) (fun _ => rfl)).1,
    (uncut_operators_are_two_point gridOne sOpen cFluid aField (5, 5) 0 true
      (fun _ => rfl) (fun _ => rfl) (fun _ => rfl)).2.2.2⟩

theorem gridOne_Delta : gridOne.Delta = 1 := rfl

/-- Counterexample to C8 as stated.  At the x-face of `(5,5)` with `fs.x[i] = 3/10`
(not more than half open) both operators still blend, because the code tests the face
`fs.x[i,j]` of the offset row: the gradient is `13/20` instead of the two-point `1`,
the value `13/40` instead of `cs_avg = 1/2`.  With the transverse faces only half open
(`fs.y = 1/2`, not equal to 1) the gradient still blends: `7/8` instead of `1`. -/
theorem embed_face_blend_on_less_than_half_open_face :
    ¬ (sCut.x (gridOne.nb (5, 5) 0 0) > 1 / 2) ∧
    embed_face_gradient_x gridOne sCut cFluid (5, 5) aSpike 0 = some (13 / 20) ∧
    (aSpike (gridOne.nb (5, 5) 0 0) - aSpike (gridOne.nb (5, 5) (0 - 1) 0)) / gridOne.Delta = 1 ∧
    embed_face_value_x gridOne sCut cFluid (5, 5) aSpike 0 = 13 / 40 ∧
    cs_avg gridOne cFluid aSpike (5, 5) 0 0 = 1 / 2 ∧
    sHalfY.y (gridOne.nb (5, 5) 0 1) ≠ 1 ∧
    embed_face_gradient_x gridOne sHalfY cFluid (5, 5) aSpike 0 = some (7 / 8) := by
  refine ⟨?_, ?_, ?_, ?_, ?_, ?_, ?_⟩
  · norm_num [gridOne_nb, sCut]
  · norm_num [embed_face_gradient_x, face_condition, face_row, sign, gridOne_nb, gridOne_Delta,
      sCut, cFluid, aSpike]
  · norm_num [gridOne_nb, gridOne_Delta, aSpike]
  · norm_num [embed_face_value_x, face_condition, face_row, sign, cs_avg, gridOne_nb, sCut,
      cFluid, aSpike]
  · norm_num [cs_avg, gridOne_nb, cFluid, aSpike]
  · norm_num [sHalfY]
  · norm_num [embed_face_gradient_x, face_condition, face_row, sign, gridOne_nb, gridOne_Delta,
      sHalfY, cFluid, aSpike]

/-- C8 (amended): whenever the coded condition fails, that is, unless the face of the
offset row is more than half open (`fs.x[i,j] > 0.5`), the transverse faces
`fs.y[i,j+(j<0)]`, `fs.y[i-1,j+(j<0)]` are non-zero and the offset-row cells `cs[i,j]`,
`cs[i-1,j]` are non-zero, `embed_face_gradient_x` returns the two-point difference
`(a[i] - a[i-1])/Delta` (when its assertion `cs[i] && cs[i-1]` holds, else it aborts)
and `embed_face_value_x` returns `cs_avg(a,i,0,0)`. -/
theorem embed_face_fallback (gr : Grid G) (fs : FaceVector G) (cs a : Scalar G)
    (pt : G) (i : Int)
    (h : ¬ (fs.x (gr.nb pt i (face_row gr fs pt i)) > 1 / 2 ∧
      fs.y (gr.nb pt i (face_row gr fs pt i + (if face_row gr fs pt i < 0 then 1 else 0))) ≠ 0 ∧
      fs.y (gr.nb pt (i - 1)
        (face_row gr fs pt i + (if face_row gr fs pt i < 0 then 1 else 0))) ≠ 0 ∧
      cs (gr.nb pt i (face_row gr fs pt i)) ≠ 0 ∧
      cs (gr.nb pt (i - 1) (face_row gr fs pt i)) ≠ 0)) :
    embed_face_gradient_x gr fs cs pt a i =
      (if cs (gr.nb pt i 0) ≠ 0 ∧ cs (gr.nb pt (i - 1) 0) ≠ 0 then
        some ((a (gr.nb pt i 0) - a (gr.nb pt (i - 1) 0)) / gr.Delta)
      else none) ∧
    embed_face_value_x gr fs cs pt a i = cs_avg gr cs a pt i 0 := by
  have hc : ¬ face_condition gr fs cs pt i (face_row gr fs pt i) := h
  constructor
  · simp only [embed_face_gradient_x, if_neg hc]
  · simp only [embed_face_value_x, if_neg hc]

/-- Witness of the amended C8: on `gridOne` with every face closed the coded condition
fails at the x-face of `(5,5)`, where the assertion holds. -/
theorem embed_face_fallback_witness :
    ¬ (sClosed.x (gridOne.nb (5, 5) 0 (face_row gridOne sClosed (5, 5) 0)) > 1 / 2) ∧
    embed_face_gradient_x gridOne sClosed cFluid (5, 5) aSpike 0 =
      (if cFluid (gridOne.nb (5, 5) 0 0) ≠ 0 ∧ cFluid (gridOne.nb (5, 5) (0 - 1) 0) ≠ 0 then
        some ((aSpike (gridOne.nb (5, 5) 0 0) - aSpike (gridOne.nb (5, 5) (0 - 1) 0)) /
          gridOne.Delta)
      else none) ∧
    embed_face_value_x gridOne sClosed cFluid (5, 5) aSpike 0 =
      cs_avg gridOne cFluid aSpike (5, 5) 0 0 :=
  ⟨by norm_num [sClosed],
    embed_face_fallback gridOne sClosed cFluid aSpike (5, 5) 0 (by norm_num [sClosed])⟩

/-! ## `correction` -/

theorem foldl_correction_cell_x (dt : ℚ) (g : FaceVector G) (l : List G) :
    ∀ (u : FaceVector G) (q : G),
      (l.foldl (correction_cell dt g) u).x q = u.x q + (l.count q : ℚ) * (dt * g.x q) := by
  induction l with
  | nil => intro u q; simp
  | cons p l ih =>
    intro u q
    rw [List.foldl_cons, ih, List.count_cons]
    by_cases hq : q = p
    · subst hq
      simp [correction_cell]
      ring
    · have hpq : ¬ p = q := fun h => hq h.symm
      simp [correction_cell, Function.update_noteq hq, hpq]

theorem foldl_correction_cell_y (dt : ℚ) (g : FaceVector G) (l : List G) :
    ∀ (u : FaceVector G) (q : G),
      (l.foldl (correction_cell dt g) u).y q = u.y q + (l.count q : ℚ) * (dt * g.y q) := by
  induction l with
  | nil => intro u q; simp
  | cons p l ih =>
    intro u q
    rw [List.foldl_cons, ih, List.count_cons]
    by_cases hq : q = p
    · subst hq
      simp [correction_cell]
      ring
    · have hpq : ¬ p = q := fun h => hq h.symm
      simp [correction_cell, Function.update_noteq hq, hpq]

theorem FaceVector.eq_of_components (v w : FaceVector G) (hx : v.x = w.x) (hy : v.y = w.y) :
    v = w := by
  cases v; cases w; simp only [FaceVector.mk.injEq]; exact ⟨hx, hy⟩

/-- C4: for every `dt` and every pair of fields `u`, `g`, `correction(dt)` followed by
`correction(-dt)` restores the velocity `u` in every cell and component (exact
arithmetic), and neither call modifies `g`. -/
theorem correction_roundtrip (gr : Grid G) (dt : ℚ) (st : FlowState G) :
    (correction gr (-dt) (correction gr dt st)).u = st.u ∧
    (correction gr dt st).g = st.g ∧
    (correction gr (-dt) (correction gr dt st)).g = st.g := by
  refine ⟨?_, rfl, rfl⟩
  apply FaceVector.eq_of_components
  · funext q
    simp only [correction]
    rw [foldl_correction_cell_x, foldl_correction_cell_x]
    ring
  · funext q
    simp only [correction]
    rw [foldl_correction_cell_y, foldl_correction_cell_y]
    ring

/-! ## `prediction`, `acceleration`, `adapt` -/

theorem foldl_update_apply (val : G → ℚ) (l : List G) :
    ∀ (f0 : Scalar G) (q : G),
      (l.foldl (fun f p => Function.update f p (val p)) f0) q =
        if q ∈ l then val q else f0 q := by
  induction l with
  | nil => intro f0 q; simp
  | cons p l ih =>
    intro f0 q
    rw [List.foldl_cons, ih]
    by_cases hq : q = p
    · subst hq
      by_cases hl : q ∈ l <;> simp [hl]
    · by_cases hl : q ∈ l <;> simp [hl, hq, Function.update_noteq hq]

theorem foldl_adapt_face_apply (fsx : Scalar G) (l : List G) :
    ∀ (ufx : Scalar G) (q : G),
      (l.foldl (adapt_face_x fsx) ufx) q =
        if q ∈ l ∧ fsx q = 0 then 0 else ufx q := by
  induction l with
  | nil => intro ufx q; simp
  | cons p l ih =>
    intro ufx q
    rw [List.foldl_cons, ih]
    unfold adapt_face_x
    by_cases hc : ufx p ≠ 0 ∧ fsx p = 0
    · rw [if_pos hc]
      by_cases hq : q = p
      · subst hq
        by_cases hl : q ∈ l <;> simp [hl, hc.2]
      · by_cases hl : q ∈ l <;> simp [hl, hq, Function.update_noteq hq]
    · rw [if_neg hc]
      by_cases hq : q = p
      · subst hq
        by_cases hl : q ∈ l
        · simp [hl]
        · by_cases hf : fsx q = 0
          · have : ufx q = 0 := by
              by_contra hne; exact hc ⟨hne, hf⟩
            simp [hl, hf, this]
          · simp [hl, hf]
      · by_cases hl : q ∈ l <;> simp [hl, hq]

/-- C7: with the embedded metric in force (`fm = fs`), the face velocity written by
`prediction()` and by the `acceleration` event is zero on every traversed face with a zero
face fraction, and after the `adapt` event every traversed face with a zero face fraction
(the face fractions as left by its `fractions_cleanup`) has a zero face velocity: `uf.x`
on the x-faces with `fs.x = 0`, and, by `foreach_face()`, `uf.y` on the y-faces with
`fs.y = 0`. -/
theorem blocked_faces_carry_no_velocity (gr : Grid G) (dt : ℚ) (cs : Scalar G)
    (fs fm u g a : FaceVector G) (gradient : Option (ℚ → ℚ → ℚ → ℚ)) (third : Bool)
    (du0 uf0 uf : FaceVector G) (hfm : fm = fs) :
    (∀ p ∈ gr.facesX, fs.x p = 0 → (prediction gr dt fs fm u g gradient du0 uf0).x p = 0) ∧
    (∀ p ∈ gr.facesX, fs.x p = 0 → (acceleration gr dt fs cs fm u a third uf0).x p = 0) ∧
    (∀ p ∈ gr.facesX, (adapt gr cs fs uf).1.s.x p = 0 → (adapt gr cs fs uf).2.x p = 0) ∧
    (∀ p ∈ gr.facesY, fs.y p = 0 → (prediction gr dt fs fm u g gradient du0 uf0).y p = 0) ∧
    (∀ p ∈ gr.facesY, fs.y p = 0 → (acceleration gr dt fs cs fm u a third uf0).y p = 0) ∧
    (∀ p ∈ gr.facesY, (adapt gr cs fs uf).1.s.y p = 0 → (adapt gr cs fs uf).2.y p = 0) := by
  subst hfm
  refine ⟨?_, ?_, ?_, ?_, ?_, ?_⟩
  · intro p hp h0
    simp only [prediction]
    rw [foldl_update_apply (fun p => prediction_face_x gr dt fm u g
      (prediction_du gr fm u gradient du0) p) gr.facesX uf0.x p, if_pos hp]
    simp only [prediction_face_x, h0, mul_zero]
  · intro p hp h0
    simp only [acceleration]
    rw [foldl_update_apply (fun p => acceleration_face_x gr dt fm cs fm u a third p)
      gr.facesX uf0.x p, if_pos hp]
    simp only [acceleration_face_x, h0, zero_mul]
  · intro p hp h0
    simp only [adapt] at h0 ⊢
    rw [foldl_adapt_face_apply, if_pos ⟨hp, h0⟩]
  · intro p hp h0
    simp only [prediction]
    rw [foldl_update_apply (fun p => prediction_face_x gr.rot dt fm.rot u.rot g.rot
      (prediction_du gr fm u gradient du0).rot p) gr.facesY uf0.y p, if_pos hp]
    simp only [prediction_face_x, FaceVector.rot, h0, mul_zero]
  · intro p hp h0
    simp only [acceleration]
    rw [foldl_update_apply (fun p => acceleration_face_x gr.rot dt fm.rot cs fm.rot u.rot a.rot
      third p) gr.facesY uf0.y p, if_pos hp]
    simp only [acceleration_face_x, FaceVector.rot, h0, zero_mul]
  · intro p hp h0
    simp only [adapt] at h0 ⊢
    rw [foldl_adapt_face_apply, if_pos ⟨hp, h0⟩]

/-- Witness of C7 on `gridOne` with every face closed: the x-face and the y-face of
`(5,5)` are traversed, blocked, and get the face velocity 0 from `prediction`, although
`uf` held 1 there before. -/
theorem blocked_faces_carry_no_velocity_witness :
    sClosed = sClosed ∧ (5, 5) ∈ gridOne.facesX ∧ sClosed.x (5, 5) = 0 ∧
    (prediction gridOne 1 sClosed sClosed ⟨aField, aField⟩ sOpen none sOpen sOpen).x (5, 5) = 0 ∧
    (5, 5) ∈ gridOne.facesY ∧ sClosed.y (5, 5) = 0 ∧
    (prediction gridOne 1 sClosed sClosed ⟨aField, aField⟩ sOpen none sOpen sOpen).y (5, 5) = 0 :=
  ⟨rfl, by simp [gridOne_facesX], rfl,
    (blocked_faces_carry_no_velocity gridOne 1 cFluid sClosed sClosed ⟨aField, aField⟩ sOpen
      sOpen none true sOpen sOpen sOpen rfl).1 (5, 5) (by simp [gridOne_facesX]) rfl,
    by simp [gridOne_facesY], rfl,
    (blocked_faces_carry_no_velocity gridOne 1 cFluid sClosed sClosed ⟨aField, aField⟩ sOpen
      sOpen none true sOpen sOpen sOpen rfl).2.2.2.1 (5, 5) (by simp [gridOne_facesY]) rfl⟩

/-! ## `dirichlet_gradient_x` -/

theorem quadratic_linear (y A b : ℚ) : quadratic y (A - b) A (A + b) = A + b * y := by
  unfold quadratic; ring

theorem sign_cast_ne_zero (v : ℚ) : ((sign v : Int) : ℚ) ≠ 0 := by
  unfold sign; split_ifs <;> norm_num

theorem sign_cast_abs (v : ℚ) : |((sign v : Int) : ℚ)| = 1 := by
  unfold sign; split_ifs <;> norm_num

/-- distance of standoff `l` -/
theorem dirichlet_standoff_d (gr : Grid G) (fs : FaceVector G) (pt : G) (s cs : Scalar G)
    (n p : Coord) (l : Int) :
    (dirichlet_standoff gr fs pt s cs n p l).1 =
      ((((l + 1) * sign n.x : Int) : ℚ) - p.x) / n.x := rfl

/-- on a linear field, the value interpolated at standoff `l` is the field at the
standoff point `p + d n` -/
theorem dirichlet_standoff_linear (gr : Grid G) (fs : FaceVector G) (pt : G) (s cs : Scalar G)
    (n p : Coord) (l : Int) (s0 Gx Gy : ℚ) (hn : n.x ≠ 0)
    (hlin : ∀ i j : Int, s (gr.nb pt i j) = s0 + gr.Delta * (Gx * i + Gy * j)) :
    (dirichlet_standoff gr fs pt s cs n p l).2.2 =
      s0 + gr.Delta * (Gx * p.x + Gy * p.y) +
        gr.Delta * (dirichlet_standoff gr fs pt s cs n p l).1 * (Gx * n.x + Gy * n.y) := by
  simp only [dirichlet_standoff, hlin]
  push_cast
  set i : ℚ := ((l : ℚ) + 1) * ((sign n.x : Int) : ℚ) with hi
  set d : ℚ := (i - p.x) / n.x with hd
  have hdn : d * n.x = i - p.x := by rw [hd]; field_simp
  have hi2 : i = p.x + d * n.x := by rw [hdn]; ring
  generalize (if p.y + d * n.y > 1 / 2 then (1 : ℚ)
    else if p.y + d * n.y < -(1 / 2) then -1 else 0) = j
  rw [hi2]
  unfold quadratic
  ring

/-- what the arrays hold when `v[0]` has been set -/
theorem dirichlet_samples_defined (gr : Grid G) (nodata : ℚ) (fs : FaceVector G) (pt : G)
    (s cs : Scalar G) (n p : Coord)
    (hv0 : (dirichlet_samples gr nodata fs pt s cs n p).2.2.1 ≠ nodata) :
    (dirichlet_samples gr nodata fs pt s cs n p).1 =
      (dirichlet_standoff gr fs pt s cs ⟨-n.x, -n.y⟩ p 0).1 ∧
    (dirichlet_samples gr nodata fs pt s cs n p).2.2.1 =
      (dirichlet_standoff gr fs pt s cs ⟨-n.x, -n.y⟩ p 0).2.2 ∧
    ((dirichlet_samples gr nodata fs pt s cs n p).2.2.2 ≠ nodata →
      (dirichlet_samples gr nodata fs pt s cs n p).2.1 =
        (dirichlet_standoff gr fs pt s cs ⟨-n.x, -n.y⟩ p 1).1 ∧
      (dirichlet_samples gr nodata fs pt s cs n p).2.2.2 =
        (dirichlet_standoff gr fs pt s cs ⟨-n.x, -n.y⟩ p 1).2.2) := by
  unfold dirichlet_samples at hv0 ⊢
  by_cases hdef : dirichlet_defined gr fs pt ⟨-n.x, -n.y⟩
  · by_cases h0 : (dirichlet_standoff gr fs pt s cs ⟨-n.x, -n.y⟩ p 0).2.1 = true
    · by_cases h1 : (dirichlet_standoff gr fs pt s cs ⟨-n.x, -n.y⟩ p 1).2.1 = true
      · rw [if_pos hdef, if_pos h0, if_pos h1]
        exact ⟨rfl, rfl, fun _ => ⟨rfl, rfl⟩⟩
      · rw [if_pos hdef, if_pos h0, if_neg h1]
        exact ⟨rfl, rfl, fun h => absurd rfl h⟩
    · rw [if_pos hdef, if_neg h0] at hv0
      exact absurd rfl hv0
  · rw [if_neg hdef] at hv0
    exact absurd rfl hv0

/-- C5: manufactured-solution exactness of `dirichlet_gradient_x` (2D, exact
arithmetic).  For a field `s` linear in space with gradient `(Gx, Gy)`, an interface
point `p` in the cell, a normal `n` with `n.x ≠ 0` and the boundary value `bc` of that
linear function at `p`: when the first standoff sample is set (`v[0] ≠ nodata`) the
function returns `Gx n.x + Gy n.y` and stores `0` in `*coef`, whether or not the second
sample is set. -/
theorem dirichlet_gradient_x_linear_exact (gr : Grid G) (nodata : ℚ) (fs : FaceVector G)
    (pt : G) (s cs : Scalar G) (n p : Coord) (bc s0 Gx Gy : ℚ)
    (hD : gr.Delta ≠ 0) (hn : n.x ≠ 0) (hp : |p.x| ≤ 1 / 2)
    (hlin : ∀ i j : Int, s (gr.nb pt i j) = s0 + gr.Delta * (Gx * i + Gy * j))
    (hbc : bc = s0 + gr.Delta * (Gx * p.x + Gy * p.y))
    (hv0 : (dirichlet_samples gr nodata fs pt s cs n p).2.2.1 ≠ nodata) :
    dirichlet_gradient_x gr nodata fs pt s cs n p bc = (Gx * n.x + Gy * n.y, 0) := by
  obtain ⟨hd0, hq0, h1⟩ := dirichlet_samples_defined gr nodata fs pt s cs n p hv0
  have hn2 : (⟨-n.x, -n.y⟩ : Coord).x ≠ 0 := by simpa using hn
  have e0 := dirichlet_standoff_linear gr fs pt s cs ⟨-n.x, -n.y⟩ p 0 s0 Gx Gy hn2 hlin
  have e1 := dirichlet_standoff_linear gr fs pt s cs ⟨-n.x, -n.y⟩ p 1 s0 Gx Gy hn2 hlin
  have f0 := dirichlet_standoff_d gr fs pt s cs ⟨-n.x, -n.y⟩ p 0
  have f1 := dirichlet_standoff_d gr fs pt s cs ⟨-n.x, -n.y⟩ p 1
  rw [← hbc] at e0 e1
  set d0 := (dirichlet_standoff gr fs pt s cs ⟨-n.x, -n.y⟩ p 0).1 with hd0def
  set d1 := (dirichlet_standoff gr fs pt s cs ⟨-n.x, -n.y⟩ p 1).1 with hd1def
  set sg : ℚ := ((sign (-n.x) : Int) : ℚ) with hsg
  have hsabs : |sg| = 1 := sign_cast_abs (-n.x)
  have hsg0 : sg ≠ 0 := sign_cast_ne_zero (-n.x)
  have hnum0 : sg - p.x ≠ 0 := by
    intro h
    have : sg = p.x := by linarith
    rw [this] at hsabs
    rw [hsabs] at hp
    norm_num at hp
  have hnum1 : 2 * sg - p.x ≠ 0 := by
    intro h
    have : p.x = 2 * sg := by linarith
    rw [this, abs_mul, hsabs] at hp
    norm_num at hp
  have g0 : d0 = (sg - p.x) / (-n.x) := by
    rw [f0]; push_cast; ring
  have g1 : d1 = (2 * sg - p.x) / (-n.x) := by
    rw [f1]; push_cast; ring
  have hnn : -n.x ≠ 0 := neg_ne_zero.mpr hn
  have hd0ne : d0 ≠ 0 := by rw [g0]; exact div_ne_zero hnum0 hnn
  have hd1ne : d1 ≠ 0 := by rw [g1]; exact div_ne_zero hnum1 hnn
  have hdiff : d1 - d0 ≠ 0 := by
    have : d1 - d0 = sg / (-n.x) := by rw [g0, g1]; field_simp; ring
    rw [this]; exact div_ne_zero hsg0 hnn
  unfold dirichlet_gradient_x
  simp only [if_neg hv0]
  by_cases hv1 : (dirichlet_samples gr nodata fs pt s cs n p).2.2.2 ≠ nodata
  · obtain ⟨hd1, hq1⟩ := h1 hv1
    rw [if_pos hv1, hd0, hq0, hd1, hq1, e0, e1]
    simp only [Prod.mk.injEq, and_true]
    field_simp
    ring
  · rw [if_neg hv1, hd0, hq0, e0]
    simp only [Prod.mk.injEq, and_true]
    field_simp
    ring

/-! ## `update_tracer` -/

theorem tracer_cell_eq (gr : Grid G) (cs cm : Scalar G) (uf flux : FaceVector G) (dt : ℚ)
    (st : Scalar G × Scalar G) (p : G) :
    tracer_cell gr cs cm uf flux dt st p =
      (Function.update st.1 p (tracer_f_new gr cs cm uf flux dt p (st.1 p)),
       Function.update st.2 p (tracer_e_new gr cs cm uf flux dt p)) := by
  unfold tracer_cell tracer_f_new tracer_e_new
  by_cases h0 : cs p ≤ 0
  · simp only [if_pos h0, Function.update_eq_self]
  · by_cases h1 : cs p ≥ 1
    · simp only [if_neg h0, if_pos h1]
    · by_cases h2 : dt ≤ tracer_dtmax gr cm uf p
      · simp only [if_neg h0, if_neg h1, if_pos h2]
      · simp only [if_neg h0, if_neg h1, if_neg h2]

theorem foldl_tracer_cell_apply (gr : Grid G) (cs cm : Scalar G) (uf flux : FaceVector G)
    (dt : ℚ) (l : List G) (hl : l.Nodup) :
    ∀ (st : Scalar G × Scalar G) (q : G),
      (l.foldl (tracer_cell gr cs cm uf flux dt) st).1 q =
        (if q ∈ l then tracer_f_new gr cs cm uf flux dt q (st.1 q) else st.1 q) ∧
      (l.foldl (tracer_cell gr cs cm uf flux dt) st).2 q =
        (if q ∈ l then tracer_e_new gr cs cm uf flux dt q else st.2 q) := by
  induction l with
  | nil => intro st q; simp
  | cons p l ih =>
    intro st q
    have hp : p ∉ l := (List.nodup_cons.mp hl).1
    rw [List.foldl_cons]
    obtain ⟨h1, h2⟩ := ih (List.nodup_cons.mp hl).2 (tracer_cell gr cs cm uf flux dt st p) q
    rw [h1, h2, tracer_cell_eq]
    by_cases hq : q = p
    · subst hq
      simp [hp]
    · by_cases hm : q ∈ l <;> simp [hm, hq, Function.update_noteq hq]

theorem foldl_tracer_spread_apply (gr : Grid G) (cs e : Scalar G) (l : List G) (hl : l.Nodup) :
    ∀ (f : Scalar G) (q : G),
      (l.foldl (tracer_spread_cell gr cs e) f) q =
        if q ∈ l then f q + cs q * neighbor_sum gr e q else f q := by
  induction l with
  | nil => intro f q; simp
  | cons p l ih =>
    intro f q
    have hp : p ∉ l := (List.nodup_cons.mp hl).1
    rw [List.foldl_cons, ih (List.nodup_cons.mp hl).2]
    unfold tracer_spread_cell
    by_cases hq : q = p
    · subst hq
      simp [hp]
    · by_cases hm : q ∈ l <;> simp [hm, hq, Function.update_noteq hq]

theorem neighbor_sum_eq (gr : Grid G) (h : Scalar G) (p : G) :
    neighbor_sum gr h p =
      h (gr.nb p (-1) (-1)) + h (gr.nb p (-1) 0) + h (gr.nb p (-1) 1) +
      h (gr.nb p 0 (-1)) + h (gr.nb p 0 0) + h (gr.nb p 0 1) +
      h (gr.nb p 1 (-1)) + h (gr.nb p 1 0) + h (gr.nb p 1 1) := by
  simp only [neighbor_sum, List.map_cons, List.map_nil, List.sum_cons, List.sum_nil]
  ring

theorem nb_nb_neg (gr : Grid G) (p : G) (i j : Int) : gr.nb (gr.nb p i j) (-i) (-j) = p := by
  simp only [Grid.nb, neg_smul]; abel

theorem nb_zero (gr : Grid G) (p : G) : gr.nb p 0 0 = p := by
  simp [Grid.nb]

/-- reindexing a sum over a set of cells closed under the shift by `(i,j)` and its inverse -/
theorem sum_shift (gr : Grid G) (C : Finset G) (i j : Int)
    (h1 : ∀ p ∈ C, gr.nb p i j ∈ C) (h2 : ∀ p ∈ C, gr.nb p (-i) (-j) ∈ C)
    (w e : G → ℚ) :
    (∑ q in C, w q * e (gr.nb q i j)) = ∑ p in C, w (gr.nb p (-i) (-j)) * e p := by
  apply Finset.sum_nbij' (fun q => gr.nb q i j) (fun p => gr.nb p (-i) (-j))
  · intro q hq; exact h1 q hq
  · intro p hp; exact h2 p hp
  · intro q _; exact nb_nb_neg gr q i j
  · intro p _
    have := nb_nb_neg gr p (-i) (-j)
    simpa using this
  · intro q _
    rw [nb_nb_neg]

/-- the sum of squares over the 3×3 block of a cell with non-zero fraction is positive -/
theorem neighbor_sum_sq_pos (gr : Grid G) (cs : Scalar G) (p : G) (h : cs p ≠ 0) :
    0 < neighbor_sum gr (fun q => cs q * cs q) p := by
  rw [neighbor_sum_eq]
  simp only [nb_zero]
  have h0 : 0 < cs p * cs p := mul_self_pos.mpr h
  have h1 := mul_self_nonneg (cs (gr.nb p (-1) (-1)))
  have h2 := mul_self_nonneg (cs (gr.nb p (-1) 0))
  have h3 := mul_self_nonneg (cs (gr.nb p (-1) 1))
  have h4 := mul_self_nonneg (cs (gr.nb p 0 (-1)))
  have h5 := mul_self_nonneg (cs (gr.nb p 0 1))
  have h6 := mul_self_nonneg (cs (gr.nb p 1 (-1)))
  have h7 := mul_self_nonneg (cs (gr.nb p 1 0))
  have h8 := mul_self_nonneg (cs (gr.nb p 1 1))
  linarith

/-- per cell: what the cell keeps plus what its excess hands out is the full update -/
theorem tracer_cell_balance (gr : Grid G) (cs : Scalar G) (uf flux : FaceVector G) (dt : ℚ)
    (p : G) (v : ℚ) (h0 : 0 ≤ cs p) (h1 : cs p ≤ 1)
    (hsolid : cs p = 0 → tracer_flux_sum gr flux p = 0) :
    cs p * tracer_f_new gr cs cs uf flux dt p v +
        neighbor_sum gr (fun q => cs q * cs q) p * tracer_e_new gr cs cs uf flux dt p =
      cs p * v + dt * (tracer_flux_sum gr flux p / gr.Delta) := by
  unfold tracer_f_new tracer_e_new
  by_cases hle : cs p ≤ 0
  · have hz : cs p = 0 := le_antisymm hle h0
    rw [if_pos hle, if_pos hle, hz, hsolid hz]
    ring
  · by_cases hge : cs p ≥ 1
    · have ho : cs p = 1 := le_antisymm h1 hge
      rw [if_neg hle, if_pos hge, if_neg hle, if_pos hge, ho]
      simp only [tracer_flux_sum]
      ring
    · have hne : cs p ≠ 0 := fun h => hle (le_of_eq h)
      have hs : neighbor_sum gr (fun q => cs q * cs q) p ≠ 0 :=
        ne_of_gt (neighbor_sum_sq_pos gr cs p hne)
      rw [← div_div]
      generalize tracer_flux_sum gr flux p / gr.Delta = K
      by_cases hdt : dt ≤ tracer_dtmax gr cs uf p
      · simp only [if_neg hle, if_neg hge, if_pos hdt]
        field_simp
        ring
      · simp only [if_neg hle, if_neg hge, if_neg hdt]
        field_simp
        ring

/-- redistribution identity: what the cells receive, weighted by `w`, is what the cells
hand out, weighted by the sum of `w` over their 3×3 block -/
theorem sum_neighbor_sum_swap (gr : Grid G) (C : Finset G)
    (hC : ∀ p ∈ C, ∀ i j : Int, -1 ≤ i → i ≤ 1 → -1 ≤ j → j ≤ 1 → gr.nb p i j ∈ C)
    (w e : G → ℚ) :
    (∑ q in C, w q * neighbor_sum gr e q) = ∑ p in C, neighbor_sum gr w p * e p := by
  have sh : ∀ i j : Int, -1 ≤ i → i ≤ 1 → -1 ≤ j → j ≤ 1 →
      (∑ q in C, w q * e (gr.nb q i j)) = ∑ p in C, w (gr.nb p (-i) (-j)) * e p := by
    intro i j hi1 hi2 hj1 hj2
    exact sum_shift gr C i j (fun p hp => hC p hp i j hi1 hi2 hj1 hj2)
      (fun p hp => hC p hp (-i) (-j) (by omega) (by omega) (by omega) (by omega)) w e
  simp only [neighbor_sum_eq, mul_add, add_mul, Finset.sum_add_distrib]
  rw [sh (-1) (-1) (by norm_num) (by norm_num) (by norm_num) (by norm_num),
    sh (-1) 0 (by norm_num) (by norm_num) (by norm_num) (by norm_num),
    sh (-1) 1 (by norm_num) (by norm_num) (by norm_num) (by norm_num),
    sh 0 (-1) (by norm_num) (by norm_num) (by norm_num) (by norm_num),
    sh 0 0 (by norm_num) (by norm_num) (by norm_num) (by norm_num),
    sh 0 1 (by norm_num) (by norm_num) (by norm_num) (by norm_num),
    sh 1 (-1) (by norm_num) (by norm_num) (by norm_num) (by norm_num),
    sh 1 0 (by norm_num) (by norm_num) (by norm_num) (by norm_num),
    sh 1 1 (by norm_num) (by norm_num) (by norm_num) (by norm_num)]
  simp only [neg_neg, neg_zero]
  ring

theorem tracer_total_eq_sum (gr : Grid G) (cs f : Scalar G) (hnd : gr.cells.Nodup) :
    tracer_total gr cs f = ∑ p in gr.cells.toFinset, cs p * f p := by
  unfold tracer_total
  rw [List.sum_toFinset _ hnd]

/-- C6: conservation in `update_tracer`.  On a grid traversed without repetition in
which every cell has its full 3×3 neighbour stencil, with `cm = cs`, fractions in
`[0,1]` and zero flux divergence in solid cells, for every `dt` the total `Σ cs·f`
after the call is the total before plus `dt · Σ_cells Σ_axes (flux[] - flux[1])/Delta`;
hence it is unchanged when that net flux is zero. -/
theorem update_tracer_conserves (gr : Grid G) (cs cm f : Scalar G) (uf flux : FaceVector G)
    (dt : ℚ) (e0 : Scalar G)
    (hnd : gr.cells.Nodup)
    (hstencil : ∀ p ∈ gr.cells, ∀ i j : Int, -1 ≤ i → i ≤ 1 → -1 ≤ j → j ≤ 1 →
      gr.nb p i j ∈ gr.cells)
    (hcm : cm = cs)
    (hrange : ∀ p ∈ gr.cells, 0 ≤ cs p ∧ cs p ≤ 1)
    (hsolid : ∀ p ∈ gr.cells, cs p = 0 → tracer_flux_sum gr flux p = 0) :
    tracer_total gr cs (update_tracer gr cs cm f uf flux dt e0).1 =
      tracer_total gr cs f +
        dt * (gr.cells.map fun p =>
          ((flux.x p - flux.x (gr.nb p 1 0)) + (flux.y p - flux.y (gr.nb p 0 1))) /
            gr.Delta).sum ∧
    ((gr.cells.map fun p =>
          ((flux.x p - flux.x (gr.nb p 1 0)) + (flux.y p - flux.y (gr.nb p 0 1))) /
            gr.Delta).sum = 0 →
      tracer_total gr cs (update_tracer gr cs cm f uf flux dt e0).1 = tracer_total gr cs f) := by
  subst hcm
  have main : tracer_total gr cm (update_tracer gr cm cm f uf flux dt e0).1 =
      tracer_total gr cm f +
        dt * (gr.cells.map fun p =>
          ((flux.x p - flux.x (gr.nb p 1 0)) + (flux.y p - flux.y (gr.nb p 0 1))) /
            gr.Delta).sum := by
    rw [tracer_total_eq_sum gr cm _ hnd, tracer_total_eq_sum gr cm f hnd,
      ← List.sum_toFinset _ hnd, Finset.mul_sum, ← Finset.sum_add_distrib]
    set C := gr.cells.toFinset with hCdef
    have hC : ∀ p ∈ C, ∀ i j : Int, -1 ≤ i → i ≤ 1 → -1 ≤ j → j ≤ 1 → gr.nb p i j ∈ C := by
      intro p hp i j a b c d
      exact List.mem_toFinset.mpr (hstencil p (List.mem_toFinset.mp hp) i j a b c d)
    set r := gr.cells.foldl (tracer_cell gr cm cm uf flux dt) (f, e0) with hr
    -- the fields after the two loops, on traversed cells
    have hf2 : ∀ q ∈ C, (update_tracer gr cm cm f uf flux dt e0).1 q =
        tracer_f_new gr cm cm uf flux dt q (f q) + cm q * neighbor_sum gr r.2 q := by
      intro q hq
      have hq2 : q ∈ gr.cells := List.mem_toFinset.mp hq
      simp only [update_tracer]
      rw [foldl_tracer_spread_apply gr cm _ gr.cells hnd, if_pos hq2,
        (foldl_tracer_cell_apply gr cm cm uf flux dt gr.cells hnd (f, e0) q).1, if_pos hq2]
    have he : ∀ q ∈ C, r.2 q = tracer_e_new gr cm cm uf flux dt q := by
      intro q hq
      have hq2 : q ∈ gr.cells := List.mem_toFinset.mp hq
      rw [hr, (foldl_tracer_cell_apply gr cm cm uf flux dt gr.cells hnd (f, e0) q).2, if_pos hq2]
    have hsplit : (∑ q in C, cm q * (update_tracer gr cm cm f uf flux dt e0).1 q) =
        (∑ q in C, cm q * tracer_f_new gr cm cm uf flux dt q (f q)) +
          ∑ q in C, (cm q * cm q) * neighbor_sum gr r.2 q := by
      rw [← Finset.sum_add_distrib]
      apply Finset.sum_congr rfl
      intro q hq
      rw [hf2 q hq]; ring
    rw [hsplit, sum_neighbor_sum_swap gr C hC (fun q => cm q * cm q) r.2,
      ← Finset.sum_add_distrib]
    apply Finset.sum_congr rfl
    intro p hp
    have hp2 : p ∈ gr.cells := List.mem_toFinset.mp hp
    rw [he p hp, tracer_cell_balance gr cm uf flux dt p (f p) (hrange p hp2).1 (hrange p hp2).2
      (hsolid p hp2)]
    simp only [tracer_flux_sum, zero_add]
  refine ⟨main, fun h => ?_⟩
  rw [main, h]; ring

theorem gridTorus_nodup : gridTorus.cells.Nodup := by decide

theorem gridTorus_all (q : ZMod 3 × ZMod 3) : q ∈ gridTorus.cells := by
  revert q; decide

theorem csTorus_range (p : ZMod 3 × ZMod 3) : 0 ≤ csTorus p ∧ csTorus p ≤ 1 := by
  unfold csTorus; split_ifs <;> norm_num

theorem fluxTorus_solid (p : ZMod 3 × ZMod 3) (h : csTorus p = 0) :
    tracer_flux_sum gridTorus fluxTorus p = 0 := by
  have hp : p = (1, 1) := by
    unfold csTorus at h
    split_ifs at h with h1 h2
    · norm_num at h
    · exact h2
    · norm_num at h
  subst hp
  have e1 : gridTorus.nb (1, 1) 1 0 = (2, 1) := by decide
  have e2 : gridTorus.nb (1, 1) 0 1 = (1, 2) := by decide
  simp only [tracer_flux_sum, e1, e2, fluxTorus]
  have a1 : ((1, 1) : ZMod 3 × ZMod 3) ≠ (0, 0) := by decide
  have a2 : ((2, 1) : ZMod 3 × ZMod 3) ≠ (0, 0) := by decide
  simp [a1, a2]

/-- the cut cell of the torus exceeds its local bound at dt = 5 -/
theorem torus_excess : (5 : ℚ) > tracer_dtmax gridTorus csTorus ufTorus (0, 0) := by
  norm_num [tracer_dtmax, tracer_umax, ufTorus, csTorus, gridTorus, SEPS]

/-- Witness of C6 on the 3×3 periodic grid, with a cut cell whose local bound is
exceeded (`dt = 5`), a solid cell without flux divergence, and fluid cells. -/
theorem update_tracer_conserves_witness :
    gridTorus.cells.Nodup ∧
    (∀ p ∈ gridTorus.cells, ∀ i j : Int, -1 ≤ i → i ≤ 1 → -1 ≤ j → j ≤ 1 →
      gridTorus.nb p i j ∈ gridTorus.cells) ∧
    (∀ p ∈ gridTorus.cells, 0 ≤ csTorus p ∧ csTorus p ≤ 1) ∧
    (∀ p ∈ gridTorus.cells, csTorus p = 0 → tracer_flux_sum gridTorus fluxTorus p = 0) ∧
    (5 : ℚ) > tracer_dtmax gridTorus csTorus ufTorus (0, 0) ∧
    tracer_total gridTorus csTorus
        (update_tracer gridTorus csTorus csTorus (fun _ => 1) ufTorus fluxTorus 5
          (fun _ => 0)).1 =
      tracer_total gridTorus csTorus (fun _ => 1) +
        5 * (gridTorus.cells.map fun p =>
          ((fluxTorus.x p - fluxTorus.x (gridTorus.nb p 1 0)) +
            (fluxTorus.y p - fluxTorus.y (gridTorus.nb p 0 1))) / gridTorus.Delta).sum :=
  ⟨gridTorus_nodup, fun p _ i j _ _ _ _ => gridTorus_all (gridTorus.nb p i j),
    fun p _ => csTorus_range p, fun p _ h => fluxTorus_solid p h, torus_excess,
    (update_tracer_conserves gridTorus csTorus csTorus (fun _ => 1) ufTorus fluxTorus 5
      (fun _ => 0) gridTorus_nodup
      (fun p _ i j _ _ _ _ => gridTorus_all (gridTorus.nb p i j)) rfl
      (fun p _ => csTorus_range p) (fun p _ h => fluxTorus_solid p h)).1⟩

theorem sLin_linear (i j : Int) :
    sLin (gridOne.nb (5, 5) i j) = 7 + gridOne.Delta * (2 * (i : ℚ) + 3 * (j : ℚ)) := by
  simp only [gridOne_nb, sLin, gridOne_Delta]
  push_cast
  ring

/-- on the fully open grid the first standoff sample of the witness is set -/
theorem sLin_first_sample :
    (dirichlet_samples gridOne (10 ^ 30) sOpen (5, 5) sLin cFluid ⟨3 / 5, 4 / 5⟩
      ⟨1 / 4, 1 / 4⟩).2.2.1 ≠ 10 ^ 30 := by
  norm_num [dirichlet_samples, dirichlet_defined, dirichlet_standoff, sign, quadratic,
    gridOne_nb, sOpen, cFluid, sLin]

/-- Witness of C5 on the fully open grid, with both standoff samples set. -/
theorem dirichlet_gradient_x_linear_exact_witness :
    gridOne.Delta ≠ 0 ∧ (3 / 5 : ℚ) ≠ 0 ∧ |(1 / 4 : ℚ)| ≤ 1 / 2 ∧
    (dirichlet_samples gridOne (10 ^ 30) sOpen (5, 5) sLin cFluid ⟨3 / 5, 4 / 5⟩
      ⟨1 / 4, 1 / 4⟩).2.2.1 ≠ 10 ^ 30 ∧
    dirichlet_gradient_x gridOne (10 ^ 30) sOpen (5, 5) sLin cFluid ⟨3 / 5, 4 / 5⟩
      ⟨1 / 4, 1 / 4⟩ (7 + gridOne.Delta * (2 * (1 / 4) + 3 * (1 / 4))) =
      (2 * (3 / 5) + 3 * (4 / 5), 0) :=
  ⟨by norm_num [gridOne_Delta], by norm_num, by norm_num [abs_le], sLin_first_sample,
    dirichlet_gradient_x_linear_exact gridOne (10 ^ 30) sOpen (5, 5) sLin cFluid
      ⟨3 / 5, 4 / 5⟩ ⟨1 / 4, 1 / 4⟩ (7 + gridOne.Delta * (2 * (1 / 4) + 3 * (1 / 4))) 7 2 3
      (by norm_num [gridOne_Delta]) (by norm_num) (by norm_num [abs_le]) sLin_linear rfl
      sLin_first_sample⟩

/-! ## The return value in default mode (`opposite = false`) -/

theorem length_filter_eq_sum (l : List G) (P : G → Prop) [DecidablePred P] :
    (l.filter (fun p => decide (P p))).length = (l.map fun p => if P p then 1 else 0).sum := by
  induction l with
  | nil => simp
  | cons p l ih =>
    by_cases h : P p
    · simp [List.filter_cons, h, ih]; omega
    · simp [List.filter_cons, h, ih]

theorem cells_changed_eq_sum (gr : Grid G) (c c1 : Scalar G) (hnd : gr.cells.Nodup) :
    cells_changed gr c c1 = (gr.cells.map fun p => if c1 p ≠ c p then 1 else 0).sum := by
  unfold cells_changed
  rw [List.Nodup.dedup hnd]
  exact length_filter_eq_sum gr.cells (fun p => c1 p ≠ c p)

/-- in default mode the cell body counts 1 exactly when it changes the value -/
theorem cleanup_cell_body_default (gr : Grid G) (s : FaceVector G) (p : G) (v : ℚ) :
    (cleanup_cell_body gr s false p v).2 =
      if (cleanup_cell_body gr s false p v).1 ≠ v then 1 else 0 := by
  by_cases hv : 0 < v ∧ v < 1
  · rw [cleanup_cell_body_cut gr s false p v hv]
    have hne : v ≠ 0 := ne_of_gt hv.1
    by_cases hn : open_faces gr s p < 2
    · simp [cleanup_count, hn, hne.symm]
    · simp [cleanup_count, hn]
  · rw [cleanup_cell_body_not_cut gr s false p v hv]
    simp

/-- in default mode one pass counts the cells it changes -/
theorem cleanup_pass_default_counts (gr : Grid G) (smin : ℚ) (st : CleanupState G)
    (hnd : gr.cells.Nodup) :
    (cleanup_pass gr smin false st).changed =
      cells_changed gr st.c (cleanup_pass gr smin false st).c := by
  rw [cells_changed_eq_sum gr _ _ hnd]
  show (cleanup_cells gr (cleanup_faces gr st.c smin st.s) false st.c).2 = _
  rw [cleanup_cells_snd gr _ false st.c hnd]
  congr 1
  apply List.map_congr_left
  intro p hp
  rw [cleanup_pass_c_apply, if_pos hp]
  exact cleanup_cell_body_default gr _ p (st.c p)

/-- a pass leaves a cell value alone or sets it to zero; a zero stays -/
theorem cleanup_pass_c_cases (gr : Grid G) (smin : ℚ) (opp : Bool) (st : CleanupState G)
    (p : G) :
    (cleanup_pass gr smin opp st).c p = st.c p ∨ (cleanup_pass gr smin opp st).c p = 0 := by
  rw [cleanup_pass_c_apply]
  by_cases hp : p ∈ gr.cells
  · rw [if_pos hp]
    by_cases hv : 0 < st.c p ∧ st.c p < 1
    · rw [cleanup_cell_body_cut gr _ opp p (st.c p) hv]
      by_cases hc : cleanup_count gr (cleanup_pass gr smin opp st).s opp p = 0
      · left; simp [hc]
      · right; simp [hc]
    · rw [cleanup_cell_body_not_cut gr _ opp p (st.c p) hv]; left; rfl
  · rw [if_neg hp]; left; rfl

theorem cleanup_pass_c_zero (gr : Grid G) (smin : ℚ) (opp : Bool) (st : CleanupState G)
    (p : G) (h : st.c p = 0) : (cleanup_pass gr smin opp st).c p = 0 := by
  rcases cleanup_pass_c_cases gr smin opp st p with h1 | h1
  · rw [h1, h]
  · exact h1

/-- the invariant of the loop in default mode -/
theorem cleanup_loop_default_counts (gr : Grid G) (smin : ℚ) (c0 : Scalar G)
    (hnd : gr.cells.Nodup) (k : Nat) :
    ∀ st : CleanupState G,
      st.schanged = cells_changed gr c0 st.c → (∀ p, st.c p ≠ c0 p → st.c p = 0) →
      (cleanup_loop gr smin false k st).schanged =
        cells_changed gr c0 (cleanup_loop gr smin false k st).c := by
  induction k with
  | zero => intro st h _; exact h
  | succ k ih =>
    intro st h hz
    by_cases hch : st.changed = 0
    · rw [cleanup_loop_stop gr smin false (k + 1) st hch]; exact h
    · rw [cleanup_loop_step gr smin false k st hch]
      apply ih
      · have hs : (cleanup_pass gr smin false st).schanged =
            st.schanged + (cleanup_pass gr smin false st).changed := rfl
        rw [hs, h, cleanup_pass_default_counts gr smin st hnd,
          cells_changed_eq_sum gr c0 _ hnd, cells_changed_eq_sum gr c0 _ hnd,
          cells_changed_eq_sum gr st.c _ hnd, ← List.sum_map_add]
        congr 1
        apply List.map_congr_left
        intro p _
        by_cases h1 : st.c p = c0 p
        · simp [h1]
        · have h2 : st.c p = 0 := hz p h1
          have h3 : (cleanup_pass gr smin false st).c p = 0 :=
            cleanup_pass_c_zero gr smin false st p h2
          have h4 : (cleanup_pass gr smin false st).c p ≠ c0 p := by
            rw [h3, ← h2]; exact h1
          have h5 : ¬ ((cleanup_pass gr smin false st).c p ≠ st.c p) := by
            rw [h3, h2]; simp
          rw [if_pos h1, if_pos h4, if_neg h5]
      · intro p hp
        rcases cleanup_pass_c_cases gr smin false st p with h1 | h1
        · rw [h1] at hp ⊢; exact hz p hp
        · exact h1

/-- in default mode (`opposite = false`) the integer returned by `fractions_cleanup` is
the number of traversed cells whose fraction the call changed -/
theorem fractions_cleanup_default_counts_cells (gr : Grid G) (c : Scalar G) (s : FaceVector G)
    (smin : ℚ) (hnd : gr.cells.Nodup) :
    (fractions_cleanup gr c s smin false).schanged =
      cells_changed gr c (fractions_cleanup gr c s smin false).c := by
  apply cleanup_loop_default_counts gr smin c hnd 100
  · show 0 = cells_changed gr c c
    rw [cells_changed_eq_sum gr c c hnd]
    simp
  · intro p hp; exact absurd rfl hp

/-! ## Face/cell consistency of a converged `fractions_cleanup` -/

/-- a face value that survives the face body is at least `smin` and lies between two
cells with non-zero fraction -/
theorem cleanup_face_val_ne_zero (gr : Grid G) (c : Scalar G) (smin : ℚ) (p : G) (v : ℚ)
    (h : cleanup_face_val gr c smin p v ≠ 0) :
    cleanup_face_val gr c smin p v = v ∧ smin ≤ v ∧ c p ≠ 0 ∧ c (gr.nb p (-1) 0) ≠ 0 := by
  unfold cleanup_face_val at h ⊢
  by_cases hc : v ≠ 0 ∧ ((c p = 0 ∨ c (gr.nb p (-1) 0) = 0) ∨ v < smin)
  · rw [if_pos hc] at h; exact absurd rfl h
  · rw [if_neg hc] at h ⊢
    have h2 : ¬ ((c p = 0 ∨ c (gr.nb p (-1) 0) = 0) ∨ v < smin) := fun h3 => hc ⟨h, h3⟩
    refine ⟨rfl, ?_, ?_, ?_⟩
    · exact not_lt.mp (fun h3 => h2 (Or.inr h3))
    · exact fun h3 => h2 (Or.inl (Or.inl h3))
    · exact fun h3 => h2 (Or.inl (Or.inr h3))

theorem rot_nb (gr : Grid G) (p : G) (i j : Int) : gr.rot.nb p i j = gr.nb p j i := by
  simp only [Grid.nb, Grid.rot]; abel

/-- after a converged call, a traversed x-face with non-zero fraction is at least `smin`
and both cells adjoining it have a non-zero fraction -/
theorem fractions_cleanup_open_face_x (gr : Grid G) (c : Scalar G) (s : FaceVector G)
    (smin : ℚ) (opposite : Bool)
    (hconv : (fractions_cleanup gr c s smin opposite).changed = 0)
    (q : G) (hq : q ∈ gr.facesX)
    (h : (fractions_cleanup gr c s smin opposite).s.x q ≠ 0) :
    smin ≤ (fractions_cleanup gr c s smin opposite).s.x q ∧
    (fractions_cleanup gr c s smin opposite).c q ≠ 0 ∧
    (fractions_cleanup gr c s smin opposite).c (gr.nb q (-1) 0) ≠ 0 := by
  obtain ⟨st0, e⟩ := fractions_cleanup_ends_on_pass gr c s smin opposite
  rw [e] at hconv h ⊢
  obtain ⟨hc, hs, _, _⟩ := cleanup_pass_converged gr smin opposite st0 hconv
  rw [hs] at h ⊢
  rw [hc]
  rw [cleanup_faces_x_apply, if_pos hq] at h ⊢
  obtain ⟨e1, h1, h2, h3⟩ := cleanup_face_val_ne_zero gr st0.c smin q (st0.s.x q) h
  rw [e1]
  exact ⟨h1, h2, h3⟩

/-- the same for a traversed y-face -/
theorem fractions_cleanup_open_face_y (gr : Grid G) (c : Scalar G) (s : FaceVector G)
    (smin : ℚ) (opposite : Bool)
    (hconv : (fractions_cleanup gr c s smin opposite).changed = 0)
    (q : G) (hq : q ∈ gr.facesY)
    (h : (fractions_cleanup gr c s smin opposite).s.y q ≠ 0) :
    smin ≤ (fractions_cleanup gr c s smin opposite).s.y q ∧
    (fractions_cleanup gr c s smin opposite).c q ≠ 0 ∧
    (fractions_cleanup gr c s smin opposite).c (gr.nb q 0 (-1)) ≠ 0 := by
  obtain ⟨st0, e⟩ := fractions_cleanup_ends_on_pass gr c s smin opposite
  rw [e] at hconv h ⊢
  obtain ⟨hc, hs, _, _⟩ := cleanup_pass_converged gr smin opposite st0 hconv
  rw [hs] at h ⊢
  rw [hc]
  rw [cleanup_faces_y_apply, if_pos hq] at h ⊢
  obtain ⟨e1, h1, h2, h3⟩ := cleanup_face_val_ne_zero gr.rot st0.c smin q (st0.s.y q) h
  rw [e1]
  rw [rot_nb] at h3
  exact ⟨h1, h2, h3⟩

/-- C11: face/cell consistency after repair.  If `fractions_cleanup (c, s, smin, opposite)`
converges, then on return every traversed face with a non-zero face fraction has
`s ≥ smin` and both of its adjoining cells have a non-zero fraction `c` (x-faces and
y-faces alike). -/
theorem fractions_cleanup_faces_consistent (gr : Grid G) (c : Scalar G) (s : FaceVector G)
    (smin : ℚ) (opposite : Bool)
    (hconv : (fractions_cleanup gr c s smin opposite).changed = 0) :
    (∀ q ∈ gr.facesX, (fractions_cleanup gr c s smin opposite).s.x q ≠ 0 →
      smin ≤ (fractions_cleanup gr c s smin opposite).s.x q ∧
      (fractions_cleanup gr c s smin opposite).c q ≠ 0 ∧
      (fractions_cleanup gr c s smin opposite).c (gr.nb q (-1) 0) ≠ 0) ∧
    (∀ q ∈ gr.facesY, (fractions_cleanup gr c s smin opposite).s.y q ≠ 0 →
      smin ≤ (fractions_cleanup gr c s smin opposite).s.y q ∧
      (fractions_cleanup gr c s smin opposite).c q ≠ 0 ∧
      (fractions_cleanup gr c s smin opposite).c (gr.nb q 0 (-1)) ≠ 0) :=
  ⟨fun q hq h => fractions_cleanup_open_face_x gr c s smin opposite hconv q hq h,
    fun q hq h => fractions_cleanup_open_face_y gr c s smin opposite hconv q hq h⟩

theorem nb_pred (gr : Grid G) (p : G) (i : Int) :
    gr.nb (gr.nb p i 0) (-1) 0 = gr.nb p (i - 1) 0 := by
  simp only [Grid.nb, sub_smul, neg_smul, one_smul, zero_smul]; abel

/-- C20: assertion validity after repair.  On the fields left by a converged
`fractions_cleanup`, for every traversed face with `0 < fs.x[i] < 1` the assertion
`cs[i] && cs[i-1]` of `embed_face_gradient_x` holds, so the call made by the macro
`face_gradient_x` does not fail. -/
theorem face_gradient_assertion_after_cleanup (gr : Grid G) (c : Scalar G) (s : FaceVector G)
    (smin : ℚ) (opposite : Bool) (pt : G) (i : Int) (a : Scalar G) (third : Bool)
    (hconv : (fractions_cleanup gr c s smin opposite).changed = 0)
    (hface : gr.nb pt i 0 ∈ gr.facesX)
    (h0 : 0 < (fractions_cleanup gr c s smin opposite).s.x (gr.nb pt i 0))
    (_h1 : (fractions_cleanup gr c s smin opposite).s.x (gr.nb pt i 0) < 1) :
    ((fractions_cleanup gr c s smin opposite).c (gr.nb pt i 0) ≠ 0 ∧
      (fractions_cleanup gr c s smin opposite).c (gr.nb pt (i - 1) 0) ≠ 0) ∧
    embed_face_gradient_x gr (fractions_cleanup gr c s smin opposite).s
      (fractions_cleanup gr c s smin opposite).c pt a i ≠ none ∧
    face_gradient_x gr (fractions_cleanup gr c s smin opposite).s
      (fractions_cleanup gr c s smin opposite).c pt a third i ≠ none := by
  obtain ⟨_, h2, h3⟩ := fractions_cleanup_open_face_x gr c s smin opposite hconv
    (gr.nb pt i 0) hface (ne_of_gt h0)
  rw [nb_pred] at h3
  have hg : embed_face_gradient_x gr (fractions_cleanup gr c s smin opposite).s
      (fractions_cleanup gr c s smin opposite).c pt a i ≠ none := by
    unfold embed_face_gradient_x
    simp only [if_pos (And.intro h2 h3)]
    split_ifs <;> simp
  refine ⟨⟨h2, h3⟩, hg, ?_⟩
  unfold face_gradient_x
  split_ifs
  · exact hg
  · simp

/-! ## `fractions_cleanup` only closes, and converges -/

/-- a property kept by every pass holds on leaving the loop -/
theorem cleanup_loop_invariant (gr : Grid G) (smin : ℚ) (opp : Bool)
    (P : CleanupState G → Prop)
    (hstep : ∀ st, P st → P (cleanup_pass gr smin opp st)) (k : Nat) :
    ∀ st, P st → P (cleanup_loop gr smin opp k st) := by
  induction k with
  | zero => intro st h; exact h
  | succ k ih =>
    intro st h
    by_cases hch : st.changed = 0
    · rw [cleanup_loop_stop gr smin opp (k + 1) st hch]; exact h
    · rw [cleanup_loop_step gr smin opp k st hch]
      exact ih _ (hstep st h)

theorem cleanup_face_val_cases (gr : Grid G) (c : Scalar G) (smin : ℚ) (p : G) (v : ℚ) :
    cleanup_face_val gr c smin p v = v ∨ cleanup_face_val gr c smin p v = 0 := by
  unfold cleanup_face_val
  split_ifs
  · right; rfl
  · left; rfl

theorem cleanup_pass_sx_cases (gr : Grid G) (smin : ℚ) (opp : Bool) (st : CleanupState G)
    (q : G) :
    (cleanup_pass gr smin opp st).s.x q = st.s.x q ∨ (cleanup_pass gr smin opp st).s.x q = 0 := by
  show (cleanup_faces gr st.c smin st.s).x q = _ ∨ (cleanup_faces gr st.c smin st.s).x q = 0
  rw [cleanup_faces_x_apply]
  split_ifs
  · exact cleanup_face_val_cases gr st.c smin q (st.s.x q)
  · left; rfl

theorem cleanup_pass_sy_cases (gr : Grid G) (smin : ℚ) (opp : Bool) (st : CleanupState G)
    (q : G) :
    (cleanup_pass gr smin opp st).s.y q = st.s.y q ∨ (cleanup_pass gr smin opp st).s.y q = 0 := by
  show (cleanup_faces gr st.c smin st.s).y q = _ ∨ (cleanup_faces gr st.c smin st.s).y q = 0
  rw [cleanup_faces_y_apply]
  split_ifs
  · exact cleanup_face_val_cases gr.rot st.c smin q (st.s.y q)
  · left; rfl

/-- a pass keeps the fraction of a cell that is not cut -/
theorem cleanup_pass_c_not_cut (gr : Grid G) (smin : ℚ) (opp : Bool) (st : CleanupState G)
    (q : G) (h : ¬ (0 < st.c q ∧ st.c q < 1)) : (cleanup_pass gr smin opp st).c q = st.c q := by
  rw [cleanup_pass_c_apply]
  split_ifs
  · rw [cleanup_cell_body_not_cut gr _ opp q (st.c q) h]
  · rfl

/-- every value left by the call is the input value or zero, and a cell that is not cut
keeps its fraction -/
theorem fractions_cleanup_values (gr : Grid G) (c : Scalar G) (s : FaceVector G)
    (smin : ℚ) (opp : Bool) (q : G) :
    ((fractions_cleanup gr c s smin opp).c q = c q ∨ (fractions_cleanup gr c s smin opp).c q = 0) ∧
    ((fractions_cleanup gr c s smin opp).s.x q = s.x q ∨
      (fractions_cleanup gr c s smin opp).s.x q = 0) ∧
    ((fractions_cleanup gr c s smin opp).s.y q = s.y q ∨
      (fractions_cleanup gr c s smin opp).s.y q = 0) ∧
    (¬ (0 < c q ∧ c q < 1) → (fractions_cleanup gr c s smin opp).c q = c q) := by
  apply cleanup_loop_invariant gr smin opp (fun st =>
    (st.c q = c q ∨ st.c q = 0) ∧ (st.s.x q = s.x q ∨ st.s.x q = 0) ∧
    (st.s.y q = s.y q ∨ st.s.y q = 0) ∧ (¬ (0 < c q ∧ c q < 1) → st.c q = c q))
  · intro st ⟨h1, h2, h3, h4⟩
    refine ⟨?_, ?_, ?_, ?_⟩
    · rcases cleanup_pass_c_cases gr smin opp st q with e | e
      · rw [e]; exact h1
      · right; exact e
    · rcases cleanup_pass_sx_cases gr smin opp st q with e | e
      · rw [e]; exact h2
      · right; exact e
    · rcases cleanup_pass_sy_cases gr smin opp st q with e | e
      · rw [e]; exact h3
      · right; exact e
    · intro hn
      have e := h4 hn
      rw [cleanup_pass_c_not_cut gr smin opp st q (by rw [e]; exact hn)]
      exact e
  · exact ⟨Or.inl rfl, Or.inl rfl, Or.inl rfl, fun _ => rfl⟩

/-- C18: `fractions_cleanup` keeps fractions in range and only ever closes.  For every
input whose cell and face fractions lie in `[0,1]`, every output value is the input
value or 0, hence lies in `[0,1]` and is at most the input, and every cell with `c = 0`
or `c = 1` keeps its fraction. -/
theorem fractions_cleanup_only_closes (gr : Grid G) (c : Scalar G) (s : FaceVector G)
    (smin : ℚ) (opposite : Bool)
    (hc : ∀ q, 0 ≤ c q ∧ c q ≤ 1) (hsx : ∀ q, 0 ≤ s.x q ∧ s.x q ≤ 1)
    (hsy : ∀ q, 0 ≤ s.y q ∧ s.y q ≤ 1) (q : G) :
    ((fractions_cleanup gr c s smin opposite).c q = c q ∨
      (fractions_cleanup gr c s smin opposite).c q = 0) ∧
    ((fractions_cleanup gr c s smin opposite).s.x q = s.x q ∨
      (fractions_cleanup gr c s smin opposite).s.x q = 0) ∧
    ((fractions_cleanup gr c s smin opposite).s.y q = s.y q ∨
      (fractions_cleanup gr c s smin opposite).s.y q = 0) ∧
    (0 ≤ (fractions_cleanup gr c s smin opposite).c q ∧
      (fractions_cleanup gr c s smin opposite).c q ≤ c q ∧
      (fractions_cleanup gr c s smin opposite).c q ≤ 1) ∧
    (0 ≤ (fractions_cleanup gr c s smin opposite).s.x q ∧
      (fractions_cleanup gr c s smin opposite).s.x q ≤ s.x q ∧
      (fractions_cleanup gr c s smin opposite).s.x q ≤ 1) ∧
    (0 ≤ (fractions_cleanup gr c s smin opposite).s.y q ∧
      (fractions_cleanup gr c s smin opposite).s.y q ≤ s.y q ∧
      (fractions_cleanup gr c s smin opposite).s.y q ≤ 1) ∧
    (c q = 0 ∨ c q = 1 → (fractions_cleanup gr c s smin opposite).c q = c q) := by
  obtain ⟨h1, h2, h3, h4⟩ := fractions_cleanup_values gr c s smin opposite q
  have range : ∀ (v w : ℚ), 0 ≤ v ∧ v ≤ 1 → (w = v ∨ w = 0) → 0 ≤ w ∧ w ≤ v ∧ w ≤ 1 := by
    intro v w hv hw
    rcases hw with e | e
    · rw [e]; exact ⟨hv.1, le_refl v, hv.2⟩
    · rw [e]; exact ⟨le_refl 0, hv.1, zero_le_one⟩
  refine ⟨h1, h2, h3, range _ _ (hc q) h1, range _ _ (hsx q) h2, range _ _ (hsy q) h3, ?_⟩
  intro h
  apply h4
  rcases h with e | e
  · rw [e]; norm_num
  · rw [e]; norm_num

/-- no cell becomes cut in a pass -/
theorem cleanup_pass_cut_subset (gr : Grid G) (smin : ℚ) (opp : Bool) (st : CleanupState G)
    (p : G) (h : 0 < (cleanup_pass gr smin opp st).c p ∧ (cleanup_pass gr smin opp st).c p < 1) :
    0 < st.c p ∧ st.c p < 1 := by
  rcases cleanup_pass_c_cases gr smin opp st p with e | e
  · rw [e] at h; exact h
  · rw [e] at h; exact absurd h.1 (lt_irrefl 0)

/-- a cell loop whose counter moves sets a traversed cut cell to zero -/
theorem foldl_cleanup_cell_closes (gr : Grid G) (s : FaceVector G) (opp : Bool) (l : List G) :
    ∀ (c : Scalar G) (n : Nat), (l.foldl (cleanup_cell gr s opp) (c, n)).2 ≠ n →
      ∃ p ∈ l, (0 < c p ∧ c p < 1) ∧ (l.foldl (cleanup_cell gr s opp) (c, n)).1 p = 0 := by
  induction l with
  | nil => intro c n h; exact absurd rfl h
  | cons p l ih =>
    intro c n h
    rw [List.foldl_cons] at h ⊢
    by_cases h0 : (cleanup_cell_body gr s opp p (c p)).2 = 0
    · have hstep : cleanup_cell gr s opp (c, n) p = (c, n) := by
        simp only [cleanup_cell, h0, cleanup_cell_body_count_zero gr s opp p (c p) h0,
          Function.update_eq_self, add_zero]
      rw [hstep] at h ⊢
      obtain ⟨q, hq, hcut, hz⟩ := ih c n h
      exact ⟨q, List.mem_cons_of_mem p hq, hcut, hz⟩
    · have hcut : 0 < c p ∧ c p < 1 := by
        by_contra hn
        rw [cleanup_cell_body_not_cut gr s opp p (c p) hn] at h0
        exact h0 rfl
      have hval : (cleanup_cell_body gr s opp p (c p)).1 = 0 := by
        rw [cleanup_cell_body_cut gr s opp p (c p) hcut] at h0 ⊢
        simp only at h0 ⊢
        rw [if_neg h0]
      refine ⟨p, List.mem_cons_self p l, hcut, ?_⟩
      rw [foldl_cleanup_cell_fst]
      have e : (cleanup_cell gr s opp (c, n) p).1 p = 0 := by
        simp only [cleanup_cell, Function.update_same, hval]
      rw [e]
      split_ifs
      · rw [cleanup_cell_body_not_cut gr s opp p 0 (by simp)]
      · rfl

/-- a pass that counts a change sets a traversed cut cell to zero -/
theorem cleanup_pass_changed_closes (gr : Grid G) (smin : ℚ) (opp : Bool)
    (st : CleanupState G) (h : (cleanup_pass gr smin opp st).changed ≠ 0) :
    ∃ p ∈ gr.cells, (0 < st.c p ∧ st.c p < 1) ∧ (cleanup_pass gr smin opp st).c p = 0 :=
  foldl_cleanup_cell_closes gr (cleanup_faces gr st.c smin st.s) opp gr.cells st.c 0 h

theorem cut_cells_pass_le (gr : Grid G) (smin : ℚ) (opp : Bool) (st : CleanupState G) :
    cut_cells gr (cleanup_pass gr smin opp st).c ≤ cut_cells gr st.c := by
  unfold cut_cells
  apply Finset.card_le_card
  intro p hp
  rw [Finset.mem_filter] at hp ⊢
  exact ⟨hp.1, cleanup_pass_cut_subset gr smin opp st p hp.2⟩

theorem cut_cells_pass_lt (gr : Grid G) (smin : ℚ) (opp : Bool) (st : CleanupState G)
    (h : (cleanup_pass gr smin opp st).changed ≠ 0) :
    cut_cells gr (cleanup_pass gr smin opp st).c < cut_cells gr st.c := by
  obtain ⟨p, hp, hcut, hz⟩ := cleanup_pass_changed_closes gr smin opp st h
  unfold cut_cells
  apply Finset.card_lt_card
  rw [Finset.ssubset_iff_of_subset]
  · refine ⟨p, ?_, ?_⟩
    · rw [Finset.mem_filter]; exact ⟨List.mem_toFinset.mpr hp, hcut⟩
    · rw [Finset.mem_filter, hz]
      intro h2; exact lt_irrefl 0 h2.2.1
  · intro q hq
    rw [Finset.mem_filter] at hq ⊢
    exact ⟨hq.1, cleanup_pass_cut_subset gr smin opp st q hq.2⟩

/-- the pass counter along the loop -/
theorem cleanup_loop_passes (gr : Grid G) (smin : ℚ) (opp : Bool) (k : Nat) :
    ∀ st : CleanupState G, st.changed ≠ 0 →
      (cleanup_loop gr smin opp k st).i ≤ st.i + k ∧
      (cleanup_loop gr smin opp k st).i + cut_cells gr (cleanup_loop gr smin opp k st).c ≤
        st.i + cut_cells gr st.c + 1 ∧
      ((cleanup_loop gr smin opp k st).changed ≠ 0 →
        (cleanup_loop gr smin opp k st).i = st.i + k ∧
        (cleanup_loop gr smin opp k st).i + cut_cells gr (cleanup_loop gr smin opp k st).c ≤
          st.i + cut_cells gr st.c) := by
  induction k with
  | zero =>
    intro st _
    refine ⟨le_refl _, Nat.le_succ _, fun _ => ⟨rfl, le_refl _⟩⟩
  | succ k ih =>
    intro st h
    rw [cleanup_loop_step gr smin opp k st h]
    have hi : (cleanup_pass gr smin opp st).i = st.i + 1 := rfl
    have hle := cut_cells_pass_le gr smin opp st
    by_cases h1 : (cleanup_pass gr smin opp st).changed = 0
    · rw [cleanup_loop_stop gr smin opp k _ h1]
      refine ⟨by omega, by omega, fun h2 => absurd h1 h2⟩
    · have hlt := cut_cells_pass_lt gr smin opp st h1
      obtain ⟨a, b, c⟩ := ih (cleanup_pass gr smin opp st) h1
      refine ⟨by omega, by omega, fun h2 => ?_⟩
      obtain ⟨c1, c2⟩ := c h2
      exact ⟨by omega, by omega⟩

/-- C19: convergence bound of `fractions_cleanup`.  Every pass
that counts a change sets a traversed cut cell to zero and no cell becomes cut in a
pass, so the number of passes is at most `min (100, 1 + cut cells of the input)`; on
every input with at most 99 cut cells the call converges. -/
theorem fractions_cleanup_pass_bound (gr : Grid G) (c : Scalar G) (s : FaceVector G)
    (smin : ℚ) (opposite : Bool) :
    (∀ st : CleanupState G, (cleanup_pass gr smin opposite st).changed ≠ 0 →
      ∃ p ∈ gr.cells, (0 < st.c p ∧ st.c p < 1) ∧
        (cleanup_pass gr smin opposite st).c p = 0) ∧
    (∀ (st : CleanupState G) (p : G),
      0 < (cleanup_pass gr smin opposite st).c p ∧ (cleanup_pass gr smin opposite st).c p < 1 →
        0 < st.c p ∧ st.c p < 1) ∧
    (fractions_cleanup gr c s smin opposite).i ≤ min 100 (1 + cut_cells gr c) ∧
    (cut_cells gr c ≤ 99 → (fractions_cleanup gr c s smin opposite).changed = 0) := by
  obtain ⟨a, b, d⟩ := cleanup_loop_passes gr smin opposite 100 ⟨c, s, 1, 0, 0⟩ (by simp)
  refine ⟨fun st h => cleanup_pass_changed_closes gr smin opposite st h,
    fun st p h => cleanup_pass_cut_subset gr smin opposite st p h, ?_, ?_⟩
  · have a2 : (fractions_cleanup gr c s smin opposite).i ≤ 100 := by
      simpa [fractions_cleanup] using a
    have b2 : (fractions_cleanup gr c s smin opposite).i ≤ 1 + cut_cells gr c := by
      have : (fractions_cleanup gr c s smin opposite).i +
          cut_cells gr (fractions_cleanup gr c s smin opposite).c ≤ 0 + cut_cells gr c + 1 := b
      omega
    exact le_min a2 b2
  · intro hN
    by_contra hch
    obtain ⟨d1, d2⟩ := d hch
    have d1b : (fractions_cleanup gr c s smin opposite).i = 0 + 100 := d1
    have d2b : (fractions_cleanup gr c s smin opposite).i +
        cut_cells gr (fractions_cleanup gr c s smin opposite).c ≤ 0 + cut_cells gr c := d2
    omega

/-! ## Witnesses for the consistency, range and convergence results -/

theorem cut_cells_le_length (gr : Grid G) (c : Scalar G) : cut_cells gr c ≤ gr.cells.length :=
  le_trans (Finset.card_filter_le _ _) (List.toFinset_card_le gr.cells)

/-- the x-face of `(5,5)` stays fully open in the call on `gridAB` -/
theorem fractions_cleanup_AB_face :
    (fractions_cleanup gridAB cAB sAB 0 false).s.x (5, 5) = 1 := by
  rw [fractions_cleanup_AB]
  simp only [cleanup_pass]
  norm_num [cleanup_cell_body, cleanup_cells_fst_apply, cleanup_axis, cleanup_faces_x_apply,
    cleanup_faces_y_apply, gridAB_facesX, gridAB_facesY, cleanup_face_val, gridAB_cells,
    gridAB_nb, gridAB_rot_nb, cAB, sAB]

/-- Witness of C11 on `gridAB`: the x-face of `(5,5)` is traversed and open after the
converged call. -/
theorem fractions_cleanup_faces_consistent_witness :
    (fractions_cleanup gridAB cAB sAB 0 false).changed = 0 ∧
    (5, 5) ∈ gridAB.facesX ∧
    (fractions_cleanup gridAB cAB sAB 0 false).s.x (5, 5) ≠ 0 ∧
    (0 ≤ (fractions_cleanup gridAB cAB sAB 0 false).s.x (5, 5) ∧
      (fractions_cleanup gridAB cAB sAB 0 false).c (5, 5) ≠ 0 ∧
      (fractions_cleanup gridAB cAB sAB 0 false).c (gridAB.nb (5, 5) (-1) 0) ≠ 0) :=
  ⟨fractions_cleanup_AB_converged, by simp [gridAB_facesX],
    by rw [fractions_cleanup_AB_face]; norm_num,
    (fractions_cleanup_faces_consistent gridAB cAB sAB 0 false
      fractions_cleanup_AB_converged).1 (5, 5) (by simp [gridAB_facesX])
      (by rw [fractions_cleanup_AB_face]; norm_num)⟩

theorem cAB_range (q : Int × Int) : 0 ≤ cAB q ∧ cAB q ≤ 1 := by
  unfold cAB; split_ifs <;> norm_num

theorem sAB_x_range (q : Int × Int) : 0 ≤ sAB.x q ∧ sAB.x q ≤ 1 := by
  simp only [sAB]; split_ifs <;> norm_num

theorem sAB_y_range (q : Int × Int) : 0 ≤ sAB.y q ∧ sAB.y q ≤ 1 := by
  simp only [sAB]; split_ifs <;> norm_num

/-- Witness of C18 on `gridAB`, at the cell `(6,5)` that the call removes. -/
theorem fractions_cleanup_only_closes_witness :
    (∀ q, 0 ≤ cAB q ∧ cAB q ≤ 1) ∧ (∀ q, 0 ≤ sAB.x q ∧ sAB.x q ≤ 1) ∧
    (∀ q, 0 ≤ sAB.y q ∧ sAB.y q ≤ 1) ∧
    ((fractions_cleanup gridAB cAB sAB 0 false).c (6, 5) = cAB (6, 5) ∨
      (fractions_cleanup gridAB cAB sAB 0 false).c (6, 5) = 0) :=
  ⟨cAB_range, sAB_x_range, sAB_y_range,
    (fractions_cleanup_only_closes gridAB cAB sAB 0 false cAB_range sAB_x_range sAB_y_range
      (6, 5)).1⟩

/-- Witness of C19 on `gridAB` (two cut cells): the call converges within three passes. -/
theorem fractions_cleanup_pass_bound_witness :
    cut_cells gridAB cAB ≤ 99 ∧
    (fractions_cleanup gridAB cAB sAB 0 false).changed = 0 ∧
    (fractions_cleanup gridAB cAB sAB 0 false).i ≤ min 100 (1 + cut_cells gridAB cAB) :=
  ⟨le_trans (cut_cells_le_length gridAB cAB) (by simp [gridAB_cells]),
    (fractions_cleanup_pass_bound gridAB cAB sAB 0 false).2.2.2
      (le_trans (cut_cells_le_length gridAB cAB) (by simp [gridAB_cells])),
    (fractions_cleanup_pass_bound gridAB cAB sAB 0 false).2.2.1⟩

/-- the pass on the half-open faces of `gridOne` changes nothing -/
theorem passHalf : (cleanup_pass gridOne 0 false ⟨cHalf, sHalf, 1, 0, 0⟩).changed = 0 := by
  simp only [cleanup_pass]
  rw [cleanup_cells_snd _ _ _ _ gridOne_nodup]
  norm_num [cleanup_cell_body, cleanup_axis, cleanup_faces_x_apply, cleanup_faces_y_apply,
    gridOne_facesX, gridOne_facesY, cleanup_face_val, gridOne_cells, gridOne_nb, gridOne_rot_nb,
    cHalf, sHalf]

theorem fractions_cleanup_half : fractions_cleanup gridOne cHalf sHalf 0 false =
    cleanup_pass gridOne 0 false ⟨cHalf, sHalf, 1, 0, 0⟩ := by
  unfold fractions_cleanup
  rw [cleanup_loop_step _ _ _ 99 _ (by simp), cleanup_loop_stop _ _ _ 99 _ passHalf]

theorem fractions_cleanup_half_converged :
    (fractions_cleanup gridOne cHalf sHalf 0 false).changed = 0 := by
  rw [fractions_cleanup_half]; exact passHalf

theorem fractions_cleanup_half_face :
    (fractions_cleanup gridOne cHalf sHalf 0 false).s.x (gridOne.nb (5, 5) 0 0) = 1 / 2 := by
  rw [fractions_cleanup_half]
  simp only [cleanup_pass]
  norm_num [cleanup_faces_x_apply, gridOne_facesX, cleanup_face_val, gridOne_nb, cHalf, sHalf]

/-- Witness of C20 on `gridOne` with half-open faces: the x-face of `(5,5)` is cut
after the converged call and the assertion holds there. -/
theorem face_gradient_assertion_after_cleanup_witness :
    (fractions_cleanup gridOne cHalf sHalf 0 false).changed = 0 ∧
    gridOne.nb (5, 5) 0 0 ∈ gridOne.facesX ∧
    0 < (fractions_cleanup gridOne cHalf sHalf 0 false).s.x (gridOne.nb (5, 5) 0 0) ∧
    (fractions_cleanup gridOne cHalf sHalf 0 false).s.x (gridOne.nb (5, 5) 0 0) < 1 ∧
    face_gradient_x gridOne (fractions_cleanup gridOne cHalf sHalf 0 false).s
      (fractions_cleanup gridOne cHalf sHalf 0 false).c (5, 5) aField true 0 ≠ none :=
  ⟨fractions_cleanup_half_converged, by simp [gridOne_facesX, gridOne_nb],
    by rw [fractions_cleanup_half_face]; norm_num,
    by rw [fractions_cleanup_half_face]; norm_num,
    (face_gradient_assertion_after_cleanup gridOne cHalf sHalf 0 false (5, 5) 0 aField true
      fractions_cleanup_half_converged (by simp [gridOne_facesX, gridOne_nb])
      (by rw [fractions_cleanup_half_face]; norm_num)
      (by rw [fractions_cleanup_half_face]; norm_num)).2.2⟩

/-! ## Axis selection of `dirichlet_gradient` -/

/-- C12: axis selection in `dirichlet_gradient`.  In 2D the x variant is called iff
`|n.x| ≥ |n.y|` and the y variant otherwise, the trailing `return nodata` is never
reached, and the chosen component has the largest absolute value; in 3D the chosen axis
is x iff `|n.x| ≥ |n.y|, |n.z|`, y iff `|n.y| > |n.x|` and `|n.y| ≥ |n.z|`, z iff
`|n.z| > |n.x|, |n.y|`: a largest component, ties going to the earlier axis. -/
theorem dirichlet_gradient_axis_selection (gr : Grid G) (nodata : ℚ) (fs : FaceVector G)
    (pt : G) (s cs : Scalar G) (n p : Coord) (bc coef0 : ℚ) (m : Coord3) :
    (dirichlet_gradient_axis n = some Axis.x ↔ |n.x| ≥ |n.y|) ∧
    (dirichlet_gradient_axis n = some Axis.y ↔ ¬ |n.x| ≥ |n.y|) ∧
    dirichlet_gradient_axis n ≠ none ∧
    (dirichlet_gradient_axis n = some Axis.x → |n.x| = max |n.x| |n.y|) ∧
    (dirichlet_gradient_axis n = some Axis.y → |n.y| = max |n.x| |n.y|) ∧
    dirichlet_gradient gr nodata fs pt s cs n p bc coef0 =
      (if |n.x| ≥ |n.y| then dirichlet_gradient_x gr nodata fs pt s cs n p bc
       else dirichlet_gradient_y gr nodata fs pt s cs n p bc) ∧
    (dirichlet_gradient_axis3 m = Axis.x ↔ |m.x| ≥ |m.y| ∧ |m.x| ≥ |m.z|) ∧
    (dirichlet_gradient_axis3 m = Axis.y ↔ |m.y| > |m.x| ∧ |m.y| ≥ |m.z|) ∧
    (dirichlet_gradient_axis3 m = Axis.z ↔ |m.z| > |m.x| ∧ |m.z| > |m.y|) := by
  refine ⟨?_, ?_, ?_, ?_, ?_, ?_, ?_, ?_, ?_⟩
  · unfold dirichlet_gradient_axis
    by_cases h : |n.x| ≥ |n.y|
    · simp [h]
    · have h2 : |n.y| ≥ |n.x| := le_of_lt (not_le.mp h)
      simp [h, h2]
  · unfold dirichlet_gradient_axis
    by_cases h : |n.x| ≥ |n.y|
    · simp [h]
    · have h2 : |n.y| ≥ |n.x| := le_of_lt (not_le.mp h)
      simp [h, h2]
  · unfold dirichlet_gradient_axis
    by_cases h : |n.x| ≥ |n.y|
    · simp [h]
    · have h2 : |n.y| ≥ |n.x| := le_of_lt (not_le.mp h)
      simp [h, h2]
  · unfold dirichlet_gradient_axis
    by_cases h : |n.x| ≥ |n.y|
    · intro _; exact (max_eq_left h).symm
    · have h2 : |n.y| ≥ |n.x| := le_of_lt (not_le.mp h)
      simp [h, h2]
  · unfold dirichlet_gradient_axis
    by_cases h : |n.x| ≥ |n.y|
    · simp [h]
    · have h2 : |n.y| ≥ |n.x| := le_of_lt (not_le.mp h)
      intro _; exact (max_eq_right h2).symm
  · unfold dirichlet_gradient dirichlet_gradient_axis
    by_cases h : |n.x| ≥ |n.y|
    · simp [h]
    · have h2 : |n.y| ≥ |n.x| := le_of_lt (not_le.mp h)
      simp [h, h2]
  · unfold dirichlet_gradient_axis3
    by_cases h : |m.x| ≥ |m.y| <;> by_cases h2 : |m.x| ≥ |m.z| <;>
      by_cases h3 : |m.y| ≥ |m.z| <;> simp [h, h2, h3]
  · unfold dirichlet_gradient_axis3
    by_cases h : |m.x| ≥ |m.y| <;> by_cases h2 : |m.x| ≥ |m.z| <;>
      by_cases h3 : |m.y| ≥ |m.z| <;> simp [h, h2, h3] <;> linarith
  · unfold dirichlet_gradient_axis3
    by_cases h : |m.x| ≥ |m.y| <;> by_cases h2 : |m.x| ≥ |m.z| <;>
      by_cases h3 : |m.y| ≥ |m.z| <;> simp [h, h2, h3] <;> first | linarith | (constructor <;> linarith)

/-! ## The degraded estimate of `dirichlet_gradient_x` -/

/-- C13: degraded estimate and influence coefficient of `dirichlet_gradient_x`.  When
the first standoff sample is undefined (`v[0] == nodata`) the function returns
`bc/(d*Delta)` and stores `-1/(d*Delta)` in `*coef`, with `d = max(1e-3, |p.x/n.x|)`,
so that `return + coef*s[] = (bc - s[])/(d*Delta)`; when it is defined `*coef = 0`; in
both cases `|coef| ≤ 1000/Delta`. -/
theorem dirichlet_gradient_x_degraded (gr : Grid G) (nodata : ℚ) (fs : FaceVector G)
    (pt : G) (s cs : Scalar G) (n p : Coord) (bc : ℚ) (hD : 0 < gr.Delta) :
    ((dirichlet_samples gr nodata fs pt s cs n p).2.2.1 = nodata →
      (dirichlet_gradient_x gr nodata fs pt s cs n p bc).1 =
        bc / (max (1 / 1000) |p.x / n.x| * gr.Delta) ∧
      (dirichlet_gradient_x gr nodata fs pt s cs n p bc).2 =
        -1 / (max (1 / 1000) |p.x / n.x| * gr.Delta) ∧
      (dirichlet_gradient_x gr nodata fs pt s cs n p bc).1 +
          (dirichlet_gradient_x gr nodata fs pt s cs n p bc).2 * s pt =
        (bc - s pt) / (max (1 / 1000) |p.x / n.x| * gr.Delta)) ∧
    ((dirichlet_samples gr nodata fs pt s cs n p).2.2.1 ≠ nodata →
      (dirichlet_gradient_x gr nodata fs pt s cs n p bc).2 = 0) ∧
    |(dirichlet_gradient_x gr nodata fs pt s cs n p bc).2| ≤ 1000 / gr.Delta := by
  have habs : |p.x / (-n.x)| = |p.x / n.x| := by rw [div_neg, abs_neg]
  have hd : (1 / 1000 : ℚ) ≤ max (1 / 1000) |p.x / n.x| := le_max_left _ _
  have hdpos : (0 : ℚ) < max (1 / 1000) |p.x / n.x| := lt_of_lt_of_le (by norm_num) hd
  have hdeg : (dirichlet_samples gr nodata fs pt s cs n p).2.2.1 = nodata →
      dirichlet_gradient_x gr nodata fs pt s cs n p bc =
        (bc / (max (1 / 1000) |p.x / n.x| * gr.Delta),
          -1 / (max (1 / 1000) |p.x / n.x| * gr.Delta)) := by
    intro h
    unfold dirichlet_gradient_x
    simp only [if_pos h, habs]
  have hdef : (dirichlet_samples gr nodata fs pt s cs n p).2.2.1 ≠ nodata →
      (dirichlet_gradient_x gr nodata fs pt s cs n p bc).2 = 0 := by
    intro h
    unfold dirichlet_gradient_x
    simp only [if_neg h]
    split_ifs <;> rfl
  refine ⟨fun h => ?_, hdef, ?_⟩
  · rw [hdeg h]
    refine ⟨rfl, rfl, ?_⟩
    simp only
    ring
  · by_cases h : (dirichlet_samples gr nodata fs pt s cs n p).2.2.1 = nodata
    · rw [hdeg h]
      simp only
      rw [abs_div, abs_neg, abs_one, abs_of_pos (mul_pos hdpos hD),
        div_le_div_iff₀ (mul_pos hdpos hD) hD]
      have : 1 ≤ 1000 * max (1 / 1000) |p.x / n.x| := by linarith
      nlinarith [mul_le_mul_of_nonneg_right this (le_of_lt hD)]
    · rw [hdef h, abs_zero]
      exact div_nonneg (by norm_num) (le_of_lt hD)

/-- on `gridOne` with every face closed the first standoff sample is not set -/
theorem sClosed_no_sample :
    (dirichlet_samples gridOne (10 ^ 30) sClosed (5, 5) sLin cFluid ⟨3 / 5, 4 / 5⟩
      ⟨1 / 4, 1 / 4⟩).2.2.1 = 10 ^ 30 := by
  simp [dirichlet_samples, dirichlet_defined, sClosed]

/-- Witness of C13 on `gridOne` with every face closed: the degraded estimate with
`d = |p.x/n.x| = 5/12`. -/
theorem dirichlet_gradient_x_degraded_witness :
    0 < gridOne.Delta ∧
    (dirichlet_samples gridOne (10 ^ 30) sClosed (5, 5) sLin cFluid ⟨3 / 5, 4 / 5⟩
      ⟨1 / 4, 1 / 4⟩).2.2.1 = 10 ^ 30 ∧
    (dirichlet_gradient_x gridOne (10 ^ 30) sClosed (5, 5) sLin cFluid ⟨3 / 5, 4 / 5⟩
      ⟨1 / 4, 1 / 4⟩ 2).2 =
        -1 / (max (1 / 1000) |(1 / 4 : ℚ) / (3 / 5)| * gridOne.Delta) ∧
    |(dirichlet_gradient_x gridOne (10 ^ 30) sClosed (5, 5) sLin cFluid ⟨3 / 5, 4 / 5⟩
      ⟨1 / 4, 1 / 4⟩ 2).2| ≤ 1000 / gridOne.Delta :=
  ⟨by norm_num [gridOne_Delta], sClosed_no_sample,
    ((dirichlet_gradient_x_degraded gridOne (10 ^ 30) sClosed (5, 5) sLin cFluid
      ⟨3 / 5, 4 / 5⟩ ⟨1 / 4, 1 / 4⟩ 2 (by norm_num [gridOne_Delta])).1
      sClosed_no_sample).2.1,
    (dirichlet_gradient_x_degraded gridOne (10 ^ 30) sClosed (5, 5) sLin cFluid
      ⟨3 / 5, 4 / 5⟩ ⟨1 / 4, 1 / 4⟩ 2 (by norm_num [gridOne_Delta])).2.2⟩

/-! ## The blend of `embed_face_gradient_x` -/

/-- Counterexample to C17 as stated: at the x-face of the solid cell `(5,5)` the
condition `face_condition` holds (it tests the cells of the offset row), but the
assertion `cs[i] && cs[i-1]` fails, so `embed_face_gradient_x` returns nothing; the
macro `face_gradient_x` makes that call since `0 < fs.x[i] < 1`. -/
theorem embed_face_gradient_aborts_under_face_condition :
    face_condition gridOne sHalf55 cSolid55 (5, 5) 0 (face_row gridOne sHalf55 (5, 5) 0) ∧
    embed_face_gradient_x gridOne sHalf55 cSolid55 (5, 5) aField 0 = none ∧
    face_gradient_x gridOne sHalf55 cSolid55 (5, 5) aField true 0 = none := by
  refine ⟨?_, ?_, ?_⟩
  · norm_num [face_condition, face_row, sign, gridOne_nb, sHalf55, cSolid55]
  · norm_num [embed_face_gradient_x, gridOne_nb, cSolid55]
  · norm_num [face_gradient_x, embed_face_gradient_x, gridOne_nb, sHalf55, cSolid55]

/-- C17 (amended): face-fraction-weighted blend (2D).  Whenever the assertion
`cs[i] && cs[i-1]` and `face_condition` hold, `embed_face_gradient_x` returns
`w*(a[i] - a[i-1])/Delta + (1 - w)*(a[i,j] - a[i-1,j])/Delta` with `w = (1 + fs.x[i])/2`,
where `j = +1` iff `fs.x[i,1] > fs.x[i,-1]` and `j = -1` otherwise; for `fs.x[i]` in
`(0.5, 1]` the weights are non-negative and sum to 1, the result lies between the direct
and the offset two-point differences, and for `fs.x[i] = 1` it is the direct difference. -/
theorem embed_face_gradient_blend (gr : Grid G) (fs : FaceVector G) (cs a : Scalar G)
    (pt : G) (i : Int)
    (hassert : cs (gr.nb pt i 0) ≠ 0 ∧ cs (gr.nb pt (i - 1) 0) ≠ 0)
    (hcond : face_condition gr fs cs pt i (face_row gr fs pt i)) :
    embed_face_gradient_x gr fs cs pt a i =
      some ((1 + fs.x (gr.nb pt i 0)) / 2 *
          (a (gr.nb pt i 0) - a (gr.nb pt (i - 1) 0)) / gr.Delta +
        (1 - (1 + fs.x (gr.nb pt i 0)) / 2) *
          (a (gr.nb pt i (face_row gr fs pt i)) - a (gr.nb pt (i - 1) (face_row gr fs pt i))) /
            gr.Delta) ∧
    (face_row gr fs pt i = 1 ↔ fs.x (gr.nb pt i 1) > fs.x (gr.nb pt i (-1))) ∧
    (face_row gr fs pt i = -1 ↔ ¬ fs.x (gr.nb pt i 1) > fs.x (gr.nb pt i (-1))) ∧
    (1 / 2 < fs.x (gr.nb pt i 0) ∧ fs.x (gr.nb pt i 0) ≤ 1 →
      0 ≤ (1 + fs.x (gr.nb pt i 0)) / 2 ∧ 0 ≤ 1 - (1 + fs.x (gr.nb pt i 0)) / 2 ∧
      (1 + fs.x (gr.nb pt i 0)) / 2 + (1 - (1 + fs.x (gr.nb pt i 0)) / 2) = 1 ∧
      min ((a (gr.nb pt i 0) - a (gr.nb pt (i - 1) 0)) / gr.Delta)
          ((a (gr.nb pt i (face_row gr fs pt i)) -
            a (gr.nb pt (i - 1) (face_row gr fs pt i))) / gr.Delta) ≤
        (1 + fs.x (gr.nb pt i 0)) / 2 *
            (a (gr.nb pt i 0) - a (gr.nb pt (i - 1) 0)) / gr.Delta +
          (1 - (1 + fs.x (gr.nb pt i 0)) / 2) *
            (a (gr.nb pt i (face_row gr fs pt i)) -
              a (gr.nb pt (i - 1) (face_row gr fs pt i))) / gr.Delta ∧
      (1 + fs.x (gr.nb pt i 0)) / 2 *
            (a (gr.nb pt i 0) - a (gr.nb pt (i - 1) 0)) / gr.Delta +
          (1 - (1 + fs.x (gr.nb pt i 0)) / 2) *
            (a (gr.nb pt i (face_row gr fs pt i)) -
              a (gr.nb pt (i - 1) (face_row gr fs pt i))) / gr.Delta ≤
        max ((a (gr.nb pt i 0) - a (gr.nb pt (i - 1) 0)) / gr.Delta)
          ((a (gr.nb pt i (face_row gr fs pt i)) -
            a (gr.nb pt (i - 1) (face_row gr fs pt i))) / gr.Delta)) ∧
    (fs.x (gr.nb pt i 0) = 1 →
      embed_face_gradient_x gr fs cs pt a i =
        some ((a (gr.nb pt i 0) - a (gr.nb pt (i - 1) 0)) / gr.Delta)) := by
  have hval : embed_face_gradient_x gr fs cs pt a i =
      some ((1 + fs.x (gr.nb pt i 0)) / 2 *
          (a (gr.nb pt i 0) - a (gr.nb pt (i - 1) 0)) / gr.Delta +
        (1 - (1 + fs.x (gr.nb pt i 0)) / 2) *
          (a (gr.nb pt i (face_row gr fs pt i)) - a (gr.nb pt (i - 1) (face_row gr fs pt i))) /
            gr.Delta) := by
    unfold embed_face_gradient_x
    simp only [if_pos hassert, if_pos hcond, Option.some.injEq]
    ring
  have hj1 : face_row gr fs pt i = 1 ↔ fs.x (gr.nb pt i 1) > fs.x (gr.nb pt i (-1)) := by
    unfold face_row sign
    by_cases h : fs.x (gr.nb pt i 1) - fs.x (gr.nb pt i (-1)) > 0
    · have h2 : fs.x (gr.nb pt i 1) > fs.x (gr.nb pt i (-1)) := by linarith
      simp [h, h2]
    · have h2 : ¬ fs.x (gr.nb pt i 1) > fs.x (gr.nb pt i (-1)) := fun h3 => h (by linarith)
      simp [h, h2]
  have hj2 : face_row gr fs pt i = -1 ↔ ¬ fs.x (gr.nb pt i 1) > fs.x (gr.nb pt i (-1)) := by
    unfold face_row sign
    by_cases h : fs.x (gr.nb pt i 1) - fs.x (gr.nb pt i (-1)) > 0
    · have h2 : fs.x (gr.nb pt i 1) > fs.x (gr.nb pt i (-1)) := by linarith
      simp [h, h2]
    · have h2 : ¬ fs.x (gr.nb pt i 1) > fs.x (gr.nb pt i (-1)) := fun h3 => h (by linarith)
      simp [h, h2]
  refine ⟨hval, hj1, hj2, ?_, ?_⟩
  · intro ⟨hlo, hhi⟩
    set w : ℚ := (1 + fs.x (gr.nb pt i 0)) / 2 with hw
    have hw0 : 0 ≤ w := by rw [hw]; linarith
    have hw1 : 0 ≤ 1 - w := by rw [hw]; linarith
    have e1 : ∀ D : ℚ, w * D / gr.Delta = w * (D / gr.Delta) := fun D => by ring
    have e2 : ∀ D : ℚ, (1 - w) * D / gr.Delta = (1 - w) * (D / gr.Delta) := fun D => by ring
    rw [e1, e2]
    set D1 : ℚ := (a (gr.nb pt i 0) - a (gr.nb pt (i - 1) 0)) / gr.Delta with hD1
    set D2 : ℚ := (a (gr.nb pt i (face_row gr fs pt i)) -
      a (gr.nb pt (i - 1) (face_row gr fs pt i))) / gr.Delta with hD2
    refine ⟨hw0, hw1, by ring, ?_, ?_⟩
    · have a1 := min_le_left D1 D2
      have a2 := min_le_right D1 D2
      nlinarith [mul_le_mul_of_nonneg_left a1 hw0, mul_le_mul_of_nonneg_left a2 hw1]
    · have a1 := le_max_left D1 D2
      have a2 := le_max_right D1 D2
      nlinarith [mul_le_mul_of_nonneg_left a1 hw0, mul_le_mul_of_nonneg_left a2 hw1]
  · intro h1
    rw [hval, h1]
    simp only [Option.some.injEq]
    ring

/-- Witness of the amended C17 at the x-face of `(5,5)` with `fs.x[i] = 3/10`: the
assertion and `face_condition` hold and the blend is returned. -/
theorem embed_face_gradient_blend_witness :
    (cFluid (gridOne.nb (5, 5) 0 0) ≠ 0 ∧ cFluid (gridOne.nb (5, 5) (0 - 1) 0) ≠ 0) ∧
    face_condition gridOne sCut cFluid (5, 5) 0 (face_row gridOne sCut (5, 5) 0) ∧
    embed_face_gradient_x gridOne sCut cFluid (5, 5) aSpike 0 =
      some ((1 + sCut.x (gridOne.nb (5, 5) 0 0)) / 2 *
          (aSpike (gridOne.nb (5, 5) 0 0) - aSpike (gridOne.nb (5, 5) (0 - 1) 0)) /
            gridOne.Delta +
        (1 - (1 + sCut.x (gridOne.nb (5, 5) 0 0)) / 2) *
          (aSpike (gridOne.nb (5, 5) 0 (face_row gridOne sCut (5, 5) 0)) -
            aSpike (gridOne.nb (5, 5) (0 - 1) (face_row gridOne sCut (5, 5) 0))) /
            gridOne.Delta) :=
  ⟨by norm_num [cFluid],
    by norm_num [face_condition, face_row, sign, gridOne_nb, sCut, cFluid],
    (embed_face_gradient_blend gridOne sCut cFluid aSpike (5, 5) 0 (by norm_num [cFluid])
      (by norm_num [face_condition, face_row, sign, gridOne_nb, sCut, cFluid])).1⟩

/-! ## `embed_flux` away from the interface -/

/-- C15: `embed_flux` is zero away from the interface.  In every cell with `cs ≤ 0` or
`cs ≥ 1` it returns 0 and stores 0 in `*val`; the same holds in a cut cell whose embedded
boundary condition is Neumann with value 0; for any Neumann condition the returned
implicit coefficient is 0. -/
theorem embed_flux_zero_away_from_interface (geo : EmbedGeometry G) (gr : Grid G)
    (nodata : ℚ) (fs : FaceVector G) (cs : Scalar G) (fm : FaceVector G)
    (bc : G → Scalar G → ℚ × Bool) (pt : G) (s : Scalar G) (mu : FaceVector G) :
    (cs pt ≤ 0 ∨ cs pt ≥ 1 → embed_flux geo gr nodata fs cs fm bc pt s mu = (0, 0)) ∧
    (0 < cs pt ∧ cs pt < 1 → bc pt s = (0, false) →
      embed_flux geo gr nodata fs cs fm bc pt s mu = (0, 0)) ∧
    ((bc pt s).2 = false → (embed_flux geo gr nodata fs cs fm bc pt s mu).1 = 0) := by
  refine ⟨?_, ?_, ?_⟩
  · intro h
    unfold embed_flux
    rw [if_pos (Or.symm h)]
  · intro _ hb
    unfold embed_flux
    by_cases h1 : cs pt ≥ 1 ∨ cs pt ≤ 0
    · rw [if_pos h1]
    · rw [if_neg h1]
      dsimp only
      rw [if_pos (by rw [hb]; exact ⟨rfl, rfl⟩)]
  · intro hb
    unfold embed_flux
    by_cases h1 : cs pt ≥ 1 ∨ cs pt ≤ 0
    · rw [if_pos h1]
    · rw [if_neg h1]
      dsimp only
      by_cases h2 : (bc pt s).1 = 0 ∧ (bc pt s).2 = false
      · rw [if_pos h2]
      · rw [if_neg h2]
        simp only [hb, Bool.false_eq_true, if_false, mul_zero, zero_mul, zero_div]

/-! ## `centered_gradient` in blocked cells -/

theorem SEPS_pos : 0 < SEPS := by unfold SEPS; norm_num

theorem mem_facesX_of_cell (gr : Grid G) (q : G) (hq : q ∈ gr.cells) :
    q ∈ gr.facesX ∧ gr.nb q 1 0 ∈ gr.facesX := by
  unfold Grid.facesX
  constructor
  · exact List.mem_append_left _ hq
  · by_cases h : gr.nb q 1 0 ∈ gr.cells
    · exact List.mem_append_left _ h
    · apply List.mem_append_right
      rw [List.mem_filter]
      exact ⟨List.mem_map.mpr ⟨q, hq, rfl⟩, by simpa using h⟩

theorem mem_facesY_of_cell (gr : Grid G) (q : G) (hq : q ∈ gr.cells) :
    q ∈ gr.facesY ∧ gr.nb q 0 1 ∈ gr.facesY := by
  have h := mem_facesX_of_cell gr.rot q hq
  rw [rot_nb] at h
  exact h

/-- pointwise value of a cell loop that writes both components of a vector field -/
theorem foldl_update_vector_apply (vx vy : G → ℚ) (l : List G) :
    ∀ (g0 : FaceVector G) (q : G),
      ((l.foldl (fun g p =>
          (⟨Function.update g.x p (vx p), Function.update g.y p (vy p)⟩ : FaceVector G)) g0).x q =
        if q ∈ l then vx q else g0.x q) ∧
      ((l.foldl (fun g p =>
          (⟨Function.update g.x p (vx p), Function.update g.y p (vy p)⟩ : FaceVector G)) g0).y q =
        if q ∈ l then vy q else g0.y q) := by
  induction l with
  | nil => intro g0 q; simp
  | cons p l ih =>
    intro g0 q
    rw [List.foldl_cons]
    obtain ⟨h1, h2⟩ := ih ⟨Function.update g0.x p (vx p), Function.update g0.y p (vy p)⟩ q
    rw [h1, h2]
    by_cases hq : q = p
    · subst hq
      by_cases hl : q ∈ l <;> simp [hl]
    · by_cases hl : q ∈ l <;> simp [hl, hq, Function.update_noteq hq]

/-- the acceleration written by `centered_gradient` in a traversed cell, x component -/
theorem centered_gradient_x_apply (gr : Grid G) (fm a alpha : FaceVector G) (p : Scalar G)
    (gf0 g0 : FaceVector G) (q : G) (hq : q ∈ gr.cells) :
    (centered_gradient gr fm a alpha p gf0 g0).x q =
      (centered_gradient_face_x gr fm a alpha p q +
        centered_gradient_face_x gr fm a alpha p (gr.nb q 1 0)) /
      (fm.x q + fm.x (gr.nb q 1 0) + SEPS) := by
  unfold centered_gradient
  dsimp only
  rw [(foldl_update_vector_apply _ _ gr.cells g0 q).1, if_pos hq]
  unfold centered_gradient_cell_x
  dsimp only
  rw [foldl_update_apply _ gr.facesX gf0.x q, if_pos (mem_facesX_of_cell gr q hq).1,
    foldl_update_apply _ gr.facesX gf0.x (gr.nb q 1 0), if_pos (mem_facesX_of_cell gr q hq).2]

/-- the acceleration written by `centered_gradient` in a traversed cell, y component -/
theorem centered_gradient_y_apply (gr : Grid G) (fm a alpha : FaceVector G) (p : Scalar G)
    (gf0 g0 : FaceVector G) (q : G) (hq : q ∈ gr.cells) :
    (centered_gradient gr fm a alpha p gf0 g0).y q =
      (centered_gradient_face_x gr.rot fm.rot a.rot alpha.rot p q +
        centered_gradient_face_x gr.rot fm.rot a.rot alpha.rot p (gr.nb q 0 1)) /
      (fm.y q + fm.y (gr.nb q 0 1) + SEPS) := by
  unfold centered_gradient
  dsimp only
  rw [(foldl_update_vector_apply _ _ gr.cells g0 q).2, if_pos hq]
  unfold centered_gradient_cell_x
  simp only [FaceVector.rot, rot_nb]
  rw [foldl_update_apply _ gr.facesY gf0.y q, if_pos (mem_facesY_of_cell gr q hq).1,
    foldl_update_apply _ gr.facesY gf0.y (gr.nb q 0 1), if_pos (mem_facesY_of_cell gr q hq).2]

/-- C16: `centered_gradient` never divides by zero and yields no acceleration in
blocked cells.  For a non-negative metric `fm` the divisor `fm.x[] + fm.x[1] + SEPS` is
strictly positive; in a traversed cell whose two faces along an axis have `fm = 0` and
`alpha = 0` the computed `g` along that axis is 0, and the `correction(dt)` of the
`projection` event leaves that velocity component unchanged. -/
theorem centered_gradient_blocked_cell (gr : Grid G) (dt : ℚ) (fm a alpha : FaceVector G)
    (project : FaceVector G → Scalar G → FaceVector G × Scalar G)
    (uf : FaceVector G) (p : Scalar G) (st : FlowState G) (gf0 g0 : FaceVector G) (q : G)
    (hq : q ∈ gr.cells) :
    (0 ≤ fm.x q ∧ 0 ≤ fm.x (gr.nb q 1 0) → 0 < fm.x q + fm.x (gr.nb q 1 0) + SEPS) ∧
    (0 ≤ fm.y q ∧ 0 ≤ fm.y (gr.nb q 0 1) → 0 < fm.y q + fm.y (gr.nb q 0 1) + SEPS) ∧
    (fm.x q = 0 ∧ fm.x (gr.nb q 1 0) = 0 ∧ alpha.x q = 0 ∧ alpha.x (gr.nb q 1 0) = 0 →
      (centered_gradient gr fm a alpha p gf0 g0).x q = 0 ∧
      (projection gr dt fm a alpha project uf p st gf0).g.x q = 0 ∧
      (projection gr dt fm a alpha project uf p st gf0).u.x q = st.u.x q) ∧
    (fm.y q = 0 ∧ fm.y (gr.nb q 0 1) = 0 ∧ alpha.y q = 0 ∧ alpha.y (gr.nb q 0 1) = 0 →
      (centered_gradient gr fm a alpha p gf0 g0).y q = 0 ∧
      (projection gr dt fm a alpha project uf p st gf0).g.y q = 0 ∧
      (projection gr dt fm a alpha project uf p st gf0).u.y q = st.u.y q) := by
  have hs := SEPS_pos
  have gx : ∀ (pr : Scalar G) (g1 : FaceVector G),
      fm.x q = 0 ∧ fm.x (gr.nb q 1 0) = 0 ∧ alpha.x q = 0 ∧ alpha.x (gr.nb q 1 0) = 0 →
      (centered_gradient gr fm a alpha pr gf0 g1).x q = 0 := by
    intro pr g1 ⟨h1, h2, h3, h4⟩
    rw [centered_gradient_x_apply gr fm a alpha pr gf0 g1 q hq]
    simp only [centered_gradient_face_x, h1, h2, h3, h4, zero_mul, zero_div, sub_zero,
      add_zero]
  have gy : ∀ (pr : Scalar G) (g1 : FaceVector G),
      fm.y q = 0 ∧ fm.y (gr.nb q 0 1) = 0 ∧ alpha.y q = 0 ∧ alpha.y (gr.nb q 0 1) = 0 →
      (centered_gradient gr fm a alpha pr gf0 g1).y q = 0 := by
    intro pr g1 ⟨h1, h2, h3, h4⟩
    rw [centered_gradient_y_apply gr fm a alpha pr gf0 g1 q hq]
    simp only [centered_gradient_face_x, FaceVector.rot, h1, h2, h3, h4, zero_mul, zero_div,
      sub_zero, add_zero]
  refine ⟨fun h => by linarith [h.1, h.2], fun h => by linarith [h.1, h.2], ?_, ?_⟩
  · intro h
    have e := gx (project uf p).2 st.g h
    refine ⟨gx p g0 h, e, ?_⟩
    simp only [projection, correction]
    rw [foldl_correction_cell_x, e]
    ring
  · intro h
    have e := gy (project uf p).2 st.g h
    refine ⟨gy p g0 h, e, ?_⟩
    simp only [projection, correction]
    rw [foldl_correction_cell_y, e]
    ring

/-! ## `update_tracer` in the stable regime -/

/-- in the stable regime the first loop records no excess -/
theorem tracer_e_new_stable (gr : Grid G) (cs cm : Scalar G) (uf flux : FaceVector G) (dt : ℚ)
    (p : G) (h : 0 < cs p → cs p < 1 → dt ≤ tracer_dtmax gr cm uf p) :
    tracer_e_new gr cs cm uf flux dt p = 0 := by
  unfold tracer_e_new
  by_cases h0 : cs p ≤ 0
  · rw [if_pos h0]
  · by_cases h1 : cs p ≥ 1
    · rw [if_neg h0, if_pos h1]
    · rw [if_neg h0, if_neg h1, if_pos (h (not_le.mp h0) (not_le.mp h1))]

/-- C14: stable regime of `update_tracer` (cells traversed once; the values of the fresh
field `e` read outside the traversed cells are zero).  When every cut cell satisfies
`dt ≤ Delta*cm/(umax + SEPS)`, no excess is recorded (`e = 0` in every cell) and `f`
increases by `dt*Σ_axes (flux[] - flux[1])/Delta` in a fully fluid cell, by
`dt*Σ_axes (flux[] - flux[1])/(Delta*cm)` in a cut cell, and is unchanged in a fully
solid cell. -/
theorem update_tracer_stable (gr : Grid G) (cs cm f : Scalar G) (uf flux : FaceVector G)
    (dt : ℚ) (e0 : Scalar G)
    (hnd : gr.cells.Nodup)
    (hghost : ∀ p ∈ gr.cells, ∀ i j : Int, -1 ≤ i → i ≤ 1 → -1 ≤ j → j ≤ 1 →
      gr.nb p i j ∉ gr.cells → e0 (gr.nb p i j) = 0)
    (hstable : ∀ p ∈ gr.cells, 0 < cs p → cs p < 1 → dt ≤ tracer_dtmax gr cm uf p)
    (p : G) (hp : p ∈ gr.cells) :
    (update_tracer gr cs cm f uf flux dt e0).2 p = 0 ∧
    (cs p ≥ 1 → (update_tracer gr cs cm f uf flux dt e0).1 p =
      f p + dt * (flux.x p - flux.x (gr.nb p 1 0)) / gr.Delta +
        dt * (flux.y p - flux.y (gr.nb p 0 1)) / gr.Delta) ∧
    (0 < cs p ∧ cs p < 1 → (update_tracer gr cs cm f uf flux dt e0).1 p =
      f p + dt * (((flux.x p - flux.x (gr.nb p 1 0)) + (flux.y p - flux.y (gr.nb p 0 1))) /
        (gr.Delta * cm p))) ∧
    (cs p ≤ 0 → (update_tracer gr cs cm f uf flux dt e0).1 p = f p) := by
  have he : ∀ q ∈ gr.cells,
      (gr.cells.foldl (tracer_cell gr cs cm uf flux dt) (f, e0)).2 q = 0 := by
    intro q hq
    rw [(foldl_tracer_cell_apply gr cs cm uf flux dt gr.cells hnd (f, e0) q).2, if_pos hq]
    exact tracer_e_new_stable gr cs cm uf flux dt q (hstable q hq)
  have hnb : ∀ i j : Int, -1 ≤ i → i ≤ 1 → -1 ≤ j → j ≤ 1 →
      (gr.cells.foldl (tracer_cell gr cs cm uf flux dt) (f, e0)).2 (gr.nb p i j) = 0 := by
    intro i j a b c d
    by_cases hq : gr.nb p i j ∈ gr.cells
    · exact he _ hq
    · rw [(foldl_tracer_cell_apply gr cs cm uf flux dt gr.cells hnd (f, e0) _).2, if_neg hq]
      exact hghost p hp i j a b c d hq
  have hsum : neighbor_sum gr (gr.cells.foldl (tracer_cell gr cs cm uf flux dt) (f, e0)).2 p
      = 0 := by
    rw [neighbor_sum_eq]
    rw [hnb (-1) (-1) (by norm_num) (by norm_num) (by norm_num) (by norm_num),
      hnb (-1) 0 (by norm_num) (by norm_num) (by norm_num) (by norm_num),
      hnb (-1) 1 (by norm_num) (by norm_num) (by norm_num) (by norm_num),
      hnb 0 (-1) (by norm_num) (by norm_num) (by norm_num) (by norm_num),
      hnb 0 0 (by norm_num) (by norm_num) (by norm_num) (by norm_num),
      hnb 0 1 (by norm_num) (by norm_num) (by norm_num) (by norm_num),
      hnb 1 (-1) (by norm_num) (by norm_num) (by norm_num) (by norm_num),
      hnb 1 0 (by norm_num) (by norm_num) (by norm_num) (by norm_num),
      hnb 1 1 (by norm_num) (by norm_num) (by norm_num) (by norm_num)]
    norm_num
  have hf : (update_tracer gr cs cm f uf flux dt e0).1 p =
      tracer_f_new gr cs cm uf flux dt p (f p) := by
    simp only [update_tracer]
    rw [foldl_tracer_spread_apply gr cs _ gr.cells hnd, if_pos hp, hsum,
      (foldl_tracer_cell_apply gr cs cm uf flux dt gr.cells hnd (f, e0) p).1, if_pos hp]
    ring
  refine ⟨he p hp, ?_, ?_, ?_⟩
  · intro h1
    rw [hf]
    unfold tracer_f_new
    by_cases h0 : cs p ≤ 0
    · exact absurd (le_trans h1 h0) (by norm_num)
    · rw [if_neg h0, if_pos h1]
  · intro ⟨h0, h1⟩
    rw [hf]
    unfold tracer_f_new
    rw [if_neg (not_le.mpr h0), if_neg (not_le.mpr h1), if_pos (hstable p hp h0 h1)]
    simp only [tracer_flux_sum, zero_add]
  · intro h0
    rw [hf]
    unfold tracer_f_new
    rw [if_pos h0]

/-! ## Witnesses for `embed_flux`, `centered_gradient` and the stable tracer update -/

/-- Witness of C15: a fluid cell, and a cut cell under a non-zero Neumann condition. -/
theorem embed_flux_zero_away_from_interface_witness :
    cFluid (5, 5) ≥ 1 ∧
    embed_flux geoFlat gridOne (10 ^ 30) sOpen cFluid sOpen bcNeumann (5, 5) aField sOpen =
      (0, 0) ∧
    (bcNeumann (5, 5) aField).2 = false ∧
    (embed_flux geoFlat gridOne (10 ^ 30) sHalf cHalf sHalf bcNeumann (5, 5) aField sOpen).1 =
      0 :=
  ⟨by norm_num [cFluid],
    (embed_flux_zero_away_from_interface geoFlat gridOne (10 ^ 30) sOpen cFluid sOpen bcNeumann
      (5, 5) aField sOpen).1 (Or.inr (by norm_num [cFluid])),
    rfl,
    (embed_flux_zero_away_from_interface geoFlat gridOne (10 ^ 30) sHalf cHalf sHalf bcNeumann
      (5, 5) aField sOpen).2.2 rfl⟩

/-- Witness of C16 on `gridOne` with a zero metric: the cell `(5,5)` is blocked along x
and keeps its velocity through the `projection` event. -/
theorem centered_gradient_blocked_cell_witness :
    (5, 5) ∈ gridOne.cells ∧
    (sClosed.x (5, 5) = 0 ∧ sClosed.x (gridOne.nb (5, 5) 1 0) = 0 ∧ sClosed.x (5, 5) = 0 ∧
      sClosed.x (gridOne.nb (5, 5) 1 0) = 0) ∧
    (projection gridOne 2 sClosed sOpen sClosed (fun uf p => (uf, p)) sOpen aField
      ⟨⟨aField, aField⟩, sOpen⟩ sOpen).u.x (5, 5) = aField (5, 5) :=
  ⟨by simp [gridOne_cells], ⟨rfl, rfl, rfl, rfl⟩,
    ((centered_gradient_blocked_cell gridOne 2 sClosed sOpen sClosed (fun uf p => (uf, p))
      sOpen aField ⟨⟨aField, aField⟩, sOpen⟩ sOpen sOpen (5, 5)
      (by simp [gridOne_cells])).2.2.1 ⟨rfl, rfl, rfl, rfl⟩).2.2⟩

theorem csTorus_cut (p : ZMod 3 × ZMod 3) (h0 : 0 < csTorus p) (h1 : csTorus p < 1) :
    p = (0, 0) := by
  unfold csTorus at h0 h1
  split_ifs at h0 h1 with a b
  · exact a
  · norm_num at h0
  · norm_num at h1

/-- the cut cell of the torus is within its local bound at dt = 1/4 -/
theorem torus_stable (p : ZMod 3 × ZMod 3) (h0 : 0 < csTorus p) (h1 : csTorus p < 1) :
    (1 / 4 : ℚ) ≤ tracer_dtmax gridTorus csTorus ufTorus p := by
  rw [csTorus_cut p h0 h1]
  norm_num [tracer_dtmax, tracer_umax, ufTorus, csTorus, gridTorus, SEPS]

/-- Witness of C14 on the 3×3 periodic grid at `dt = 1/4`, in the cut cell `(0,0)`. -/
theorem update_tracer_stable_witness :
    gridTorus.cells.Nodup ∧
    (∀ p ∈ gridTorus.cells, 0 < csTorus p → csTorus p < 1 →
      (1 / 4 : ℚ) ≤ tracer_dtmax gridTorus csTorus ufTorus p) ∧
    (0, 0) ∈ gridTorus.cells ∧
    (update_tracer gridTorus csTorus csTorus (fun _ => 1) ufTorus fluxTorus (1 / 4)
      (fun _ => 7)).2 (0, 0) = 0 :=
  ⟨gridTorus_nodup, fun p _ h0 h1 => torus_stable p h0 h1, gridTorus_all (0, 0),
    (update_tracer_stable gridTorus csTorus csTorus (fun _ => 1) ufTorus fluxTorus (1 / 4)
      (fun _ => 7) gridTorus_nodup
      (fun p _ i j _ _ _ _ h => absurd (gridTorus_all (gridTorus.nb p i j)) h)
      (fun p _ h0 h1 => torus_stable p h0 h1) (0, 0) (gridTorus_all (0, 0))).1⟩

/-! ## The interpolant `quadratic` -/

/-- C21: the macro `quadratic(x, a1, a2, a3)` is the Lagrange interpolant through the
nodes `(-1, a1)`, `(0, a2)`, `(1, a3)`: it returns `a1`, `a2`, `a3` at `x = -1, 0, 1`,
and for every polynomial `q` of degree at most 2 (given by its coefficients, or as a
polynomial over `ℚ`) and every `x`, `quadratic(x, q(-1), q(0), q(1)) = q(x)`. -/
theorem quadratic_is_lagrange_interpolant (x a1 a2 a3 c0 c1 c2 : ℚ) (q : Polynomial ℚ) :
    quadratic (-1) a1 a2 a3 = a1 ∧ quadratic 0 a1 a2 a3 = a2 ∧ quadratic 1 a1 a2 a3 = a3 ∧
    quadratic x (c0 + c1 * (-1) + c2 * (-1) ^ 2) (c0 + c1 * 0 + c2 * 0 ^ 2)
        (c0 + c1 * 1 + c2 * 1 ^ 2) = c0 + c1 * x + c2 * x ^ 2 ∧
    (q.natDegree ≤ 2 →
      quadratic x (q.eval (-1)) (q.eval 0) (q.eval 1) = q.eval x) := by
  refine ⟨?_, ?_, ?_, ?_, ?_⟩
  · unfold quadratic; ring
  · unfold quadratic; ring
  · unfold quadratic; ring
  · unfold quadratic; ring
  · intro hq
    have hev : ∀ y : ℚ, q.eval y = q.coeff 0 + q.coeff 1 * y + q.coeff 2 * y ^ 2 := by
      intro y
      rw [Polynomial.eval_eq_sum_range' (Nat.lt_succ_of_le hq)]
      simp [Finset.sum_range_succ]
    rw [hev (-1), hev 0, hev 1, hev x]
    unfold quadratic; ring

/-- Witness of C21 for the polynomial `X² + 3X + 2`, of degree 2. -/
theorem quadratic_is_lagrange_interpolant_witness :
    (Polynomial.X ^ 2 + 3 * Polynomial.X + 2 : Polynomial ℚ).natDegree ≤ 2 ∧
    quadratic 5 ((Polynomial.X ^ 2 + 3 * Polynomial.X + 2 : Polynomial ℚ).eval (-1))
      ((Polynomial.X ^ 2 + 3 * Polynomial.X + 2 : Polynomial ℚ).eval 0)
      ((Polynomial.X ^ 2 + 3 * Polynomial.X + 2 : Polynomial ℚ).eval 1) =
      (Polynomial.X ^ 2 + 3 * Polynomial.X + 2 : Polynomial ℚ).eval 5 := by
  have hdeg : (Polynomial.X ^ 2 + 3 * Polynomial.X + 2 : Polynomial ℚ).natDegree ≤ 2 := by
    compute_degree
  exact ⟨hdeg, (quadratic_is_lagrange_interpolant 5 0 0 0 0 0 0
    (Polynomial.X ^ 2 + 3 * Polynomial.X + 2)).2.2.2.2 hdeg⟩

/-! ## `embed_interpolate` on linear fields -/

/-- the offset along an axis is its sign times its magnitude -/
theorem sign_mul_abs (v : ℚ) : ((sign v : Int) : ℚ) * |v| = v := by
  unfold sign
  by_cases h : v > 0
  · rw [if_pos h, abs_of_pos h]; norm_num
  · rw [if_neg h, abs_of_nonpos (not_lt.mp h)]; norm_num

/-- one axis of the fallback branch on a field with slope `g` along that axis: the full
increment `g * px` when one of the two neighbours has a non-zero fraction -/
theorem embed_interpolate_axis_linear (gr : Grid G) (cs s : Scalar G) (pt : G) (px val g : ℚ)
    (hs : ∀ i : Int, s (gr.nb pt i 0) - s pt = g * i)
    (hnb : g = 0 ∨ cs (gr.nb pt 1 0) ≠ 0 ∨ cs (gr.nb pt (-1) 0) ≠ 0) :
    embed_interpolate_axis gr cs s pt px val = val + g * px := by
  have hk := sign_mul_abs px
  have hm : ∀ i : Int, s pt - s (gr.nb pt (-i) 0) = g * i := by
    intro i
    have := hs (-i)
    push_cast at this
    linarith
  unfold embed_interpolate_axis
  dsimp only
  by_cases h1 : cs (gr.nb pt (sign px) 0) ≠ 0
  · rw [if_pos h1, hs]
    linear_combination g * hk
  · by_cases h2 : cs (gr.nb pt (-sign px) 0) ≠ 0
    · rw [if_neg h1, if_pos h2, hm]
      linear_combination g * hk
    · rw [if_neg h1, if_neg h2]
      rcases hnb with h | h | h
      · rw [h]; ring
      · exfalso
        unfold sign at h1 h2
        by_cases hp : px > 0
        · rw [if_pos hp] at h1; exact h1 h
        · rw [if_neg hp] at h2; simp only [neg_neg] at h2; exact h2 h
      · exfalso
        unfold sign at h1 h2
        by_cases hp : px > 0
        · rw [if_pos hp] at h2; exact h2 h
        · rw [if_neg hp] at h1; exact h1 h

/-- C22: `embed_interpolate` reproduces linear fields (2D, exact arithmetic).  For a
field `s` linear in space and every offset `p` (in cell units) it returns the value of
the linear function at `p` whenever, along each axis, one of the two neighbouring cells
has `cs ≠ 0`, in the bilinear branch and in the fallback branch alike; for a uniform
field it returns the uniform value for every `p` and every fraction pattern. -/
theorem embed_interpolate_linear (gr : Grid G) (cs : Scalar G) (pt : G) (s : Scalar G)
    (p : Coord) (s0 Gx Gy : ℚ)
    (hlin : ∀ i j : Int, s (gr.nb pt i j) = s0 + gr.Delta * (Gx * i + Gy * j)) :
    ((cs (gr.nb pt 1 0) ≠ 0 ∨ cs (gr.nb pt (-1) 0) ≠ 0) ∧
        (cs (gr.nb pt 0 1) ≠ 0 ∨ cs (gr.nb pt 0 (-1)) ≠ 0) →
      embed_interpolate gr cs pt s p = s0 + gr.Delta * (Gx * p.x + Gy * p.y)) ∧
    (cs (gr.nb pt (sign p.x) 0) ≠ 0 ∧ cs (gr.nb pt 0 (sign p.y)) ≠ 0 ∧
        cs (gr.nb pt (sign p.x) (sign p.y)) ≠ 0 →
      embed_interpolate gr cs pt s p = s0 + gr.Delta * (Gx * p.x + Gy * p.y)) ∧
    (Gx = 0 ∧ Gy = 0 → embed_interpolate gr cs pt s p = s0) := by
  have h00 : s pt = s0 := by
    have := hlin 0 0
    rw [nb_zero] at this
    rw [this]; push_cast; ring
  have hkx := sign_mul_abs p.x
  have hky := sign_mul_abs p.y
  -- the bilinear branch is exact
  have hbil : (s pt * (1 - |p.x|) + s (gr.nb pt (sign p.x) 0) * |p.x|) * (1 - |p.y|) +
      (s (gr.nb pt 0 (sign p.y)) * (1 - |p.x|) +
        s (gr.nb pt (sign p.x) (sign p.y)) * |p.x|) * |p.y| =
      s0 + gr.Delta * (Gx * p.x + Gy * p.y) := by
    rw [h00, hlin, hlin, hlin]
    push_cast
    linear_combination gr.Delta * Gx * hkx + gr.Delta * Gy * hky
  -- the fallback branch, axis by axis
  have hsx : ∀ i : Int, s (gr.nb pt i 0) - s pt = gr.Delta * Gx * i := by
    intro i
    rw [h00, hlin]; push_cast; ring
  have hsy : ∀ i : Int, s (gr.rot.nb pt i 0) - s pt = gr.Delta * Gy * i := by
    intro i
    rw [rot_nb, h00, hlin]; push_cast; ring
  have hfall : (gr.Delta * Gx = 0 ∨ cs (gr.nb pt 1 0) ≠ 0 ∨ cs (gr.nb pt (-1) 0) ≠ 0) →
      (gr.Delta * Gy = 0 ∨ cs (gr.nb pt 0 1) ≠ 0 ∨ cs (gr.nb pt 0 (-1)) ≠ 0) →
      embed_interpolate_axis gr.rot cs s pt p.y (embed_interpolate_axis gr cs s pt p.x (s pt)) =
        s0 + gr.Delta * (Gx * p.x + Gy * p.y) := by
    intro hx hy
    rw [embed_interpolate_axis_linear gr cs s pt p.x (s pt) (gr.Delta * Gx) hsx hx,
      embed_interpolate_axis_linear gr.rot cs s pt p.y _ (gr.Delta * Gy) hsy
        (by rw [rot_nb, rot_nb]; exact hy), h00]
    ring
  have hall : (gr.Delta * Gx = 0 ∨ cs (gr.nb pt 1 0) ≠ 0 ∨ cs (gr.nb pt (-1) 0) ≠ 0) →
      (gr.Delta * Gy = 0 ∨ cs (gr.nb pt 0 1) ≠ 0 ∨ cs (gr.nb pt 0 (-1)) ≠ 0) →
      embed_interpolate gr cs pt s p = s0 + gr.Delta * (Gx * p.x + Gy * p.y) := by
    intro hx hy
    unfold embed_interpolate
    dsimp only
    split_ifs
    · exact hbil
    · exact hfall hx hy
  refine ⟨fun h => hall (Or.inr h.1) (Or.inr h.2), ?_, ?_⟩
  · intro h
    unfold embed_interpolate
    dsimp only
    rw [if_pos h]
    exact hbil
  · intro ⟨hx, hy⟩
    rw [hall (Or.inl (by rw [hx]; ring)) (Or.inl (by rw [hy]; ring)), hx, hy]
    ring

/-- Witness of C22 at the cell `(5,5)` with the column to its right solid: the bilinear
branch is not taken (`cs[1] = 0`), the fallback uses the left neighbour, and the linear
field `sLin` is reproduced at `p = (1/4, 1/4)`. -/
theorem embed_interpolate_linear_witness :
    (∀ i j : Int, sLin (gridOne.nb (5, 5) i j) =
      7 + gridOne.Delta * (2 * (i : ℚ) + 3 * (j : ℚ))) ∧
    cWallRight (gridOne.nb (5, 5) (sign (1 / 4)) 0) = 0 ∧
    ((cWallRight (gridOne.nb (5, 5) 1 0) ≠ 0 ∨ cWallRight (gridOne.nb (5, 5) (-1) 0) ≠ 0) ∧
      (cWallRight (gridOne.nb (5, 5) 0 1) ≠ 0 ∨ cWallRight (gridOne.nb (5, 5) 0 (-1)) ≠ 0)) ∧
    embed_interpolate gridOne cWallRight (5, 5) sLin ⟨1 / 4, 1 / 4⟩ =
      7 + gridOne.Delta * (2 * (1 / 4) + 3 * (1 / 4)) :=
  ⟨sLin_linear, by norm_num [sign, gridOne_nb, cWallRight],
    by norm_num [gridOne_nb, cWallRight],
    (embed_interpolate_linear gridOne cWallRight (5, 5) sLin ⟨1 / 4, 1 / 4⟩ 7 2 3
      sLin_linear).1 (by norm_num [gridOne_nb, cWallRight])⟩

end Embed
